import Mathlib

/-!
# Relay coordinator and button recognizer of arduino-multi-relay2

A shallow embedding of `src/src/RelayService.cpp` and `src/src/Button.cpp`
and theorems about them.

Modelling conventions.

* C++ arrays indexed by relay number are total functions `Nat → α`; only the
  entries below `numberOfRelays` are meaningful.
* `unsigned long` values are natural numbers; the places where the source can
  overflow (`start + interval` in `impulseProcess`, `now - start` in
  `getEvent`) are reduced modulo `2 ^ 32` explicitly.
* `millis()` is an input: every call of the coordinator or of the recognizer
  takes the clock value `now` that `millis()` returns during that call.
* The global `EEPROM` object is a field of the state (`Nat → Nat`, one byte
  per address, bytes read modulo 256).
* `RelayService::changeState` recurses along `_relayDependsOn`; the recursion
  is given fuel and the result `none` stands for a call that does not return.
* `Button::getEvent` is a function from the button, `isPinChanged`, `pinState`
  (an `int`, here a natural number) and the clock value to the new button and
  the returned event bits.
-/

namespace lkankowski

/-! ## Data model -/

/-- Relay configuration record: the fields of `RelayConfigDef` that
`RelayService` reads for the logical state (`relayPin` and
`relayDescription` only reach the pin driver). -/
structure RelayConfigDef where
  sensorId : Int
  relayOptions : Nat
  dependsOn : Int

/-- The option bits and the storage base address.  Their declarations are in
headers that are not part of the sources at hand, so they are parameters. -/
structure RelayConsts where
  RELAY_STARTUP_ON : Nat
  RELAY_STARTUP_OFF : Nat
  RELAY_IMPULSE : Nat
  RELAY_INDEPENDENT : Nat
  RELAY_STATE_STORAGE : Nat

/-- Modelled from the spec: the constant `RELAY_STARTUP_MASK` is declared in a
missing header; the spec says a relay is persisted iff it "has neither IMPULSE
nor any STARTUP_* flag", so the mask is the union of the two startup bits. -/
def RelayConsts.RELAY_STARTUP_MASK (K : RelayConsts) : Nat :=
  K.RELAY_STARTUP_ON ||| K.RELAY_STARTUP_OFF

/-- Width of `unsigned long` on the target: arithmetic is modulo `2 ^ 32`. -/
def ULONG_MOD : Nat := 2 ^ 32

/-- Array store `a[i] = v`. -/
def setAt {α : Type} (a : Nat → α) (i : Nat) (v : α) : Nat → α :=
  fun j => if j = i then v else a j

/-- Source `EEPROM.read(idx)`: a `uint8_t`. -/
def EEPROM_read (mem : Nat → Nat) (idx : Nat) : Nat := mem idx % 256

/-- Source `EEPROM.write(idx, val)` with `val` converted to `uint8_t`. -/
def EEPROM_write (mem : Nat → Nat) (idx : Nat) (val : Nat) : Nat → Nat :=
  fun a => if a = idx then val % 256 else mem a

/-- Modelled from the spec: `Relay::changeState` lives in `Relay.cpp`, which is
missing.  The spec (4.D): `change_state(on)` drives the output and "returns
`true` iff the logical state transitioned"; `get_state()` is the logical state.
The result is the new logical state and the returned flag. -/
def Relay_changeState (state : Bool) (newState : Bool) : Bool × Bool :=
  (newState, state != newState)

/-- The members of `RelayService`, with the relays' logical states
(`_relays[i].getState()`) and the EEPROM contents. -/
structure RelayService where
  numberOfRelays : Nat
  relays : Nat → Bool
  relayConfig : Nat → RelayConfigDef
  impulsePending : Int
  impulseInterval : Nat
  isAnyDependentOn : Bool
  storeRelayToEEPROM : Nat → Bool
  relayIsImpulse : Nat → Bool
  relayImpulseStartMillis : Nat → Nat
  relayDependsOn : Nat → Int
  isRelayDependent : Nat → Bool
  eeprom : Nat → Nat

/-- Source `RelayService::RelayService`: the constructor's initialiser list.  The
arrays are allocated but not filled; they get a fixed default content here. -/
def RelayService.construct (numberOfRelays : Nat) (relayConfig : Nat → RelayConfigDef)
    (eeprom : Nat → Nat) : RelayService :=
  { numberOfRelays := numberOfRelays
    relays := fun _ => false
    relayConfig := relayConfig
    impulsePending := 0
    impulseInterval := 250
    isAnyDependentOn := false
    storeRelayToEEPROM := fun _ => false
    relayIsImpulse := fun _ => false
    relayImpulseStartMillis := fun _ => 0
    relayDependsOn := fun _ => -1
    isRelayDependent := fun _ => false
    eeprom := eeprom }

/-! ## Operations -/

/-- Source `RelayService::getRelayNum`: linear lookup of a sensor id. -/
def getRelayNum (numberOfRelays : Nat) (relayConfig : Nat → RelayConfigDef)
    (sensorId : Int) : Int :=
  if sensorId > -1 then
    match (List.range numberOfRelays).find? (fun r => (relayConfig r).sensorId == sensorId) with
    | some r => (r : Int)
    | none => -1
  else -1

/-- First loop body of `RelayService::initialize` (source lines 43-58), for
one `relayNum`; the local array `initialState` is threaded along. -/
def initLoop1 (K : RelayConsts) (resetEepromState : Bool)
    (p : RelayService × (Nat → Bool)) (relayNum : Nat) : RelayService × (Nat → Bool) :=
  let s := p.1
  let opts := (s.relayConfig relayNum).relayOptions
  let init0 : Bool := decide ((opts &&& K.RELAY_STARTUP_ON) > 0)
  let store : Bool := decide ((opts &&& (K.RELAY_IMPULSE ||| K.RELAY_STARTUP_MASK)) = 0)
  let init1 : Bool :=
    if store then decide (EEPROM_read s.eeprom (K.RELAY_STATE_STORAGE + relayNum) = 1) else init0
  let doReset : Bool := store && resetEepromState && init1
  let mem := if doReset then EEPROM_write s.eeprom (K.RELAY_STATE_STORAGE + relayNum) 0 else s.eeprom
  let init2 : Bool := if doReset then false else init1
  let dep : Int :=
    if (s.relayConfig relayNum).sensorId ≠ (s.relayConfig relayNum).dependsOn
    then getRelayNum s.numberOfRelays s.relayConfig (s.relayConfig relayNum).dependsOn
    else -1
  ({ s with
      storeRelayToEEPROM := setAt s.storeRelayToEEPROM relayNum store
      eeprom := mem
      relayIsImpulse := setAt s.relayIsImpulse relayNum (decide ((opts &&& K.RELAY_IMPULSE) ≠ 0))
      relayImpulseStartMillis := setAt s.relayImpulseStartMillis relayNum 0
      relayDependsOn := setAt s.relayDependsOn relayNum dep
      isRelayDependent := setAt s.isRelayDependent relayNum false },
   setAt p.2 relayNum init2)

/-- Second loop body of `RelayService::initialize` (source lines 62-68):
"startup turn on dependents". -/
def initLoop2 (K : RelayConsts)
    (p : RelayService × (Nat → Bool)) (relayNum : Nat) : RelayService × (Nat → Bool) :=
  let s := p.1
  let initialState := p.2
  if s.relayDependsOn relayNum ≠ -1 then
    let m := (s.relayDependsOn relayNum).toNat
    let s1 :=
      if ((s.relayConfig m).relayOptions &&& K.RELAY_INDEPENDENT) = 0 then
        { s with
            isRelayDependent := setAt s.isRelayDependent m true
            isAnyDependentOn := if initialState relayNum then true else s.isAnyDependentOn }
      else s
    (s1, setAt initialState m (initialState relayNum))
  else (s, initialState)

/-- Third loop body of `RelayService::initialize` (source line 72). -/
def initLoop3 (initialState : Nat → Bool) (s : RelayService) (relayNum : Nat) : RelayService :=
  { s with relays := setAt s.relays relayNum (Relay_changeState (s.relays relayNum) (initialState relayNum)).1 }

/-- Source `RelayService::initialize(resetEepromState)`, run on a freshly
constructed service. -/
def RelayService.init (K : RelayConsts) (s : RelayService) (resetEepromState : Bool) : RelayService :=
  let p1 := (List.range s.numberOfRelays).foldl (initLoop1 K resetEepromState) (s, fun _ => false)
  let p2 := (List.range s.numberOfRelays).foldl (initLoop2 K) p1
  (List.range s.numberOfRelays).foldl (initLoop3 p2.2) p2.1

/-- Source lines 83-99 of `RelayService::changeState`: everything after the
recursive call.  Returns the new state and `stateHasChanged`. -/
def changeStateCore (K : RelayConsts) (s : RelayService) (relayNum : Nat) (relayState : Bool)
    (now : Nat) : RelayService × Bool :=
  let r := Relay_changeState (s.relays relayNum) relayState
  let stateHasChanged := r.2
  let s1 := { s with relays := setAt s.relays relayNum r.1 }
  let s2 :=
    if s1.storeRelayToEEPROM relayNum && stateHasChanged then
      { s1 with eeprom := EEPROM_write s1.eeprom (K.RELAY_STATE_STORAGE + relayNum)
                            (if relayState then 1 else 0) }
    else s1
  let s3 :=
    if s2.relayIsImpulse relayNum && stateHasChanged then
      if relayState then
        { s2 with relayImpulseStartMillis := setAt s2.relayImpulseStartMillis relayNum now
                  impulsePending := s2.impulsePending + 1 }
      else
        { s2 with relayImpulseStartMillis := setAt s2.relayImpulseStartMillis relayNum 0
                  impulsePending := s2.impulsePending - 1 }
    else s2
  (s3, stateHasChanged)

/-- Source `RelayService::changeState` with a bound on the recursion depth; `none`
when the bound is exhausted. -/
def changeStateFuel (K : RelayConsts) : Nat → RelayService → Nat → Bool → Nat →
    Option (RelayService × Bool)
  | 0, _, _, _, _ => none
  | fuel + 1, s, relayNum, relayState, now =>
    if relayState && decide (s.relayDependsOn relayNum ≠ -1) then
      match changeStateFuel K fuel s (s.relayDependsOn relayNum).toNat true now with
      | none => none
      | some (s1, _) =>
        some (changeStateCore K { s1 with isAnyDependentOn := true } relayNum relayState now)
    else some (changeStateCore K s relayNum relayState now)

/-- Source `RelayService::changeState(relayNum, relayState)` at clock value `now`.
A dependency chain without a cycle visits at most `numberOfRelays` relays, so
this much fuel is enough exactly when the source's recursion ends. -/
def RelayService.changeState (K : RelayConsts) (s : RelayService) (relayNum : Nat)
    (relayState : Bool) (now : Nat) : Option (RelayService × Bool) :=
  changeStateFuel K (s.numberOfRelays + 1) s relayNum relayState now

/-- Source `RelayService::impulseProcess(relayNum)` at clock value `now`. -/
def RelayService.impulseProcess (K : RelayConsts) (s : RelayService) (relayNum : Nat)
    (now : Nat) : Option (RelayService × Bool) :=
  if s.relayIsImpulse relayNum && decide (s.relayImpulseStartMillis relayNum > 0) then
    let currentMillis := now
    if decide (currentMillis > (s.relayImpulseStartMillis relayNum + s.impulseInterval) % ULONG_MOD)
        || decide (currentMillis < s.relayImpulseStartMillis relayNum) then
      s.changeState K relayNum false now
    else some (s, false)
  else some (s, false)

/-- Inner loop of `RelayService::turnOffDependent` (source lines 123-129): is
there no other relay that depends on `relayNum` and is on? -/
def allMasterTurnedOff (s : RelayService) (relayNum : Nat) : Bool :=
  !(List.range s.numberOfRelays).any (fun masterRelayNum =>
      decide (masterRelayNum ≠ relayNum)
        && decide (s.relayDependsOn masterRelayNum = (relayNum : Int))
        && s.relays masterRelayNum)

/-- Outer loop body of `RelayService::turnOffDependent` (source lines 122-135). -/
def turnOffLoop (K : RelayConsts) (now : Nat) (acc : Option RelayService) (relayNum : Nat) :
    Option RelayService :=
  match acc with
  | none => none
  | some s =>
    if s.isRelayDependent relayNum && s.relays relayNum then
      if allMasterTurnedOff s relayNum then
        match s.changeState K relayNum false now with
        | none => none
        | some (s1, _) => some s1
      else some { s with isAnyDependentOn := true }
    else some s

/-- Source `RelayService::turnOffDependent()`. -/
def RelayService.turnOffDependent (K : RelayConsts) (s : RelayService) (now : Nat) :
    Option (RelayService × Bool) :=
  if s.isAnyDependentOn then
    match (List.range s.numberOfRelays).foldl (turnOffLoop K now)
        (some { s with isAnyDependentOn := false }) with
    | none => none
    | some s1 => some (s1, s1.isAnyDependentOn)
  else some (s, s.isAnyDependentOn)

/-! ## Specification vocabulary -/

/-- Does the dependency chain that starts at `i` reach a relay without master
(`depends_on = -1`) after visiting at most `fuel` relays, all of them valid
indices? -/
def chainEnds (dep : Nat → Int) (n : Nat) : Nat → Nat → Bool
  | 0, _ => false
  | fuel + 1, i =>
    decide (i < n) &&
      (decide (dep i = -1) || (decide (0 ≤ dep i) && chainEnds dep n fuel (dep i).toNat))

/-- The relays reached from `i` through `depends_on`, `i` first, at most
`fuel` of them. -/
def masterChain (dep : Nat → Int) : Nat → Nat → List Nat
  | 0, _ => []
  | fuel + 1, i => i :: (if dep i = -1 then [] else masterChain dep fuel (dep i).toNat)

/-- The resolved `depends_on` graph is acyclic: from every relay the chain of
masters ends.  Every relay has at most one master, so a chain without a cycle
visits pairwise different relays, at most `numberOfRelays` of them. -/
def Acyclic (s : RelayService) : Prop :=
  ∀ i, i < s.numberOfRelays → chainEnds s.relayDependsOn s.numberOfRelays s.numberOfRelays i = true

instance (s : RelayService) : Decidable (Acyclic s) :=
  inferInstanceAs (Decidable (∀ i, i < s.numberOfRelays →
    chainEnds s.relayDependsOn s.numberOfRelays s.numberOfRelays i = true))

/-- Number of relays `i` with `impulse_started_at[i] > 0`. -/
def impulseCount (s : RelayService) : Nat :=
  ((List.range s.numberOfRelays).filter (fun i => decide (s.relayImpulseStartMillis i > 0))).length

/-- States of the coordinator reachable from `initialize` (any reset flag,
any store contents) by completed calls of `changeState`, `impulseProcess` and
`turnOffDependent` on valid relay indices at 32-bit clock values. -/
inductive Reachable (K : RelayConsts) (n : Nat) (cfg : Nat → RelayConfigDef) : RelayService → Prop
  | boot (mem : Nat → Nat) (reset : Bool) :
      Reachable K n cfg ((RelayService.construct n cfg mem).init K reset)
  | changeState {s s1 : RelayService} (i : Nat) (v : Bool) (now : Nat) (b : Bool) :
      Reachable K n cfg s → i < n → now < ULONG_MOD →
      s.changeState K i v now = some (s1, b) → Reachable K n cfg s1
  | impulseProcess {s s1 : RelayService} (i : Nat) (now : Nat) (b : Bool) :
      Reachable K n cfg s → i < n → now < ULONG_MOD →
      s.impulseProcess K i now = some (s1, b) → Reachable K n cfg s1
  | turnOffDependent {s s1 : RelayService} (now : Nat) (b : Bool) :
      Reachable K n cfg s → now < ULONG_MOD →
      s.turnOffDependent K now = some (s1, b) → Reachable K n cfg s1

/-- States reachable from `s0` by completed calls on valid relay indices at
32-bit clock values other than 0. -/
inductive ReachableNonzero (K : RelayConsts) (s0 : RelayService) : RelayService → Prop
  | start : ReachableNonzero K s0 s0
  | changeState {s s1 : RelayService} (i : Nat) (v : Bool) (now : Nat) (b : Bool) :
      ReachableNonzero K s0 s → i < s.numberOfRelays → 0 < now → now < ULONG_MOD →
      s.changeState K i v now = some (s1, b) → ReachableNonzero K s0 s1
  | impulseProcess {s s1 : RelayService} (i : Nat) (now : Nat) (b : Bool) :
      ReachableNonzero K s0 s → i < s.numberOfRelays → 0 < now → now < ULONG_MOD →
      s.impulseProcess K i now = some (s1, b) → ReachableNonzero K s0 s1
  | turnOffDependent {s s1 : RelayService} (now : Nat) (b : Bool) :
      ReachableNonzero K s0 s → 0 < now → now < ULONG_MOD →
      s.turnOffDependent K now = some (s1, b) → ReachableNonzero K s0 s1

/-- A relay with a nonzero impulse start time is an impulse relay and is on. -/
def ImpulseInv (s : RelayService) : Prop :=
  ∀ i, s.relayImpulseStartMillis i ≠ 0 → s.relayIsImpulse i = true ∧ s.relays i = true

/-- Every resolved master is -1 or a valid relay index. -/
def MastersInRange (s : RelayService) : Prop :=
  ∀ i, i < s.numberOfRelays →
    s.relayDependsOn i = -1 ∨
      (0 ≤ s.relayDependsOn i ∧ (s.relayDependsOn i).toNat < s.numberOfRelays)

/-- The impulse bookkeeping is in step: the counter is the number of positive
start times, and every impulse relay that is on has a start time. -/
def CountInv (s : RelayService) : Prop :=
  s.impulsePending = (impulseCount s : Int) ∧
  (∀ i, i < s.numberOfRelays → s.relayIsImpulse i = true → s.relays i = true →
    s.relayImpulseStartMillis i ≠ 0) ∧
  (∀ i, s.relayImpulseStartMillis i ≠ 0 → s.relayIsImpulse i = true ∧ s.relays i = true)

/-- Calls of `turnOffDependent` again and again, from `s`, until it returns
`false`; `t` is the state after the call that returned `false`. -/
inductive TeardownConverges (K : RelayConsts) : RelayService → RelayService → Prop
  | last {s t : RelayService} (now : Nat) :
      s.turnOffDependent K now = some (t, false) → TeardownConverges K s t
  | again {s s1 t : RelayService} (now : Nat) :
      s.turnOffDependent K now = some (s1, true) → TeardownConverges K s1 t →
      TeardownConverges K s t

/-- Value of `_storeRelayToEEPROM[r]` computed at source line 44. -/
def storeOf (K : RelayConsts) (cfg : Nat → RelayConfigDef) (r : Nat) : Bool :=
  decide (((cfg r).relayOptions &&& (K.RELAY_IMPULSE ||| K.RELAY_STARTUP_MASK)) = 0)

/-- Value of `_relayDependsOn[r]` computed at source lines 55-57. -/
def resolvedMaster (n : Nat) (cfg : Nat → RelayConfigDef) (r : Nat) : Int :=
  if (cfg r).sensorId ≠ (cfg r).dependsOn then getRelayNum n cfg (cfg r).dependsOn else -1

/-- Value of `initialState[r]` at the end of the first loop of `initialize`
(source lines 43-52). -/
def bootState (K : RelayConsts) (cfg : Nat → RelayConfigDef) (mem : Nat → Nat) (reset : Bool)
    (r : Nat) : Bool :=
  if storeOf K cfg r then decide (EEPROM_read mem (K.RELAY_STATE_STORAGE + r) = 1) && !reset
  else decide (((cfg r).relayOptions &&& K.RELAY_STARTUP_ON) > 0)

/-- The first `k` rounds of the first loop of `initialize`. -/
def initPass1 (K : RelayConsts) (reset : Bool) (s : RelayService) (k : Nat) :
    RelayService × (Nat → Bool) :=
  (List.range k).foldl (initLoop1 K reset) (s, fun _ => false)

/-! ## Worked configurations -/

/-- A concrete assignment of the option bits and of the storage base. -/
def exampleConsts : RelayConsts :=
  { RELAY_STARTUP_ON := 2, RELAY_STARTUP_OFF := 4, RELAY_IMPULSE := 8,
    RELAY_INDEPENDENT := 16, RELAY_STATE_STORAGE := 1 }

/-- A configuration table given as a list. -/
def configOf (l : List RelayConfigDef) : Nat → RelayConfigDef :=
  fun i => l.getD i { sensorId := 0, relayOptions := 0, dependsOn := 0 }

/-- The state a call leaves behind (`dflt` if the call does not return). -/
def stateAfter (r : Option (RelayService × Bool)) (dflt : RelayService) : RelayService :=
  match r with
  | some p => p.1
  | none => dflt

/-- Scenario 6, configuration: relay A (index 0, sensor 1, IMPULSE) depends
on relay B (index 1, sensor 2, no options). -/
def scenario6Config : Nat → RelayConfigDef :=
  configOf [{ sensorId := 1, relayOptions := 8, dependsOn := 2 },
            { sensorId := 2, relayOptions := 0, dependsOn := 2 }]

/-- Scenario 6 after `initialize(false)` on a zeroed store: both relays off. -/
def scenario6 : RelayService :=
  (RelayService.construct 2 scenario6Config (fun _ => 0)).init exampleConsts false

/-- Scenario 6 after `changeState(A, true)` at clock value `t`. -/
def scenario6OnAt (t : Nat) : RelayService :=
  stateAfter (scenario6.changeState exampleConsts 0 true t) scenario6

/-- Scenario 6 after `changeState(A, true)` at clock value 7. -/
def scenario6On : RelayService := scenario6OnAt 7

/-- Scenario 6 after `changeState(A, true)` at `t` and `impulseProcess(A)` at
`now`. -/
def scenario6Expired (t now : Nat) : RelayService :=
  stateAfter ((scenario6OnAt t).impulseProcess exampleConsts 0 now) (scenario6OnAt t)

/-- Scenario 6 after the further call of `turnOffDependent`. -/
def scenario6TornDown (t now : Nat) : RelayService :=
  stateAfter ((scenario6Expired t now).turnOffDependent exampleConsts now) (scenario6Expired t now)

/-- Scenario 6 after relay B (index 1), the master, was switched on directly
at clock value 7. -/
def scenario6MasterOn : RelayService :=
  stateAfter (scenario6.changeState exampleConsts 1 true 7) scenario6

/-- Two dependents of one master: relay 0 (sensor 1, STARTUP_ON) and relay 1
(sensor 2, STARTUP_OFF) both depend on relay 2 (sensor 3, no options). -/
def twoChildrenConfig : Nat → RelayConfigDef :=
  configOf [{ sensorId := 1, relayOptions := 2, dependsOn := 3 },
            { sensorId := 2, relayOptions := 4, dependsOn := 3 },
            { sensorId := 3, relayOptions := 0, dependsOn := 3 }]

/-- A chain listed master first: relay 2 (sensor 3, STARTUP_ON) depends on
relay 1 (sensor 2, STARTUP_OFF), which depends on relay 0 (sensor 1,
STARTUP_OFF). -/
def chainConfig : Nat → RelayConfigDef :=
  configOf [{ sensorId := 1, relayOptions := 4, dependsOn := 1 },
            { sensorId := 2, relayOptions := 4, dependsOn := 1 },
            { sensorId := 3, relayOptions := 2, dependsOn := 2 }]

/-- A single relay with IMPULSE and STARTUP_ON (sensor 1, no master). -/
def impulseStartupOnConfig : Nat → RelayConfigDef :=
  configOf [{ sensorId := 1, relayOptions := 10, dependsOn := 1 }]

/-- A single relay with STARTUP_ON (sensor 1, no master). -/
def startupOnConfig : Nat → RelayConfigDef :=
  configOf [{ sensorId := 1, relayOptions := 2, dependsOn := 1 }]

/-- A single relay without options (sensor 1, no master), hence persisted. -/
def plainRelayConfig : Nat → RelayConfigDef :=
  configOf [{ sensorId := 1, relayOptions := 0, dependsOn := 1 }]

/-- The condition of the claim for an impulse to be over, in unsigned 32-bit
arithmetic: `now - start > interval` or `now < start`. -/
def deadlineReached (now start interval : Nat) : Bool :=
  decide ((now + ULONG_MOD - start) % ULONG_MOD > interval) || decide (now < start)

/-- Relay 0 (sensor 1, STARTUP_ON) depends on relay 1 (sensor 2, no options,
hence persisted). -/
def startupChildConfig : Nat → RelayConfigDef :=
  configOf [{ sensorId := 1, relayOptions := 2, dependsOn := 2 },
            { sensorId := 2, relayOptions := 0, dependsOn := 2 }]

/-- The configuration `startupChildConfig` after `initialize(reset)` on a
zeroed store. -/
def startupChild (reset : Bool) : RelayService :=
  (RelayService.construct 2 startupChildConfig (fun _ => 0)).init exampleConsts reset

/-- The state of `turnOffDependent` after the first `k` rounds of its outer
loop, for a pass entered with `any_dependent_on` true. -/
def teardownPrefix (K : RelayConsts) (now : Nat) (s : RelayService) (k : Nat) :
    Option RelayService :=
  (List.range k).foldl (turnOffLoop K now) (some { s with isAnyDependentOn := false })

/-- A cyclic configuration: relay 0 (sensor 1) depends on sensor 2 and relay 1
(sensor 2) depends on sensor 1. -/
def cyclicConfig : Nat → RelayConfigDef :=
  configOf [{ sensorId := 1, relayOptions := 0, dependsOn := 2 },
            { sensorId := 2, relayOptions := 0, dependsOn := 1 }]

/-- The cyclic configuration after `initialize(false)` on a zeroed store. -/
def cyclicBoot : RelayService :=
  (RelayService.construct 2 cyclicConfig (fun _ => 0)).init exampleConsts false

/-- A configuration with an unresolved master: the only relay (sensor 1)
depends on sensor 7, which no relay has. -/
def unresolvedConfig : Nat → RelayConfigDef :=
  configOf [{ sensorId := 1, relayOptions := 0, dependsOn := 7 }]

/-- The configuration with the unresolved master after `initialize(false)` on a
zeroed store. -/
def unresolvedBoot : RelayService :=
  (RelayService.construct 1 unresolvedConfig (fun _ => 0)).init exampleConsts false

/-- Where the initial state of relay `j` comes from after the first `k` rounds
of the second loop of `initialize` (source line 67 copies the state of relay
`relayNum` to its master): from relay `j` itself as long as no relay below `k`
has `j` as its master, and else from where the highest relay `r < k` with
master `j` had its own state from when round `r` began. -/
def bootSource (dep : Nat → Int) : Nat → Nat → Nat
  | 0, j => j
  | k + 1, j => if dep k = (j : Int) then bootSource dep k k else bootSource dep k j

/-- Two persisted relays: relay 0 (sensor 1, no options) depends on relay 1
(sensor 2, no options). -/
def persistedPairConfig : Nat → RelayConfigDef :=
  configOf [{ sensorId := 1, relayOptions := 0, dependsOn := 2 },
            { sensorId := 2, relayOptions := 0, dependsOn := 2 }]

/-- A negative sensor id used as a master: relay 0 (sensor 1) depends on
sensor -5, which is the sensor id of relay 1. -/
def negativeIdConfig : Nat → RelayConfigDef :=
  configOf [{ sensorId := 1, relayOptions := 0, dependsOn := -5 },
            { sensorId := -5, relayOptions := 0, dependsOn := -5 }]

/-! ## Button event recognizer (`src/src/Button.cpp`) -/

/-- The four button kinds compared by `Button::getEvent` and
`Button::getButtonAction` (`_type`). -/
inductive ButtonType
  | MONO_STABLE
  | BI_STABLE
  | DING_DONG
  | REED_SWITCH
  deriving DecidableEq

/-- The values of `_eventState`. -/
inductive ButtonState
  | BTN_STATE_INITIAL
  | BTN_STATE_1ST_CHANGE_BI
  | BTN_STATE_1ST_PRESS
  | BTN_STATE_1ST_RELEASE
  | BTN_STATE_2ND_PRESS
  | BTN_STATE_RELEASE_WAIT
  deriving DecidableEq

/-- The values returned by `Button::getButtonAction`. -/
inductive ButtonAction
  | BUTTON_NO_ACTION
  | BUTTON_SINGLE_SHORT_CLICK
  | BUTTON_DOUBLE_SHORT_CLICK
  | BUTTON_SINGLE_LONG_CLICK
  deriving DecidableEq

/-- Modelled from the spec: the event bits are declared in the missing header
`Button.h`; the spec (4.E) gives the output as a "bitfield of {NO_EVENT=0,
PRESSED=1, CLICK=2, DOUBLE_CLICK=4, LONG_PRESS=8, CHANGED=16}". -/
def BUTTON_NO_EVENT : Nat := 0

/-- Modelled from the spec: event bit PRESSED=1 (spec 4.E), declared in the
missing header `Button.h`. -/
def BUTTON_PRESSED : Nat := 1

/-- Modelled from the spec: event bit CLICK=2 (spec 4.E), declared in the
missing header `Button.h`. -/
def BUTTON_CLICK : Nat := 2

/-- Modelled from the spec: event bit DOUBLE_CLICK=4 (spec 4.E), declared in
the missing header `Button.h`. -/
def BUTTON_DOUBLE_CLICK : Nat := 4

/-- Modelled from the spec: event bit LONG_PRESS=8 (spec 4.E), declared in the
missing header `Button.h`. -/
def BUTTON_LONG_PRESS : Nat := 8

/-- Modelled from the spec: event bit CHANGED=16 (spec 4.E), declared in the
missing header `Button.h`. -/
def BUTTON_CHANGED : Nat := 16

/-- The members of `Button` that `getEvent` and `getButtonAction` read or
write, with the three static tunables. -/
structure Button where
  type : ButtonType
  exposed : Bool
  stateForPressed : Bool
  clickRelayNum : Int
  longclickRelayNum : Int
  doubleclickRelayNum : Int
  eventState : ButtonState
  startStateMillis : Nat
  doubleclickInterval : Nat
  longclickInterval : Nat
  monoStableTrigger : Nat

/-- Difference `a - b` of two `unsigned long` values. -/
def ulongSub (a b : Nat) : Nat := (a % ULONG_MOD + ULONG_MOD - b % ULONG_MOD) % ULONG_MOD

/-- Conversion of a `bool` to `int`. -/
def boolToInt (x : Bool) : Nat := if x then 1 else 0

/-- The local `activeLevel` of `Button::getEvent` (source line 127). -/
def Button.activeLevel (b : Button) (pinState : Nat) : Bool :=
  decide (pinState = boolToInt (if b.type = ButtonType.REED_SWITCH then !b.stateForPressed
                                else b.stateForPressed))

/-- The local `hasLongClick` of `Button::getEvent` (source line 129). -/
def Button.hasLongClick (b : Button) : Bool :=
  b.exposed || decide (b.longclickRelayNum ≠ -1)

/-- The local `hasDoubleClick` of `Button::getEvent` (source line 130). -/
def Button.hasDoubleClick (b : Button) : Bool :=
  b.exposed || decide (b.doubleclickRelayNum ≠ -1)

/-- Source lines 134-209 of `Button::getEvent`: the transition, before the
CHANGED bit is added. -/
def Button.transition (b : Button) (isPinChanged : Bool) (pinState : Nat) (now : Nat) :
    Button × Nat :=
  match b.eventState with
  | ButtonState.BTN_STATE_INITIAL =>
    if isPinChanged then
      if b.type = ButtonType.BI_STABLE then
        ({ b with startStateMillis := now, eventState := ButtonState.BTN_STATE_1ST_CHANGE_BI },
          BUTTON_NO_EVENT)
      else
        ({ b with startStateMillis := now, eventState := ButtonState.BTN_STATE_1ST_PRESS },
          BUTTON_PRESSED)
    else (b, BUTTON_NO_EVENT)
  | ButtonState.BTN_STATE_1ST_CHANGE_BI =>
    if !b.hasDoubleClick || decide (ulongSub now b.startStateMillis > b.doubleclickInterval) then
      ({ b with eventState := ButtonState.BTN_STATE_INITIAL }, BUTTON_CLICK)
    else if isPinChanged then
      ({ b with eventState := ButtonState.BTN_STATE_INITIAL }, BUTTON_DOUBLE_CLICK)
    else (b, BUTTON_NO_EVENT)
  | ButtonState.BTN_STATE_1ST_PRESS =>
    if !b.activeLevel pinState then
      if !b.hasDoubleClick then
        ({ b with eventState := ButtonState.BTN_STATE_INITIAL }, BUTTON_CLICK)
      else
        ({ b with eventState := ButtonState.BTN_STATE_1ST_RELEASE }, BUTTON_NO_EVENT)
    else
      if !b.hasDoubleClick && !b.hasLongClick && decide (pinState = b.monoStableTrigger) then
        ({ b with eventState := ButtonState.BTN_STATE_RELEASE_WAIT },
          BUTTON_CLICK ||| BUTTON_PRESSED)
      else if b.hasLongClick
          && decide (ulongSub now b.startStateMillis > b.longclickInterval) then
        ({ b with eventState := ButtonState.BTN_STATE_RELEASE_WAIT },
          BUTTON_LONG_PRESS ||| BUTTON_PRESSED)
      else (b, BUTTON_PRESSED)
  | ButtonState.BTN_STATE_1ST_RELEASE =>
    if ulongSub now b.startStateMillis > b.doubleclickInterval then
      ({ b with eventState := ButtonState.BTN_STATE_INITIAL }, BUTTON_CLICK)
    else if b.activeLevel pinState then
      if pinState = b.monoStableTrigger then
        ({ b with eventState := ButtonState.BTN_STATE_RELEASE_WAIT },
          BUTTON_DOUBLE_CLICK ||| BUTTON_PRESSED)
      else
        ({ b with eventState := ButtonState.BTN_STATE_2ND_PRESS }, BUTTON_PRESSED)
    else (b, BUTTON_NO_EVENT)
  | ButtonState.BTN_STATE_2ND_PRESS =>
    if !b.activeLevel pinState then
      ({ b with eventState := ButtonState.BTN_STATE_INITIAL }, BUTTON_DOUBLE_CLICK)
    else (b, BUTTON_NO_EVENT)
  | ButtonState.BTN_STATE_RELEASE_WAIT =>
    if !b.activeLevel pinState then
      ({ b with eventState := ButtonState.BTN_STATE_INITIAL }, BUTTON_NO_EVENT)
    else (b, BUTTON_NO_EVENT)

/-- Source `Button::getEvent(isPinChanged, pinState)` at clock value `now`:
the new button and the returned event bits. -/
def Button.getEvent (b : Button) (isPinChanged : Bool) (pinState : Nat) (now : Nat) :
    Button × Nat :=
  let r := b.transition isPinChanged pinState now
  (r.1, if isPinChanged then r.2 ||| BUTTON_CHANGED else r.2)

/-- Source `Button::getButtonAction(isPinChanged, buttonAction)`. -/
def Button.getButtonAction (b : Button) (isPinChanged : Bool) (buttonAction : Nat) :
    ButtonAction :=
  if isPinChanged && (decide (b.type = ButtonType.DING_DONG)
      || decide (b.type = ButtonType.REED_SWITCH)) then
    ButtonAction.BUTTON_SINGLE_SHORT_CLICK
  else if buttonAction &&& BUTTON_CLICK ≠ 0 then
    ButtonAction.BUTTON_SINGLE_SHORT_CLICK
  else if buttonAction &&& BUTTON_DOUBLE_CLICK ≠ 0 then
    ButtonAction.BUTTON_DOUBLE_SHORT_CLICK
  else if buttonAction &&& BUTTON_LONG_PRESS ≠ 0 then
    ButtonAction.BUTTON_SINGLE_LONG_CLICK
  else ButtonAction.BUTTON_NO_ACTION

/-- One tick of input to the recognizer: `changed`, the pin level and the
clock value. -/
structure Tick where
  isPinChanged : Bool
  pinState : Nat
  now : Nat

/-- One tick: `getEvent`, then `getButtonAction` of its output.  The result is
the new button, the event bits and the action. -/
def Button.step (b : Button) (t : Tick) : Button × (Nat × ButtonAction) :=
  let r := b.getEvent t.isPinChanged t.pinState t.now
  (r.1, (r.2, b.getButtonAction t.isPinChanged r.2))

/-- A sequence of ticks: the final button and the event bits and action of
every tick. -/
def Button.run (b : Button) : List Tick → Button × List (Nat × ButtonAction)
  | [] => (b, [])
  | t :: ts => (((b.step t).1.run ts).1, (b.step t).2 :: ((b.step t).1.run ts).2)

/-- The button after a sequence of ticks. -/
def Button.after (b : Button) (ts : List Tick) : Button := (b.run ts).1

/-- The actions of a sequence of ticks, one per tick. -/
def Button.actions (b : Button) (ts : List Tick) : List ButtonAction :=
  (b.run ts).2.map (fun o => o.2)

/-- The event bits of a sequence of ticks, one per tick. -/
def Button.events (b : Button) (ts : List Tick) : List Nat :=
  (b.run ts).2.map (fun o => o.1)

/-- The button `b` put into recognizer state `st` with start time `t0`. -/
def Button.withState (b : Button) (st : ButtonState) (t0 : Nat) : Button :=
  { b with eventState := st, startStateMillis := t0 }

/-- A press edge: the level changed and is the active one. -/
def Button.isPressEdge (b : Button) (t : Tick) : Prop :=
  t.isPinChanged = true ∧ b.activeLevel t.pinState = true

/-- A held tick: no change, level active. -/
def Button.isHeld (b : Button) (t : Tick) : Prop :=
  t.isPinChanged = false ∧ b.activeLevel t.pinState = true

/-- A release edge: the level changed and is the inactive one. -/
def Button.isReleaseEdge (b : Button) (t : Tick) : Prop :=
  t.isPinChanged = true ∧ b.activeLevel t.pinState = false

/-- An idle tick: no change, level inactive. -/
def Button.isIdle (b : Button) (t : Tick) : Prop :=
  t.isPinChanged = false ∧ b.activeLevel t.pinState = false

instance (b : Button) (t : Tick) : Decidable (b.isPressEdge t) :=
  inferInstanceAs (Decidable (t.isPinChanged = true ∧ b.activeLevel t.pinState = true))

instance (b : Button) (t : Tick) : Decidable (b.isHeld t) :=
  inferInstanceAs (Decidable (t.isPinChanged = false ∧ b.activeLevel t.pinState = true))

instance (b : Button) (t : Tick) : Decidable (b.isReleaseEdge t) :=
  inferInstanceAs (Decidable (t.isPinChanged = true ∧ b.activeLevel t.pinState = false))

instance (b : Button) (t : Tick) : Decidable (b.isIdle t) :=
  inferInstanceAs (Decidable (t.isPinChanged = false ∧ b.activeLevel t.pinState = false))

/-- A MONO_STABLE button in INITIAL with the default intervals 350 / 800. -/
def monoButton (exposed stateForPressed : Bool) (click long double : Int) (trigger : Nat) :
    Button :=
  { type := ButtonType.MONO_STABLE, exposed := exposed, stateForPressed := stateForPressed,
    clickRelayNum := click, longclickRelayNum := long, doubleclickRelayNum := double,
    eventState := ButtonState.BTN_STATE_INITIAL, startStateMillis := 0,
    doubleclickInterval := 350, longclickInterval := 800, monoStableTrigger := trigger }

/-- Scenario 1: MONO_STABLE, pressed level 1, trigger level 0, not exposed,
click target relay 0, no long-click or double-click target. -/
def scenario1Button : Button := monoButton false true 0 (-1) (-1) 0

/-- Scenario 2: as scenario 1, with double-click target relay 1. -/
def scenario2Button : Button := monoButton false true 0 (-1) 1 0

/-- How many idle ticks past the double-click window a recognizer state is
away from INITIAL, at most. -/
def idleRank : ButtonState → Nat
  | ButtonState.BTN_STATE_INITIAL => 0
  | ButtonState.BTN_STATE_1ST_PRESS => 2
  | _ => 1

/-- An idle tick past the double-click window that started at `t0`. -/
def Button.isLate (b : Button) (t0 : Nat) (t : Tick) : Bool :=
  decide (ulongSub t.now t0 > b.doubleclickInterval)

/-- A BI_STABLE button in INITIAL with the default intervals 350 / 800. -/
def biButton (exposed stateForPressed : Bool) (click long double : Int) : Button :=
  { type := ButtonType.BI_STABLE, exposed := exposed, stateForPressed := stateForPressed,
    clickRelayNum := click, longclickRelayNum := long, doubleclickRelayNum := double,
    eventState := ButtonState.BTN_STATE_INITIAL, startStateMillis := 0,
    doubleclickInterval := 350, longclickInterval := 800, monoStableTrigger := 0 }

/-- Scenario 2, the four edges. -/
def scenario2Ticks : List Tick :=
  [⟨true, 1, 0⟩, ⟨true, 0, 100⟩, ⟨true, 1, 200⟩, ⟨true, 0, 250⟩]

/-! ## Basic facts about the operations -/

theorem setAt_same {α : Type} (a : Nat → α) (i : Nat) (v : α) : setAt a i v i = v := by
  simp [setAt]

theorem setAt_other {α : Type} (a : Nat → α) (i j : Nat) (v : α) (h : j ≠ i) :
    setAt a i v j = a j := by
  simp [setAt, h]

theorem changeStateCore_relays (K : RelayConsts) (s : RelayService) (i : Nat) (v : Bool)
    (now : Nat) : (changeStateCore K s i v now).1.relays = setAt s.relays i v := by
  unfold changeStateCore Relay_changeState
  dsimp only
  split_ifs <;> rfl

theorem changeStateCore_changed (K : RelayConsts) (s : RelayService) (i : Nat) (v : Bool)
    (now : Nat) : (changeStateCore K s i v now).2 = (s.relays i != v) := rfl

theorem changeStateCore_static (K : RelayConsts) (s : RelayService) (i : Nat) (v : Bool)
    (now : Nat) :
    (changeStateCore K s i v now).1.numberOfRelays = s.numberOfRelays ∧
    (changeStateCore K s i v now).1.relayDependsOn = s.relayDependsOn ∧
    (changeStateCore K s i v now).1.isRelayDependent = s.isRelayDependent ∧
    (changeStateCore K s i v now).1.relayIsImpulse = s.relayIsImpulse ∧
    (changeStateCore K s i v now).1.storeRelayToEEPROM = s.storeRelayToEEPROM ∧
    (changeStateCore K s i v now).1.isAnyDependentOn = s.isAnyDependentOn ∧
    (changeStateCore K s i v now).1.impulseInterval = s.impulseInterval ∧
    (changeStateCore K s i v now).1.relayConfig = s.relayConfig := by
  unfold changeStateCore Relay_changeState
  dsimp only
  split_ifs <;> simp

/-- Switching a relay off never recurses: the call returns at once. -/
theorem changeState_off (K : RelayConsts) (s : RelayService) (i : Nat) (now : Nat) :
    s.changeState K i false now = some (changeStateCore K s i false now) := by
  simp [RelayService.changeState, changeStateFuel]

/-- Switching on a relay without master does not recurse either. -/
theorem changeState_noMaster (K : RelayConsts) (s : RelayService) (i : Nat) (v : Bool)
    (now : Nat) (h : s.relayDependsOn i = -1) :
    s.changeState K i v now = some (changeStateCore K s i v now) := by
  simp [RelayService.changeState, changeStateFuel, h]

theorem mem_masterChain (dep : Nat → Int) (f i j : Nat) (h : j ∈ masterChain dep f i) :
    j = i ∨ (dep i ≠ -1 ∧ ∃ g, j ∈ masterChain dep g (dep i).toNat) := by
  cases f with
  | zero => simp [masterChain] at h
  | succ f =>
    simp only [masterChain, List.mem_cons] at h
    rcases h with h | h
    · exact Or.inl h
    · by_cases hd : dep i = -1
      · simp [hd] at h
      · simp only [hd, if_false] at h
        exact Or.inr ⟨hd, f, h⟩

/-- Switching a relay on along a dependency chain that ends: the call returns,
whatever fuel is left over, and every relay of the chain is on afterwards. -/
theorem changeStateFuel_on (K : RelayConsts) (now : Nat) :
    ∀ (fuel extra : Nat) (s : RelayService) (i : Nat),
      chainEnds s.relayDependsOn s.numberOfRelays fuel i = true →
      ∃ s1 b, changeStateFuel K (fuel + extra) s i true now = some (s1, b) ∧
        s1.numberOfRelays = s.numberOfRelays ∧ s1.relayDependsOn = s.relayDependsOn ∧
        (∀ f j, j ∈ masterChain s.relayDependsOn f i → s1.relays j = true) ∧
        (s.relayDependsOn i ≠ -1 → s1.isAnyDependentOn = true) := by
  intro fuel
  induction fuel with
  | zero => intro extra s i h; simp [chainEnds] at h
  | succ fuel ih =>
    intro extra s i h
    simp only [chainEnds, Bool.and_eq_true, Bool.or_eq_true, decide_eq_true_eq] at h
    rw [Nat.succ_add]
    by_cases hd : s.relayDependsOn i = -1
    · refine ⟨(changeStateCore K s i true now).1, (changeStateCore K s i true now).2, ?_,
        (changeStateCore_static K s i true now).1, (changeStateCore_static K s i true now).2.1,
        ?_, fun hne => absurd hd hne⟩
      · simp [changeStateFuel, hd]
      · intro f j hj
        rcases mem_masterChain _ _ _ _ hj with rfl | ⟨hne, _⟩
        · rw [changeStateCore_relays, setAt_same]
        · exact absurd hd hne
    · rcases h.2 with h2 | h2
      · exact absurd h2 hd
      · obtain ⟨s1, b1, hrun, hn, hdep, hchain, _⟩ := ih extra s (s.relayDependsOn i).toNat h2.2
        refine ⟨(changeStateCore K { s1 with isAnyDependentOn := true } i true now).1,
          (changeStateCore K { s1 with isAnyDependentOn := true } i true now).2, ?_, ?_, ?_, ?_, ?_⟩
        · simp [changeStateFuel, hd, hrun]
        · rw [(changeStateCore_static K _ i true now).1]; exact hn
        · rw [(changeStateCore_static K _ i true now).2.1]; exact hdep
        · intro f j hj
          rw [changeStateCore_relays]
          rcases mem_masterChain _ _ _ _ hj with rfl | ⟨_, g, hg⟩
          · rw [setAt_same]
          · by_cases hji : j = i
            · rw [hji, setAt_same]
            · rw [setAt_other _ _ _ _ hji]; exact hchain g j hg
        · intro _
          rw [(changeStateCore_static K _ i true now).2.2.2.2.2.1]

/-- In an acyclic configuration every call of `changeState` on a valid index
returns. -/
theorem changeState_returns (K : RelayConsts) (s : RelayService) (i : Nat) (v : Bool) (now : Nat)
    (hac : Acyclic s) (hi : i < s.numberOfRelays) :
    ∃ s1 b, s.changeState K i v now = some (s1, b) := by
  cases v with
  | false => exact ⟨_, _, changeState_off K s i now⟩
  | true =>
    obtain ⟨s1, b, h, _⟩ := changeStateFuel_on K now s.numberOfRelays 1 s i (hac i hi)
    exact ⟨s1, b, h⟩

/-- C1: in an acyclic configuration, for a valid relay `i` with a master
`m = depends_on[i] ≠ -1`, the call `changeState(i, true)` returns, and
afterwards relay `i` is on, relay `m` is on, every relay reached from `i`
through `depends_on` is on, and `any_dependent_on` is true. -/
theorem changeState_on_forces_masters (K : RelayConsts) (s : RelayService) (i : Nat) (now : Nat)
    (hac : Acyclic s) (hi : i < s.numberOfRelays) (hm : s.relayDependsOn i ≠ -1) :
    ∃ s1 b, s.changeState K i true now = some (s1, b) ∧
      s1.relays i = true ∧
      s1.relays (s.relayDependsOn i).toNat = true ∧
      (∀ f j, j ∈ masterChain s.relayDependsOn f i → s1.relays j = true) ∧
      s1.isAnyDependentOn = true := by
  obtain ⟨s1, b, hrun, _, _, hchain, hflag⟩ :=
    changeStateFuel_on K now s.numberOfRelays 1 s i (hac i hi)
  refine ⟨s1, b, hrun, hchain 1 i (by simp [masterChain]), hchain 2 _ ?_, hchain, hflag hm⟩
  simp [masterChain, hm]

/-- C1, instance: scenario 6, relay A (index 0) with master B (index 1). -/
theorem changeState_on_forces_masters_witness :
    Acyclic scenario6 ∧ 0 < scenario6.numberOfRelays ∧ scenario6.relayDependsOn 0 ≠ -1 ∧
    ∃ s1 b, scenario6.changeState exampleConsts 0 true 7 = some (s1, b) ∧
      s1.relays 0 = true ∧
      s1.relays (scenario6.relayDependsOn 0).toNat = true ∧
      (∀ f j, j ∈ masterChain scenario6.relayDependsOn f 0 → s1.relays j = true) ∧
      s1.isAnyDependentOn = true :=
  ⟨by decide, by decide, by decide,
    changeState_on_forces_masters exampleConsts scenario6 0 7 (by decide) (by decide) (by decide)⟩

/-! ## The impulse bookkeeping invariant -/

theorem foldl_preserves {α β : Type} (P : α → Prop) (f : α → β → α)
    (hf : ∀ a b, P a → P (f a b)) : ∀ (l : List β) (a : α), P a → P (l.foldl f a) := by
  intro l
  induction l with
  | nil => intro a ha; exact ha
  | cons b l ih => intro a ha; exact ih (f a b) (hf a b ha)

theorem foldl_preserves_mem {α β : Type} (P : α → Prop) (f : α → β → α) :
    ∀ (l : List β) (a : α), (∀ a b, b ∈ l → P a → P (f a b)) → P a → P (l.foldl f a) := by
  intro l
  induction l with
  | nil => intro a _ ha; exact ha
  | cons b l ih =>
    intro a hf ha
    exact ih (f a b) (fun a c hc h => hf a c (List.mem_cons_of_mem _ hc) h)
      (hf a b (List.mem_cons_self _ _) ha)

theorem changeStateCore_start (K : RelayConsts) (s : RelayService) (i : Nat) (v : Bool)
    (now : Nat) :
    (changeStateCore K s i v now).1.relayImpulseStartMillis =
      if (s.relayIsImpulse i && (s.relays i != v)) = true
      then setAt s.relayImpulseStartMillis i (if v = true then now else 0)
      else s.relayImpulseStartMillis := by
  unfold changeStateCore Relay_changeState
  dsimp only
  split_ifs <;> simp_all

theorem changeStateCore_impulseInv (K : RelayConsts) (s : RelayService) (i : Nat) (v : Bool)
    (now : Nat) (h : ImpulseInv s) : ImpulseInv (changeStateCore K s i v now).1 := by
  intro j hj
  rw [changeStateCore_start] at hj
  rw [changeStateCore_relays, (changeStateCore_static K s i v now).2.2.2.1]
  by_cases hji : j = i
  · subst hji
    rw [setAt_same]
    by_cases hc : (s.relayIsImpulse j && (s.relays j != v)) = true
    · rw [if_pos hc, setAt_same] at hj
      cases v with
      | false => simp at hj
      | true => simp at hc; exact ⟨hc.1, rfl⟩
    · rw [if_neg hc] at hj
      obtain ⟨h1, h2⟩ := h j hj
      refine ⟨h1, ?_⟩
      cases v with
      | true => rfl
      | false => simp [h1, h2] at hc
  · rw [setAt_other _ _ _ _ hji]
    by_cases hc : (s.relayIsImpulse i && (s.relays i != v)) = true
    · rw [if_pos hc, setAt_other _ _ _ _ hji] at hj; exact h j hj
    · rw [if_neg hc] at hj; exact h j hj

theorem changeStateFuel_impulseInv (K : RelayConsts) (now : Nat) :
    ∀ (fuel : Nat) (s s1 : RelayService) (i : Nat) (v b : Bool),
      ImpulseInv s → changeStateFuel K fuel s i v now = some (s1, b) → ImpulseInv s1 := by
  intro fuel
  induction fuel with
  | zero => intro s s1 i v b _ h; simp [changeStateFuel] at h
  | succ fuel ih =>
    intro s s1 i v b hinv h
    simp only [changeStateFuel] at h
    split_ifs at h with hc
    · split at h
      · exact absurd h (by simp)
      · rename_i t b1 hrec
        have ht : ImpulseInv t := ih s t _ true b1 hinv hrec
        have ht2 : ImpulseInv { t with isAnyDependentOn := true } := ht
        have := changeStateCore_impulseInv K _ i v now ht2
        simp only [Option.some.injEq] at h
        rw [h] at this
        exact this
    · simp only [Option.some.injEq] at h
      have := changeStateCore_impulseInv K s i v now hinv
      rw [h] at this
      exact this

theorem turnOffLoop_preserves (K : RelayConsts) (now : Nat) (P : RelayService → Prop) (i : Nat)
    (hcore : ∀ s, P s → P (changeStateCore K s i false now).1)
    (hflag : ∀ s : RelayService, P s → P { s with isAnyDependentOn := true })
    (acc : Option RelayService) (h : ∀ t, acc = some t → P t) :
    ∀ t, turnOffLoop K now acc i = some t → P t := by
  intro t ht
  cases acc with
  | none => simp [turnOffLoop] at ht
  | some s =>
    have hs := h s rfl
    simp only [turnOffLoop, changeState_off] at ht
    split_ifs at ht
    · simp only [Option.some.injEq] at ht; rw [← ht]; exact hcore s hs
    · simp only [Option.some.injEq] at ht; rw [← ht]; exact hflag s hs
    · simp only [Option.some.injEq] at ht; rw [← ht]; exact hs

/-- A property kept by switching a valid relay off and by writing
`any_dependent_on` is kept by `turnOffDependent`. -/
theorem turnOffDependent_preserves_valid (K : RelayConsts) (now : Nat) (P : RelayService → Prop)
    (s s1 : RelayService) (b : Bool)
    (hcore : ∀ t i, i < s.numberOfRelays → P t → P (changeStateCore K t i false now).1)
    (hflag : ∀ (t : RelayService) (f : Bool), P t → P { t with isAnyDependentOn := f })
    (hs : P s) (h : s.turnOffDependent K now = some (s1, b)) : P s1 := by
  unfold RelayService.turnOffDependent at h
  split_ifs at h
  · have key := foldl_preserves_mem (fun acc : Option RelayService => ∀ t, acc = some t → P t)
      (turnOffLoop K now) (List.range s.numberOfRelays) (some { s with isAnyDependentOn := false })
      (fun acc i hi hacc => turnOffLoop_preserves K now P i
        (fun t ht => hcore t i (List.mem_range.mp hi) ht) (fun t ht => hflag t true ht) acc hacc)
      (fun t ht => by simp only [Option.some.injEq] at ht; rw [← ht]; exact hflag s false hs)
    split at h
    · exact absurd h (by simp)
    · rename_i t heq
      simp only [Option.some.injEq, Prod.mk.injEq] at h
      rw [← h.1]
      exact key t heq
  · simp only [Option.some.injEq, Prod.mk.injEq] at h
    rw [← h.1]; exact hs

/-- A property kept by switching a relay off and by writing
`any_dependent_on` is kept by `turnOffDependent`. -/
theorem turnOffDependent_preserves (K : RelayConsts) (now : Nat) (P : RelayService → Prop)
    (hcore : ∀ s i, P s → P (changeStateCore K s i false now).1)
    (hflag : ∀ (s : RelayService) (f : Bool), P s → P { s with isAnyDependentOn := f })
    (s s1 : RelayService) (b : Bool) (hs : P s)
    (h : s.turnOffDependent K now = some (s1, b)) : P s1 :=
  turnOffDependent_preserves_valid K now P s s1 b (fun t i _ ht => hcore t i ht) hflag hs h

theorem initLoop1_start (K : RelayConsts) (reset : Bool) (p : RelayService × (Nat → Bool))
    (r : Nat) (h : ∀ j, p.1.relayImpulseStartMillis j = 0) :
    ∀ j, (initLoop1 K reset p r).1.relayImpulseStartMillis j = 0 := by
  intro j
  simp only [initLoop1, setAt]
  split_ifs <;> first | rfl | exact h j

theorem initLoop2_start (K : RelayConsts) (p : RelayService × (Nat → Bool))
    (r : Nat) (h : ∀ j, p.1.relayImpulseStartMillis j = 0) :
    ∀ j, (initLoop2 K p r).1.relayImpulseStartMillis j = 0 := by
  intro j
  simp only [initLoop2]
  split_ifs <;> exact h j

theorem init_start (K : RelayConsts) (n : Nat) (cfg : Nat → RelayConfigDef) (mem : Nat → Nat)
    (reset : Bool) :
    ∀ j, ((RelayService.construct n cfg mem).init K reset).relayImpulseStartMillis j = 0 := by
  unfold RelayService.init
  dsimp only
  apply foldl_preserves (fun t : RelayService => ∀ j, t.relayImpulseStartMillis j = 0)
  · intro a b ha j; exact ha j
  · apply foldl_preserves (fun p : RelayService × (Nat → Bool) => ∀ j, p.1.relayImpulseStartMillis j = 0)
    · exact fun a b ha => initLoop2_start K a b ha
    · apply foldl_preserves (fun p : RelayService × (Nat → Bool) => ∀ j, p.1.relayImpulseStartMillis j = 0)
      · exact fun a b ha => initLoop1_start K reset a b ha
      · intro j; rfl

theorem reachable_impulseInv (K : RelayConsts) (n : Nat) (cfg : Nat → RelayConfigDef)
    (s : RelayService) (h : Reachable K n cfg s) : ImpulseInv s := by
  induction h with
  | boot mem reset =>
    intro i hi
    exact absurd (init_start K n cfg mem reset i) hi
  | changeState i v now b _ _ _ hrun ih =>
    exact changeStateFuel_impulseInv K now _ _ _ i v b ih hrun
  | impulseProcess i now b _ _ _ hrun ih =>
    unfold RelayService.impulseProcess at hrun
    dsimp only at hrun
    split_ifs at hrun
    · exact changeStateFuel_impulseInv K now _ _ _ i false b ih hrun
    · simp only [Option.some.injEq, Prod.mk.injEq] at hrun; rw [← hrun.1]; exact ih
    · simp only [Option.some.injEq, Prod.mk.injEq] at hrun; rw [← hrun.1]; exact ih
  | turnOffDependent now b _ _ hrun ih =>
    exact turnOffDependent_preserves K now ImpulseInv
      (fun s i hs => changeStateCore_impulseInv K s i false now hs)
      (fun s f hs => hs) _ _ b ih hrun

/-- C4: in every state reachable from `initialize` by `changeState`,
`impulseProcess` and `turnOffDependent` calls, a relay `i` with
`impulse_started_at[i] != 0` is an impulse relay and is on. -/
theorem impulse_started_implies_impulse_on (K : RelayConsts) (n : Nat)
    (cfg : Nat → RelayConfigDef) (s : RelayService) (i : Nat)
    (hreach : Reachable K n cfg s) (hstart : s.relayImpulseStartMillis i ≠ 0) :
    s.relayIsImpulse i = true ∧ s.relays i = true :=
  reachable_impulseInv K n cfg s hreach i hstart

/-- C4, instance: scenario 6 after relay A was switched on at clock value 7. -/
theorem impulse_started_implies_impulse_on_witness :
    Reachable exampleConsts 2 scenario6Config scenario6On ∧
    scenario6On.relayImpulseStartMillis 0 ≠ 0 ∧
    (scenario6On.relayIsImpulse 0 = true ∧ scenario6On.relays 0 = true) :=
  have hreach : Reachable exampleConsts 2 scenario6Config scenario6On :=
    Reachable.changeState 0 true 7 true (Reachable.boot (fun _ => 0) false)
      (by decide) (by decide) rfl
  ⟨hreach, by decide,
    impulse_started_implies_impulse_on exampleConsts 2 scenario6Config scenario6On 0 hreach
      (by decide)⟩

/-! ## What a call leaves untouched -/

theorem chainEnds_succ (dep : Nat → Int) (n : Nat) :
    ∀ (f i : Nat), chainEnds dep n f i = true → chainEnds dep n (f + 1) i = true := by
  intro f
  induction f with
  | zero => intro i h; simp [chainEnds] at h
  | succ f ih =>
    intro i h
    rw [chainEnds] at h ⊢
    simp only [Bool.and_eq_true, Bool.or_eq_true, decide_eq_true_eq] at h ⊢
    refine ⟨h.1, ?_⟩
    rcases h.2 with h2 | h2
    · exact Or.inl h2
    · exact Or.inr ⟨h2.1, ih _ h2.2⟩

/-- A chain that ends within `f` relays ends within `f` relays from each of
its members. -/
theorem chainEnds_of_mem (dep : Nat → Int) (n : Nat) :
    ∀ (g i j f : Nat), j ∈ masterChain dep g i → chainEnds dep n f i = true →
      chainEnds dep n f j = true := by
  intro g
  induction g with
  | zero => intro i j f hj; simp [masterChain] at hj
  | succ g ih =>
    intro i j f hj h
    simp only [masterChain, List.mem_cons] at hj
    rcases hj with rfl | hj
    · exact h
    · by_cases hd : dep i = -1
      · simp [hd] at hj
      · simp only [hd, if_false] at hj
        cases f with
        | zero => simp [chainEnds] at h
        | succ f =>
          rw [chainEnds] at h
          simp only [Bool.and_eq_true, Bool.or_eq_true, decide_eq_true_eq] at h
          rcases h.2 with h2 | h2
          · exact absurd h2 hd
          · exact chainEnds_succ dep n f j (ih _ j f hj h2.2)

/-- In a chain that ends, a relay is not among its own masters. -/
theorem not_mem_own_masters (dep : Nat → Int) (n g i : Nat) :
    ∀ f, chainEnds dep n f i = true → dep i ≠ -1 → i ∉ masterChain dep g (dep i).toNat := by
  intro f
  induction f with
  | zero => intro h; simp [chainEnds] at h
  | succ f ih =>
    intro h hd hmem
    have h0 := h
    rw [chainEnds] at h
    simp only [Bool.and_eq_true, Bool.or_eq_true, decide_eq_true_eq] at h
    rcases h.2 with h2 | h2
    · exact hd h2
    · exact ih (chainEnds_of_mem dep n g _ i f hmem h2.2) hd hmem

theorem changeStateCore_eeprom (K : RelayConsts) (s : RelayService) (i : Nat) (v : Bool)
    (now : Nat) :
    (changeStateCore K s i v now).1.eeprom =
      if (s.storeRelayToEEPROM i && (s.relays i != v)) = true
      then EEPROM_write s.eeprom (K.RELAY_STATE_STORAGE + i) (if v = true then 1 else 0)
      else s.eeprom := by
  unfold changeStateCore Relay_changeState
  dsimp only
  split_ifs <;> simp_all

theorem changeStateCore_impulsePending (K : RelayConsts) (s : RelayService) (i : Nat) (v : Bool)
    (now : Nat) :
    (changeStateCore K s i v now).1.impulsePending =
      if (s.relayIsImpulse i && (s.relays i != v)) = true
      then (if v = true then s.impulsePending + 1 else s.impulsePending - 1)
      else s.impulsePending := by
  unfold changeStateCore Relay_changeState
  dsimp only
  split_ifs <;> simp_all

theorem EEPROM_read_write_same (mem : Nat → Nat) (a v : Nat) :
    EEPROM_read (EEPROM_write mem a v) a = v % 256 := by
  simp [EEPROM_read, EEPROM_write]

theorem EEPROM_read_write_other (mem : Nat → Nat) (a b v : Nat) (h : b ≠ a) :
    EEPROM_read (EEPROM_write mem a v) b = EEPROM_read mem b := by
  simp [EEPROM_read, EEPROM_write, h]

/-- A call of `changeState` touches only the relays of the dependency chain:
state, persistent byte and impulse start time of every other relay stay. -/
theorem changeStateFuel_frame (K : RelayConsts) (now : Nat) :
    ∀ (fuel : Nat) (s s1 : RelayService) (i : Nat) (v b : Bool),
      changeStateFuel K fuel s i v now = some (s1, b) →
      ∀ j, j ∉ masterChain s.relayDependsOn fuel i →
        s1.relays j = s.relays j ∧
        s1.eeprom (K.RELAY_STATE_STORAGE + j) = s.eeprom (K.RELAY_STATE_STORAGE + j) ∧
        s1.relayImpulseStartMillis j = s.relayImpulseStartMillis j := by
  intro fuel
  induction fuel with
  | zero => intro s s1 i v b h; simp [changeStateFuel] at h
  | succ fuel ih =>
    intro s s1 i v b h j hj
    simp only [masterChain, List.mem_cons, not_or] at hj
    have hji : j ≠ i := hj.1
    have hcore : ∀ t : RelayService,
        (changeStateCore K t i v now).1.relays j = t.relays j ∧
        (changeStateCore K t i v now).1.eeprom (K.RELAY_STATE_STORAGE + j)
          = t.eeprom (K.RELAY_STATE_STORAGE + j) ∧
        (changeStateCore K t i v now).1.relayImpulseStartMillis j
          = t.relayImpulseStartMillis j := by
      intro t
      rw [changeStateCore_relays, changeStateCore_eeprom, changeStateCore_start]
      refine ⟨setAt_other _ _ _ _ hji, ?_, ?_⟩
      · by_cases hc : (t.storeRelayToEEPROM i && (t.relays i != v)) = true
        · rw [if_pos hc]; simp [EEPROM_write, hji]
        · rw [if_neg hc]
      · by_cases hc : (t.relayIsImpulse i && (t.relays i != v)) = true
        · rw [if_pos hc]; exact setAt_other _ _ _ _ hji
        · rw [if_neg hc]
    simp only [changeStateFuel] at h
    split_ifs at h with hc
    · simp only [Bool.and_eq_true, decide_eq_true_eq] at hc
      have hrest : j ∉ masterChain s.relayDependsOn fuel (s.relayDependsOn i).toNat := by
        have := hj.2
        simpa [hc.2] using this
      split at h
      · exact absurd h (by simp)
      · rename_i t b1 hrec
        obtain ⟨r1, r2, r3⟩ := ih s t _ true b1 hrec j hrest
        simp only [Option.some.injEq] at h
        obtain ⟨c1, c2, c3⟩ := hcore { t with isAnyDependentOn := true }
        rw [h] at c1 c2 c3
        exact ⟨c1.trans r1, c2.trans r2, c3.trans r3⟩
    · simp only [Option.some.injEq] at h
      obtain ⟨c1, c2, c3⟩ := hcore s
      rw [h] at c1 c2 c3
      exact ⟨c1, c2, c3⟩

/-- A property kept by the body of `changeState` and by raising
`any_dependent_on` is kept by every completed call of `changeState`. -/
theorem changeStateFuel_preserves (K : RelayConsts) (now : Nat) (P : RelayService → Prop)
    (hcore : ∀ s i v, P s → P (changeStateCore K s i v now).1)
    (hflag : ∀ s : RelayService, P s → P { s with isAnyDependentOn := true }) :
    ∀ (fuel : Nat) (s s1 : RelayService) (i : Nat) (v b : Bool),
      P s → changeStateFuel K fuel s i v now = some (s1, b) → P s1 := by
  intro fuel
  induction fuel with
  | zero => intro s s1 i v b _ h; simp [changeStateFuel] at h
  | succ fuel ih =>
    intro s s1 i v b hs h
    simp only [changeStateFuel] at h
    split_ifs at h with hc
    · split at h
      · exact absurd h (by simp)
      · rename_i t b1 hrec
        have := hcore _ i v (hflag t (ih s t _ true b1 hs hrec))
        simp only [Option.some.injEq] at h
        rw [h] at this
        exact this
    · simp only [Option.some.injEq] at h
      have := hcore s i v hs
      rw [h] at this
      exact this

/-- The tables filled by `initialize` are never written by `changeState`. -/
theorem changeStateFuel_static (K : RelayConsts) (now : Nat) (fuel : Nat) (s s1 : RelayService)
    (i : Nat) (v b : Bool) (h : changeStateFuel K fuel s i v now = some (s1, b)) :
    s1.numberOfRelays = s.numberOfRelays ∧ s1.relayDependsOn = s.relayDependsOn ∧
    s1.isRelayDependent = s.isRelayDependent ∧ s1.relayIsImpulse = s.relayIsImpulse ∧
    s1.storeRelayToEEPROM = s.storeRelayToEEPROM ∧ s1.impulseInterval = s.impulseInterval := by
  refine changeStateFuel_preserves K now
    (fun t => t.numberOfRelays = s.numberOfRelays ∧ t.relayDependsOn = s.relayDependsOn ∧
      t.isRelayDependent = s.isRelayDependent ∧ t.relayIsImpulse = s.relayIsImpulse ∧
      t.storeRelayToEEPROM = s.storeRelayToEEPROM ∧ t.impulseInterval = s.impulseInterval)
    ?_ (fun t ht => ht) fuel s s1 i v b ⟨rfl, rfl, rfl, rfl, rfl, rfl⟩ h
  intro t j w ht
  obtain ⟨c1, c2, c3, c4, c5, _, c7, _⟩ := changeStateCore_static K t j w now
  exact ⟨c1.trans ht.1, c2.trans ht.2.1, c3.trans ht.2.2.1, c4.trans ht.2.2.2.1,
    c5.trans ht.2.2.2.2.1, c7.trans ht.2.2.2.2.2⟩

/-- C2 (amended): for a persisted relay `i` of an acyclic configuration, the
call `changeState(i, v)` returns and leaves relay `i` in state `v`; it returns
`true` exactly when it changed relay `i`, that is when the state of relay `i`
before the call differed from `v`.  If it changed the relay (returned `true`)
the persistent byte at `RELAY_STATE_STORAGE + i` is `1` for `v = true` and `0`
for `v = false`; if it did not (returned `false`) the byte is what it was
before. -/
theorem changeState_persists_when_changed (K : RelayConsts) (s : RelayService) (i : Nat)
    (v : Bool) (now : Nat) (hac : Acyclic s) (hi : i < s.numberOfRelays)
    (hstore : s.storeRelayToEEPROM i = true) :
    ∃ s1 b, s.changeState K i v now = some (s1, b) ∧
      s1.relays i = v ∧
      (b = true ↔ s.relays i ≠ v) ∧
      (s.relays i ≠ v →
        EEPROM_read s1.eeprom (K.RELAY_STATE_STORAGE + i) = if v = true then 1 else 0) ∧
      (s.relays i = v → EEPROM_read s1.eeprom (K.RELAY_STATE_STORAGE + i)
          = EEPROM_read s.eeprom (K.RELAY_STATE_STORAGE + i)) ∧
      (b = true → EEPROM_read s1.eeprom (K.RELAY_STATE_STORAGE + i) = if v = true then 1 else 0) ∧
      (b = false → EEPROM_read s1.eeprom (K.RELAY_STATE_STORAGE + i)
          = EEPROM_read s.eeprom (K.RELAY_STATE_STORAGE + i)) := by
  obtain ⟨s1, b, hrun⟩ := changeState_returns K s i v now hac hi
  refine ⟨s1, b, hrun, ?_⟩
  have hcore : ∀ t : RelayService, t.storeRelayToEEPROM i = true →
      changeStateCore K t i v now = (s1, b) →
      s1.relays i = v ∧ (b = true ↔ t.relays i ≠ v) ∧
      (b = true → EEPROM_read s1.eeprom (K.RELAY_STATE_STORAGE + i) = if v = true then 1 else 0) ∧
      (b = false → s1.eeprom = t.eeprom) := by
    intro t hst ht
    have he := changeStateCore_eeprom K t i v now
    have hb := changeStateCore_changed K t i v now
    have hr := changeStateCore_relays K t i v now
    rw [ht] at he hb hr
    simp only at he hb hr
    rw [hst, Bool.true_and, ← hb] at he
    refine ⟨by rw [hr, setAt_same], by rw [hb]; simp, ?_, ?_⟩
    · intro hbt
      rw [he, if_pos hbt, EEPROM_read_write_same]
      cases v <;> simp
    · intro hbf
      rw [he, if_neg (by simp [hbf])]
  have hfinish : ∀ t : RelayService, t.relays i = s.relays i →
      (s1.relays i = v ∧ (b = true ↔ t.relays i ≠ v) ∧
        (b = true →
          EEPROM_read s1.eeprom (K.RELAY_STATE_STORAGE + i) = if v = true then 1 else 0) ∧
        (b = false → EEPROM_read s1.eeprom (K.RELAY_STATE_STORAGE + i)
          = EEPROM_read s.eeprom (K.RELAY_STATE_STORAGE + i))) →
      s1.relays i = v ∧
      (b = true ↔ s.relays i ≠ v) ∧
      (s.relays i ≠ v →
        EEPROM_read s1.eeprom (K.RELAY_STATE_STORAGE + i) = if v = true then 1 else 0) ∧
      (s.relays i = v → EEPROM_read s1.eeprom (K.RELAY_STATE_STORAGE + i)
          = EEPROM_read s.eeprom (K.RELAY_STATE_STORAGE + i)) ∧
      (b = true → EEPROM_read s1.eeprom (K.RELAY_STATE_STORAGE + i) = if v = true then 1 else 0) ∧
      (b = false → EEPROM_read s1.eeprom (K.RELAY_STATE_STORAGE + i)
          = EEPROM_read s.eeprom (K.RELAY_STATE_STORAGE + i)) := by
    intro t hrel h
    obtain ⟨h0, hiff, h1, h2⟩ := h
    rw [hrel] at hiff
    refine ⟨h0, hiff, fun hne => h1 (hiff.mpr hne), fun heq => h2 ?_, h1, h2⟩
    cases hb : b with
    | false => rfl
    | true => exact absurd heq (hiff.mp hb)
  unfold RelayService.changeState at hrun
  simp only [changeStateFuel] at hrun
  split_ifs at hrun with hc
  · simp only [Bool.and_eq_true, decide_eq_true_eq] at hc
    split at hrun
    · exact absurd hrun (by simp)
    · rename_i t b1 hrec
      simp only [Option.some.injEq] at hrun
      have hst : t.storeRelayToEEPROM i = true := by
        rw [(changeStateFuel_static K now _ s t _ true b1 hrec).2.2.2.2.1]; exact hstore
      obtain ⟨h0, hiff, h1, h2⟩ := hcore { t with isAnyDependentOn := true } hst hrun
      have hnot := not_mem_own_masters s.relayDependsOn s.numberOfRelays s.numberOfRelays i
        s.numberOfRelays (hac i hi) hc.2
      obtain ⟨hfrel, hfr, _⟩ := changeStateFuel_frame K now _ s t _ true b1 hrec i hnot
      refine hfinish t hfrel ⟨h0, hiff, h1, fun hbf => ?_⟩
      unfold EEPROM_read
      rw [h2 hbf]
      exact congrArg (· % 256) hfr
  · simp only [Option.some.injEq] at hrun
    obtain ⟨h0, hiff, h1, h2⟩ := hcore s hstore hrun
    exact hfinish s rfl ⟨h0, hiff, h1, fun hbf => by rw [h2 hbf]⟩

/-- C2 (amended), instance: scenario 6, relay B (index 1, persisted and off)
switched on directly; the call changes the relay, returns `true` and the byte
is 1. -/
theorem changeState_persists_when_changed_witness :
    Acyclic scenario6 ∧ 1 < scenario6.numberOfRelays ∧ scenario6.storeRelayToEEPROM 1 = true ∧
    (scenario6.relays 1,
      (scenario6.changeState exampleConsts 1 true 7).map
        (fun p => (p.2, p.1.relays 1,
          EEPROM_read p.1.eeprom (exampleConsts.RELAY_STATE_STORAGE + 1))))
      = (false, some (true, true, 1)) ∧
    ∃ s1 b, scenario6.changeState exampleConsts 1 true 7 = some (s1, b) ∧
      s1.relays 1 = true ∧
      (b = true ↔ scenario6.relays 1 ≠ true) ∧
      (scenario6.relays 1 ≠ true →
        EEPROM_read s1.eeprom (exampleConsts.RELAY_STATE_STORAGE + 1)
          = if true = true then 1 else 0) ∧
      (scenario6.relays 1 = true →
        EEPROM_read s1.eeprom (exampleConsts.RELAY_STATE_STORAGE + 1)
          = EEPROM_read scenario6.eeprom (exampleConsts.RELAY_STATE_STORAGE + 1)) ∧
      (b = true → EEPROM_read s1.eeprom (exampleConsts.RELAY_STATE_STORAGE + 1)
          = if true = true then 1 else 0) ∧
      (b = false → EEPROM_read s1.eeprom (exampleConsts.RELAY_STATE_STORAGE + 1)
          = EEPROM_read scenario6.eeprom (exampleConsts.RELAY_STATE_STORAGE + 1)) :=
  ⟨by decide, by decide, by decide, by decide,
    changeState_persists_when_changed exampleConsts scenario6 1 true 7
      (by decide) (by decide) (by decide)⟩

/-- C2 as stated fails: relay 1 is persisted and starts on because its
dependent (relay 0, STARTUP_ON) starts on, while its byte in the store is 0;
`changeState(1, true)` then changes nothing and writes nothing, so the byte
is still 0 after the call. -/
theorem changeState_persists_counterexample :
    Reachable exampleConsts 2 startupChildConfig (startupChild false) ∧
    (startupChild false).storeRelayToEEPROM 1 = true ∧
    ((startupChild false).changeState exampleConsts 1 true 5).map
        (fun p => (p.2, p.1.relays 1, EEPROM_read p.1.eeprom (exampleConsts.RELAY_STATE_STORAGE + 1)))
      = some (false, true, 0) :=
  ⟨Reachable.boot (fun _ => 0) false, by decide, by decide⟩

/-! ## Impulse timing -/

/-- C3, failing input: relay A of scenario 6 switched on while `millis()`
returns 0.  The start time written is 0, the value that means "idle", yet
`impulse_pending` is incremented: the counter is 1 and no relay has a
positive start time.  Second input, at a nonzero clock value: an impulse
relay that is on at boot (IMPULSE with STARTUP_ON) has no start time, and
switching it off decrements the counter to -1. -/
theorem impulsePending_differs_at_clock_zero :
    Reachable exampleConsts 2 scenario6Config (scenario6OnAt 0) ∧
    (scenario6.changeState exampleConsts 0 true 0).map
        (fun p => (p.2, p.1.relays 0, p.1.relayImpulseStartMillis 0, p.1.impulsePending,
                   impulseCount p.1))
      = some (true, true, 0, 1, 0) ∧
    (((RelayService.construct 1 impulseStartupOnConfig (fun _ => 0)).init exampleConsts
          false).changeState exampleConsts 0 false 5).map
        (fun p => (p.2, p.1.relays 0, p.1.relayImpulseStartMillis 0, p.1.impulsePending,
                   impulseCount p.1))
      = some (true, false, 0, -1, 0) :=
  ⟨Reachable.changeState 0 true 0 true (Reachable.boot (fun _ => 0) false)
      (by decide) (by decide) rfl, by decide, by decide⟩

/-- C5, failing input: scenario 6 with the turn-on at clock value 0, as the
scenario has it.  Both relays go on, but `impulseProcess(A)` at 260 returns
`false` and leaves A on, and `turnOffDependent` leaves B on. -/
theorem scenario6_at_clock_zero :
    (scenario6.changeState exampleConsts 0 true 0).map (fun p => (p.1.relays 0, p.1.relays 1))
      = some (true, true) ∧
    ((scenario6OnAt 0).impulseProcess exampleConsts 0 260).map (fun p => (p.2, p.1.relays 0))
      = some (false, true) ∧
    ((scenario6Expired 0 260).turnOffDependent exampleConsts 260).map
        (fun p => (p.2, p.1.relays 0, p.1.relays 1))
      = some (true, true, true) :=
  ⟨by decide, by decide, by decide⟩

/-- Scenario 6 at every turn-on time `t > 0`: `changeState(A, true)` turns A
and B on and leaves A's persistent byte alone; `impulseProcess(A)` at a clock
value `now ≥ t` with `now - t > 250` returns `true` and leaves A off; the
following `turnOffDependent` returns `false` and leaves B off. -/
theorem scenario6_after_clock_zero (t now : Nat) (ht : 0 < t) (hle : t ≤ now)
    (hgt : now - t > 250) (hnow : now < ULONG_MOD) :
    scenario6.changeState exampleConsts 0 true t = some (scenario6OnAt t, true) ∧
    (scenario6OnAt t).relays 0 = true ∧ (scenario6OnAt t).relays 1 = true ∧
    (scenario6OnAt t).eeprom (exampleConsts.RELAY_STATE_STORAGE + 0)
      = scenario6.eeprom (exampleConsts.RELAY_STATE_STORAGE + 0) ∧
    (scenario6OnAt t).impulseProcess exampleConsts 0 now = some (scenario6Expired t now, true) ∧
    (scenario6Expired t now).relays 0 = false ∧
    (scenario6Expired t now).turnOffDependent exampleConsts now
      = some (scenario6TornDown t now, false) ∧
    (scenario6TornDown t now).relays 0 = false ∧ (scenario6TornDown t now).relays 1 = false := by
  have hip : (scenario6OnAt t).impulseProcess exampleConsts 0 now
      = some (changeStateCore exampleConsts (scenario6OnAt t) 0 false now) := by
    have h1 : (scenario6OnAt t).relayImpulseStartMillis 0 = t := rfl
    have h2 : (scenario6OnAt t).relayIsImpulse 0 = true := rfl
    have h3 : (scenario6OnAt t).impulseInterval = 250 := rfl
    have h4 : (t + 250) % ULONG_MOD = t + 250 := Nat.mod_eq_of_lt (by unfold ULONG_MOD at *; omega)
    have h5 : now > t + 250 := by omega
    simp only [RelayService.impulseProcess, h1, h2, h3, h4, changeState_off]
    simp [ht, h5]
  have hexp : scenario6Expired t now
      = (changeStateCore exampleConsts (scenario6OnAt t) 0 false now).1 := by
    unfold scenario6Expired
    rw [hip]
    rfl
  have htd : scenario6TornDown t now
      = stateAfter ((changeStateCore exampleConsts (scenario6OnAt t) 0 false now).1.turnOffDependent
          exampleConsts now) (changeStateCore exampleConsts (scenario6OnAt t) 0 false now).1 := by
    unfold scenario6TornDown
    rw [hexp]
  refine ⟨rfl, rfl, rfl, rfl, ?_, ?_, ?_, ?_, ?_⟩
  · rw [hip, hexp]; rfl
  · rw [hexp]; rfl
  · rw [htd, hexp]; rfl
  · rw [htd]; rfl
  · rw [htd]; rfl

/-- The test `impulseProcess` makes, for an impulse relay with a nonzero start
time: the sum `start + interval` is an `unsigned long` and wraps. -/
theorem impulseProcess_test (K : RelayConsts) (s : RelayService) (i now : Nat)
    (himp : s.relayIsImpulse i = true) (hstart : s.relayImpulseStartMillis i ≠ 0) :
    s.impulseProcess K i now =
      if now > (s.relayImpulseStartMillis i + s.impulseInterval) % ULONG_MOD
          ∨ now < s.relayImpulseStartMillis i
      then s.changeState K i false now else some (s, false) := by
  have hpos : 0 < s.relayImpulseStartMillis i := Nat.pos_of_ne_zero hstart
  simp only [RelayService.impulseProcess, himp, hpos, gt_iff_lt, decide_True, Bool.and_self,
    if_true, Bool.or_eq_true, decide_eq_true_eq]

/-- While `start + interval` does not overflow, the test of `impulseProcess`
is the condition of the claim. -/
theorem impulseProcess_test_without_overflow (now start interval : Nat)
    (hnow : now < ULONG_MOD) (hsum : start + interval < ULONG_MOD) :
    (now > (start + interval) % ULONG_MOD ∨ now < start)
      ↔ deadlineReached now start interval = true := by
  unfold deadlineReached
  rw [Nat.mod_eq_of_lt hsum]
  simp only [Bool.or_eq_true, decide_eq_true_eq]
  unfold ULONG_MOD at *
  constructor
  · intro h
    rcases h with h | h
    · left
      have : now + 2 ^ 32 - start = (now - start) + 2 ^ 32 := by omega
      rw [this, Nat.add_mod_right, Nat.mod_eq_of_lt (by omega)]
      omega
    · exact Or.inr h
  · intro h
    rcases h with h | h
    · by_cases hlt : now < start
      · exact Or.inr hlt
      · left
        have : now + 2 ^ 32 - start = (now - start) + 2 ^ 32 := by omega
        rw [this, Nat.add_mod_right, Nat.mod_eq_of_lt (by omega)] at h
        omega
    · exact Or.inr h

/-- C6, failing input: relay A of scenario 6 switched on at clock value
`2 ^ 32 - 100`; 50 ms later, with `now ≥ start` and `now - start ≤ 250`, the
sum `start + 250` has wrapped to 150 and `impulseProcess(A)` switches the
relay off although the claim's condition is false. -/
theorem impulseProcess_early_at_overflow :
    (scenario6OnAt 4294967196).relayIsImpulse 0 = true ∧
    (scenario6OnAt 4294967196).relayImpulseStartMillis 0 = 4294967196 ∧
    (scenario6OnAt 4294967196).impulseInterval = 250 ∧
    (scenario6OnAt 4294967196).relays 0 = true ∧
    4294967246 < ULONG_MOD ∧ 4294967196 ≤ 4294967246 ∧ 4294967246 - 4294967196 ≤ 250 ∧
    deadlineReached 4294967246 4294967196 250 = false ∧
    ((scenario6OnAt 4294967196).impulseProcess exampleConsts 0 4294967246).map
        (fun p => (p.2, p.1.relays 0))
      = some (true, false) :=
  ⟨by decide, by decide, by decide, by decide, by decide, by decide, by decide, by decide,
    by decide⟩

/-! ## The teardown pass -/

/-- The outer loop of `turnOffDependent` after `k` rounds: it has not failed,
and if `any_dependent_on` is still false then every dependent-target relay
below `k` is off. -/
theorem turnOffLoop_fold (K : RelayConsts) (now : Nat) (s0 : RelayService) :
    ∀ k, ∃ t, (List.range k).foldl (turnOffLoop K now) (some s0) = some t ∧
      t.numberOfRelays = s0.numberOfRelays ∧ t.isRelayDependent = s0.isRelayDependent ∧
      (t.isAnyDependentOn = false → ∀ i, i < k → t.isRelayDependent i = true → t.relays i = false) := by
  intro k
  induction k with
  | zero => exact ⟨s0, rfl, rfl, rfl, fun _ i hi => absurd hi (Nat.not_lt_zero i)⟩
  | succ k ih =>
    obtain ⟨t, hfold, hn, hdep, hinv⟩ := ih
    rw [List.range_succ, List.foldl_append, hfold]
    simp only [List.foldl_cons, List.foldl_nil, turnOffLoop, changeState_off]
    by_cases h1 : (t.isRelayDependent k && t.relays k) = true
    · rw [if_pos h1]
      by_cases h2 : allMasterTurnedOff t k = true
      · rw [if_pos h2]
        obtain ⟨c1, _, c3, _, _, c6, _, _⟩ := changeStateCore_static K t k false now
        refine ⟨_, rfl, c1.trans hn, c3.trans hdep, ?_⟩
        intro hflag i hi hd
        rw [changeStateCore_relays]
        by_cases hik : i = k
        · rw [hik, setAt_same]
        · rw [setAt_other _ _ _ _ hik]
          rw [c6] at hflag
          rw [c3] at hd
          exact hinv hflag i (by omega) hd
      · rw [if_neg h2]
        exact ⟨_, rfl, hn, hdep, fun hflag => absurd hflag (by simp)⟩
    · rw [if_neg h1]
      refine ⟨t, rfl, hn, hdep, ?_⟩
      intro hflag i hi hd
      by_cases hik : i = k
      · subst hik
        simp only [hd, Bool.true_and, Bool.not_eq_true] at h1
        exact h1
      · exact hinv hflag i (by omega) hd

/-- One pass of `turnOffDependent` entered with `any_dependent_on` true: the
call returns the flag, and if that is `false` every dependent-target relay is
off. -/
theorem turnOffDependent_pass (K : RelayConsts) (s : RelayService) (now : Nat)
    (hflag : s.isAnyDependentOn = true) :
    ∃ t, s.turnOffDependent K now = some (t, t.isAnyDependentOn) ∧
      t.numberOfRelays = s.numberOfRelays ∧ t.isRelayDependent = s.isRelayDependent ∧
      (t.isAnyDependentOn = false →
        ∀ i, i < t.numberOfRelays → t.isRelayDependent i = true → t.relays i = false) := by
  obtain ⟨t, hfold, hn, hdep, hinv⟩ :=
    turnOffLoop_fold K now { s with isAnyDependentOn := false } s.numberOfRelays
  refine ⟨t, ?_, hn, hdep, ?_⟩
  · simp only [RelayService.turnOffDependent, hflag, if_true, hfold]
  · intro hf i hi hd
    exact hinv hf i (by rw [hn] at hi; exact hi) hd

/-- C7 (amended): when `turnOffDependent` is called repeatedly until it
returns `false`, starting in a state in which `any_dependent_on` is true, then
afterwards no dependent-target relay is on; in particular there is no relay
`i` with `is_dependent_target[i]`, on, and every relay `m` with
`depends_on[m] = i` off. -/
theorem teardown_converged_targets_off (K : RelayConsts) (s t : RelayService)
    (hflag : s.isAnyDependentOn = true) (h : TeardownConverges K s t) :
    (∀ i, i < t.numberOfRelays → t.isRelayDependent i = true → t.relays i = false) ∧
    ¬ ∃ i, i < t.numberOfRelays ∧ t.isRelayDependent i = true ∧ t.relays i = true ∧
        ∀ m, m < t.numberOfRelays → t.relayDependsOn m = (i : Int) → t.relays m = false := by
  have main : ∀ i, i < t.numberOfRelays → t.isRelayDependent i = true → t.relays i = false := by
    induction h with
    | last now hrun =>
      obtain ⟨u, hu, _, _, hinv⟩ := turnOffDependent_pass K _ now hflag
      rw [hu] at hrun
      simp only [Option.some.injEq, Prod.mk.injEq] at hrun
      obtain ⟨rfl, hf⟩ := hrun
      exact hinv hf
    | again now hrun _ ih =>
      obtain ⟨u, hu, _, _, _⟩ := turnOffDependent_pass K _ now hflag
      rw [hu] at hrun
      simp only [Option.some.injEq, Prod.mk.injEq] at hrun
      obtain ⟨rfl, hf⟩ := hrun
      exact ih hf
  refine ⟨main, ?_⟩
  rintro ⟨i, hi, hd, hon, _⟩
  rw [main i hi hd] at hon
  exact absurd hon (by simp)

/-- C7 (amended), instance: scenario 6 after the impulse of relay A is over;
one pass switches B off and returns `false`. -/
theorem teardown_converged_targets_off_witness :
    (scenario6Expired 7 300).isAnyDependentOn = true ∧
    TeardownConverges exampleConsts (scenario6Expired 7 300) (scenario6TornDown 7 300) ∧
    (∀ i, i < (scenario6TornDown 7 300).numberOfRelays →
      (scenario6TornDown 7 300).isRelayDependent i = true →
      (scenario6TornDown 7 300).relays i = false) ∧
    ¬ ∃ i, i < (scenario6TornDown 7 300).numberOfRelays ∧
        (scenario6TornDown 7 300).isRelayDependent i = true ∧
        (scenario6TornDown 7 300).relays i = true ∧
        ∀ m, m < (scenario6TornDown 7 300).numberOfRelays →
          (scenario6TornDown 7 300).relayDependsOn m = (i : Int) →
          (scenario6TornDown 7 300).relays m = false :=
  have hconv : TeardownConverges exampleConsts (scenario6Expired 7 300) (scenario6TornDown 7 300) :=
    TeardownConverges.last 300 rfl
  ⟨by decide, hconv,
    teardown_converged_targets_off exampleConsts _ _ (by decide) hconv⟩

/-- C7 as stated fails: in scenario 6 the master B is switched on directly,
which does not raise `any_dependent_on`; `turnOffDependent` returns `false` at
once and changes nothing, and B stays on although it is a dependent target
and its only dependent A is off. -/
theorem teardown_skipped_counterexample :
    Reachable exampleConsts 2 scenario6Config scenario6MasterOn ∧
    scenario6MasterOn.turnOffDependent exampleConsts 8 = some (scenario6MasterOn, false) ∧
    TeardownConverges exampleConsts scenario6MasterOn scenario6MasterOn ∧
    scenario6MasterOn.isRelayDependent 1 = true ∧ scenario6MasterOn.relays 1 = true ∧
    (∀ m, m < scenario6MasterOn.numberOfRelays →
      scenario6MasterOn.relayDependsOn m = 1 → scenario6MasterOn.relays m = false) :=
  ⟨Reachable.changeState 1 true 7 true (Reachable.boot (fun _ => 0) false)
      (by decide) (by decide) rfl,
    rfl, TeardownConverges.last 8 rfl, by decide, by decide, by decide⟩

/-! ## Initialisation -/

theorem getRelayNum_range (n : Nat) (cfg : Nat → RelayConfigDef) (x : Int) :
    getRelayNum n cfg x = -1 ∨ (0 ≤ getRelayNum n cfg x ∧ (getRelayNum n cfg x).toNat < n) := by
  unfold getRelayNum
  split_ifs
  · split
    · rename_i r hr
      right
      have hmem : r ∈ List.range n := List.mem_of_find?_eq_some hr
      rw [List.mem_range] at hmem
      exact ⟨Int.ofNat_nonneg r, by simpa using hmem⟩
    · exact Or.inl rfl
  · exact Or.inl rfl

theorem resolvedMaster_range (n : Nat) (cfg : Nat → RelayConfigDef) (r : Nat) :
    resolvedMaster n cfg r = -1 ∨
      (0 ≤ resolvedMaster n cfg r ∧ (resolvedMaster n cfg r).toNat < n) := by
  unfold resolvedMaster
  split_ifs
  · exact getRelayNum_range n cfg _
  · exact Or.inl rfl

theorem initLoop1_eeprom_other (K : RelayConsts) (reset : Bool)
    (p : RelayService × (Nat → Bool)) (k a : Nat) (h : a ≠ K.RELAY_STATE_STORAGE + k) :
    (initLoop1 K reset p k).1.eeprom a = p.1.eeprom a := by
  unfold initLoop1
  dsimp only
  split_ifs <;> first | rfl | simp [EEPROM_write, h]

theorem initLoop1_at (K : RelayConsts) (reset : Bool) (p : RelayService × (Nat → Bool))
    (k : Nat) :
    (initLoop1 K reset p k).1.storeRelayToEEPROM k = storeOf K p.1.relayConfig k ∧
    (initLoop1 K reset p k).1.relayDependsOn k
      = resolvedMaster p.1.numberOfRelays p.1.relayConfig k ∧
    (initLoop1 K reset p k).2 k = bootState K p.1.relayConfig p.1.eeprom reset k ∧
    EEPROM_read (initLoop1 K reset p k).1.eeprom (K.RELAY_STATE_STORAGE + k)
      = if (storeOf K p.1.relayConfig k && reset
            && decide (EEPROM_read p.1.eeprom (K.RELAY_STATE_STORAGE + k) = 1)) = true
        then 0 else EEPROM_read p.1.eeprom (K.RELAY_STATE_STORAGE + k) := by
  refine ⟨by simp [initLoop1, setAt_same, storeOf], by simp [initLoop1, setAt_same, resolvedMaster],
    ?_, ?_⟩
  · simp only [initLoop1, setAt_same, bootState, storeOf]
    by_cases hs : ((p.1.relayConfig k).relayOptions
        &&& (K.RELAY_IMPULSE ||| K.RELAY_STARTUP_MASK)) = 0 <;>
      by_cases he : EEPROM_read p.1.eeprom (K.RELAY_STATE_STORAGE + k) = 1 <;>
      cases reset <;> simp [hs, he]
  · simp only [initLoop1, storeOf]
    by_cases hs : ((p.1.relayConfig k).relayOptions
        &&& (K.RELAY_IMPULSE ||| K.RELAY_STARTUP_MASK)) = 0 <;>
      by_cases he : EEPROM_read p.1.eeprom (K.RELAY_STATE_STORAGE + k) = 1 <;>
      cases reset <;> simp [hs, he, EEPROM_read_write_same]

theorem initLoop1_other (K : RelayConsts) (reset : Bool) (p : RelayService × (Nat → Bool))
    (k r : Nat) (h : r ≠ k) :
    (initLoop1 K reset p k).1.storeRelayToEEPROM r = p.1.storeRelayToEEPROM r ∧
    (initLoop1 K reset p k).1.relayDependsOn r = p.1.relayDependsOn r ∧
    (initLoop1 K reset p k).2 r = p.2 r := by
  simp only [initLoop1, setAt_other _ _ _ _ h, and_self]

/-- The first loop of `initialize` after `k` rounds. -/
theorem initPass1_spec (K : RelayConsts) (reset : Bool) (n : Nat) (cfg : Nat → RelayConfigDef)
    (mem : Nat → Nat) :
    ∀ k,
      (initPass1 K reset (RelayService.construct n cfg mem) k).1.numberOfRelays = n ∧
      (initPass1 K reset (RelayService.construct n cfg mem) k).1.relayConfig = cfg ∧
      (∀ r, k ≤ r →
        (initPass1 K reset (RelayService.construct n cfg mem) k).1.eeprom (K.RELAY_STATE_STORAGE + r)
          = mem (K.RELAY_STATE_STORAGE + r)) ∧
      (∀ r, r < k →
        (initPass1 K reset (RelayService.construct n cfg mem) k).1.storeRelayToEEPROM r
          = storeOf K cfg r ∧
        (initPass1 K reset (RelayService.construct n cfg mem) k).1.relayDependsOn r
          = resolvedMaster n cfg r ∧
        (initPass1 K reset (RelayService.construct n cfg mem) k).2 r = bootState K cfg mem reset r ∧
        EEPROM_read (initPass1 K reset (RelayService.construct n cfg mem) k).1.eeprom
            (K.RELAY_STATE_STORAGE + r)
          = if (storeOf K cfg r && reset
                && decide (EEPROM_read mem (K.RELAY_STATE_STORAGE + r) = 1)) = true
            then 0 else EEPROM_read mem (K.RELAY_STATE_STORAGE + r)) := by
  intro k
  induction k with
  | zero =>
    exact ⟨rfl, rfl, fun r _ => rfl, fun r hr => absurd hr (Nat.not_lt_zero r)⟩
  | succ k ih =>
    obtain ⟨hn, hcfg, hmem, hdone⟩ := ih
    have hstep : initPass1 K reset (RelayService.construct n cfg mem) (k + 1)
        = initLoop1 K reset (initPass1 K reset (RelayService.construct n cfg mem) k) k := by
      simp only [initPass1, List.range_succ, List.foldl_append, List.foldl_cons, List.foldl_nil]
    rw [hstep]
    generalize initPass1 K reset (RelayService.construct n cfg mem) k = p at hn hcfg hmem hdone
    have hread : EEPROM_read p.1.eeprom (K.RELAY_STATE_STORAGE + k)
        = EEPROM_read mem (K.RELAY_STATE_STORAGE + k) := by
      unfold EEPROM_read; rw [hmem k (Nat.le_refl k)]
    have hboot : bootState K cfg p.1.eeprom reset k = bootState K cfg mem reset k := by
      unfold bootState; rw [hread]
    refine ⟨hn, hcfg, ?_, ?_⟩
    · intro r hr
      rw [initLoop1_eeprom_other K reset p k _ (by omega)]
      exact hmem r (by omega)
    · intro r hr
      by_cases hrk : r = k
      · subst hrk
        obtain ⟨a1, a2, a3, a4⟩ := initLoop1_at K reset p r
        rw [hcfg] at a1 a2 a3 a4
        rw [hn] at a2
        rw [hboot] at a3
        rw [hread] at a4
        exact ⟨a1, a2, a3, a4⟩
      · have hlt : r < k := by omega
        obtain ⟨h1, h2, h3, h4⟩ := hdone r hlt
        obtain ⟨o1, o2, o3⟩ := initLoop1_other K reset p k r hrk
        refine ⟨o1.trans h1, o2.trans h2, o3.trans h3, ?_⟩
        have : EEPROM_read (initLoop1 K reset p k).1.eeprom (K.RELAY_STATE_STORAGE + r)
            = EEPROM_read p.1.eeprom (K.RELAY_STATE_STORAGE + r) := by
          unfold EEPROM_read
          rw [initLoop1_eeprom_other K reset p k _ (by omega)]
        rw [this]; exact h4

/-- The second loop of `initialize` writes only `_isRelayDependent`,
`_isAnyDependentOn` and the local `initialState`. -/
theorem initLoop2_static (K : RelayConsts) (p : RelayService × (Nat → Bool)) (r : Nat) :
    (initLoop2 K p r).1.numberOfRelays = p.1.numberOfRelays ∧
    (initLoop2 K p r).1.storeRelayToEEPROM = p.1.storeRelayToEEPROM ∧
    (initLoop2 K p r).1.relayDependsOn = p.1.relayDependsOn ∧
    (initLoop2 K p r).1.eeprom = p.1.eeprom := by
  unfold initLoop2
  dsimp only
  split_ifs <;> exact ⟨rfl, rfl, rfl, rfl⟩

theorem initLoop2_initialState (K : RelayConsts) (p : RelayService × (Nat → Bool)) (r i : Nat)
    (h : p.1.relayDependsOn r = -1 ∨ (p.1.relayDependsOn r).toNat ≠ i) :
    (initLoop2 K p r).2 i = p.2 i := by
  have hform : (initLoop2 K p r).2
      = if p.1.relayDependsOn r ≠ -1
        then setAt p.2 (p.1.relayDependsOn r).toNat (p.2 r) else p.2 := by
    unfold initLoop2
    dsimp only
    split_ifs <;> rfl
  rw [hform]
  by_cases hd : p.1.relayDependsOn r ≠ -1
  · rw [if_pos hd]
    rcases h with h | h
    · exact absurd h hd
    · exact setAt_other _ _ _ _ (Ne.symm h)
  · rw [if_neg hd]

/-- The second loop of `initialize`: the tables of the first loop stay, and
so does `initialState[i]` of a relay `i` that no relay has as its master. -/
theorem initPass2_spec (K : RelayConsts) (n : Nat) (p : RelayService × (Nat → Bool)) (i : Nat)
    (hrange : ∀ r, r < n → p.1.relayDependsOn r = -1 ∨ 0 ≤ p.1.relayDependsOn r)
    (hnm : ∀ r, r < n → p.1.relayDependsOn r ≠ (i : Int)) :
    ((List.range n).foldl (initLoop2 K) p).1.numberOfRelays = p.1.numberOfRelays ∧
    ((List.range n).foldl (initLoop2 K) p).1.storeRelayToEEPROM = p.1.storeRelayToEEPROM ∧
    ((List.range n).foldl (initLoop2 K) p).1.relayDependsOn = p.1.relayDependsOn ∧
    ((List.range n).foldl (initLoop2 K) p).1.eeprom = p.1.eeprom ∧
    ((List.range n).foldl (initLoop2 K) p).2 i = p.2 i := by
  refine foldl_preserves_mem
    (fun q : RelayService × (Nat → Bool) =>
      q.1.numberOfRelays = p.1.numberOfRelays ∧
      q.1.storeRelayToEEPROM = p.1.storeRelayToEEPROM ∧
      q.1.relayDependsOn = p.1.relayDependsOn ∧ q.1.eeprom = p.1.eeprom ∧ q.2 i = p.2 i)
    (initLoop2 K) (List.range n) p ?_ ⟨rfl, rfl, rfl, rfl, rfl⟩
  intro q r hr hq
  rw [List.mem_range] at hr
  obtain ⟨q1, q2, q3, q4, q5⟩ := hq
  obtain ⟨c1, c2, c3, c4⟩ := initLoop2_static K q r
  refine ⟨c1.trans q1, c2.trans q2, c3.trans q3, c4.trans q4, ?_⟩
  rw [initLoop2_initialState K q r i ?_]
  · exact q5
  · rw [q3]
    rcases hrange r hr with h | h
    · exact Or.inl h
    · right
      intro heq
      apply hnm r hr
      rw [← heq, Int.toNat_of_nonneg h]

/-- The third loop of `initialize` after `k` rounds: the first `k` relays
have taken their initial state. -/
theorem initLoop3_fold (f : Nat → Bool) (s : RelayService) :
    ∀ k,
      ((List.range k).foldl (initLoop3 f) s).numberOfRelays = s.numberOfRelays ∧
      ((List.range k).foldl (initLoop3 f) s).storeRelayToEEPROM = s.storeRelayToEEPROM ∧
      ((List.range k).foldl (initLoop3 f) s).relayDependsOn = s.relayDependsOn ∧
      ((List.range k).foldl (initLoop3 f) s).eeprom = s.eeprom ∧
      ∀ j, ((List.range k).foldl (initLoop3 f) s).relays j = if j < k then f j else s.relays j := by
  intro k
  induction k with
  | zero => exact ⟨rfl, rfl, rfl, rfl, fun j => by simp⟩
  | succ k ih =>
    obtain ⟨h1, h2, h3, h4, h5⟩ := ih
    rw [List.range_succ, List.foldl_append]
    simp only [List.foldl_cons, List.foldl_nil]
    refine ⟨h1, h2, h3, h4, ?_⟩
    intro j
    simp only [initLoop3, Relay_changeState]
    by_cases hjk : j = k
    · subst hjk; simp [setAt_same]
    · rw [setAt_other _ _ _ _ hjk, h5 j]
      by_cases hlt : j < k
      · rw [if_pos hlt, if_pos (by omega)]
      · rw [if_neg hlt, if_neg (by omega)]

/-- What `initialize` computes: the persistence flags, the resolved masters,
the bytes of the store, and the initial state of every relay that no relay
has as its master. -/
theorem init_spec (K : RelayConsts) (n : Nat) (cfg : Nat → RelayConfigDef) (mem : Nat → Nat)
    (reset : Bool) :
    ((RelayService.construct n cfg mem).init K reset).numberOfRelays = n ∧
    (∀ r, r < n →
      ((RelayService.construct n cfg mem).init K reset).storeRelayToEEPROM r = storeOf K cfg r ∧
      ((RelayService.construct n cfg mem).init K reset).relayDependsOn r = resolvedMaster n cfg r ∧
      EEPROM_read ((RelayService.construct n cfg mem).init K reset).eeprom (K.RELAY_STATE_STORAGE + r)
        = if (storeOf K cfg r && reset
              && decide (EEPROM_read mem (K.RELAY_STATE_STORAGE + r) = 1)) = true
          then 0 else EEPROM_read mem (K.RELAY_STATE_STORAGE + r)) ∧
    (∀ i, i < n →
      (∀ r, r < n → ((RelayService.construct n cfg mem).init K reset).relayDependsOn r ≠ (i : Int)) →
      ((RelayService.construct n cfg mem).init K reset).relays i = bootState K cfg mem reset i) := by
  obtain ⟨a1, _, _, a4⟩ := initPass1_spec K reset n cfg mem n
  have hinit : (RelayService.construct n cfg mem).init K reset
      = (List.range n).foldl
          (initLoop3 ((List.range n).foldl (initLoop2 K)
            (initPass1 K reset (RelayService.construct n cfg mem) n)).2)
          ((List.range n).foldl (initLoop2 K)
            (initPass1 K reset (RelayService.construct n cfg mem) n)).1 := rfl
  rw [hinit]
  generalize initPass1 K reset (RelayService.construct n cfg mem) n = p1 at a1 a4
  have hrange : ∀ r, r < n → p1.1.relayDependsOn r = -1 ∨ 0 ≤ p1.1.relayDependsOn r := by
    intro r hr
    rw [(a4 r hr).2.1]
    rcases resolvedMaster_range n cfg r with h | h
    · exact Or.inl h
    · exact Or.inr h.1
  obtain ⟨c1, c2, c3, c4, c5⟩ :=
    initLoop3_fold ((List.range n).foldl (initLoop2 K) p1).2 ((List.range n).foldl (initLoop2 K) p1).1 n
  have hstat : ((List.range n).foldl (initLoop2 K) p1).1.numberOfRelays = p1.1.numberOfRelays ∧
      ((List.range n).foldl (initLoop2 K) p1).1.storeRelayToEEPROM = p1.1.storeRelayToEEPROM ∧
      ((List.range n).foldl (initLoop2 K) p1).1.relayDependsOn = p1.1.relayDependsOn ∧
      ((List.range n).foldl (initLoop2 K) p1).1.eeprom = p1.1.eeprom := by
    refine foldl_preserves
      (fun q : RelayService × (Nat → Bool) =>
        q.1.numberOfRelays = p1.1.numberOfRelays ∧
        q.1.storeRelayToEEPROM = p1.1.storeRelayToEEPROM ∧
        q.1.relayDependsOn = p1.1.relayDependsOn ∧ q.1.eeprom = p1.1.eeprom)
      (initLoop2 K) ?_ (List.range n) p1 ⟨rfl, rfl, rfl, rfl⟩
    intro q r hq
    obtain ⟨d1, d2, d3, d4⟩ := initLoop2_static K q r
    exact ⟨d1.trans hq.1, d2.trans hq.2.1, d3.trans hq.2.2.1, d4.trans hq.2.2.2⟩
  obtain ⟨b1, b2, b3, b4⟩ := hstat
  refine ⟨c1.trans (b1.trans a1), ?_, ?_⟩
  · intro r hr
    obtain ⟨e1, e2, _, e4⟩ := a4 r hr
    rw [c2, b2, c3, b3, c4, b4]
    exact ⟨e1, e2, e4⟩
  · intro i hi hnm
    rw [c3, b3] at hnm
    rw [c5 i, if_pos hi, (initPass2_spec K n p1 i hrange hnm).2.2.2.2]
    exact (a4 i hi).2.2.1

/-- C8, failing input.  Two dependents of one master, the first on at boot
and the second off: the master takes the state of the second and starts off
while its dependent relay 0 starts on.  A chain listed master first: relay 1
starts on (inherited from relay 2) while its master relay 0 starts off. -/
theorem init_master_overwritten :
    Acyclic ((RelayService.construct 3 twoChildrenConfig (fun _ => 0)).init exampleConsts false) ∧
    (List.range 3).map
        ((RelayService.construct 3 twoChildrenConfig (fun _ => 0)).init exampleConsts false).relayDependsOn
      = [2, 2, -1] ∧
    (List.range 3).map
        ((RelayService.construct 3 twoChildrenConfig (fun _ => 0)).init exampleConsts false).relays
      = [true, false, false] ∧
    Acyclic ((RelayService.construct 3 chainConfig (fun _ => 0)).init exampleConsts false) ∧
    (List.range 3).map
        ((RelayService.construct 3 chainConfig (fun _ => 0)).init exampleConsts false).relayDependsOn
      = [-1, 0, 1] ∧
    (List.range 3).map
        ((RelayService.construct 3 chainConfig (fun _ => 0)).init exampleConsts false).relays
      = [false, true, true] :=
  ⟨by decide, by decide, by decide, by decide, by decide, by decide⟩

theorem land_lor_ne_zero (o a b c : Nat) (h : (o &&& a) > 0) : (o &&& (b ||| (a ||| c))) ≠ 0 := by
  intro hz
  obtain ⟨i, hi⟩ := Nat.ne_zero_implies_bit_true (Nat.pos_iff_ne_zero.mp h)
  have hbit := congrArg (fun x => Nat.testBit x i) hz
  simp only [Nat.testBit_and, Nat.testBit_or, Nat.zero_testBit, Bool.and_eq_true] at hi hbit
  simp [hi.1, hi.2] at hbit

/-- C9 (amended): after `initialize(false)`, for a relay `i` that no relay
has as its master: if `store_in_eeprom[i]`, relay `i` starts on if and only if
the persistent byte at `RELAY_STATE_STORAGE + i` equals 1; and if relay `i`
has STARTUP_ON it starts on whatever the store holds. -/
theorem init_without_reset (K : RelayConsts) (n : Nat) (cfg : Nat → RelayConfigDef)
    (mem : Nat → Nat) (i : Nat) (hi : i < n)
    (hnm : ∀ r, r < n →
      ((RelayService.construct n cfg mem).init K false).relayDependsOn r ≠ (i : Int)) :
    (((RelayService.construct n cfg mem).init K false).storeRelayToEEPROM i = true →
      (((RelayService.construct n cfg mem).init K false).relays i = true
        ↔ EEPROM_read mem (K.RELAY_STATE_STORAGE + i) = 1)) ∧
    (((cfg i).relayOptions &&& K.RELAY_STARTUP_ON) > 0 →
      ((RelayService.construct n cfg mem).init K false).relays i = true) := by
  obtain ⟨_, htab, hrel⟩ := init_spec K n cfg mem false
  rw [hrel i hi hnm, (htab i hi).1]
  constructor
  · intro hstore
    simp [bootState, hstore]
  · intro hon
    have hns : storeOf K cfg i = false := by
      unfold storeOf RelayConsts.RELAY_STARTUP_MASK
      exact decide_eq_false (land_lor_ne_zero _ _ _ _ hon)
    simp [bootState, hns, hon]

/-- C9 (amended), instance: one persisted relay with byte 1 in the store
starts on; one relay with STARTUP_ON starts on over a zeroed store. -/
theorem init_without_reset_witness :
    (((RelayService.construct 1 plainRelayConfig (fun _ => 1)).init exampleConsts false).relays 0 = true
      ↔ EEPROM_read (fun _ => 1) (exampleConsts.RELAY_STATE_STORAGE + 0) = 1) ∧
    ((RelayService.construct 1 plainRelayConfig (fun _ => 1)).init exampleConsts false).relays 0 = true ∧
    ((RelayService.construct 1 startupOnConfig (fun _ => 0)).init exampleConsts false).relays 0 = true :=
  ⟨(init_without_reset exampleConsts 1 plainRelayConfig (fun _ => 1) 0 (by decide) (by decide)).1
      (by decide),
    by decide,
    (init_without_reset exampleConsts 1 startupOnConfig (fun _ => 0) 0 (by decide) (by decide)).2
      (by decide)⟩

/-- C9 as stated fails: one persisted relay that no relay has as its master,
byte 2 in the store: the byte is nonzero and the relay starts off. -/
theorem init_without_reset_counterexample :
    ((RelayService.construct 1 plainRelayConfig (fun _ => 2)).init exampleConsts false).storeRelayToEEPROM 0
      = true ∧
    ((RelayService.construct 1 plainRelayConfig (fun _ => 2)).init exampleConsts false).relayDependsOn 0
      = -1 ∧
    EEPROM_read (fun _ => 2) (exampleConsts.RELAY_STATE_STORAGE + 0) ≠ 0 ∧
    ((RelayService.construct 1 plainRelayConfig (fun _ => 2)).init exampleConsts false).relays 0 = false :=
  ⟨by decide, by decide, by decide, by decide⟩

theorem bootSource_lt (dep : Nat → Int) (n : Nat) :
    ∀ k j, k ≤ n → j < n → bootSource dep k j < n := by
  intro k
  induction k with
  | zero => intro j _ hj; exact hj
  | succ k ih =>
    intro j hk hj
    simp only [bootSource]
    split_ifs
    · exact ih k (by omega) (by omega)
    · exact ih j (by omega) hj

theorem mem_masterChain_step (dep : Nat → Int) :
    ∀ (f r x j : Nat), x ∈ masterChain dep f r → dep x = (j : Int) →
      j ∈ masterChain dep (f + 1) r := by
  intro f
  induction f with
  | zero => intro r x j h; simp [masterChain] at h
  | succ f ih =>
    intro r x j h hd
    have hj1 : (j : Int) ≠ -1 := by omega
    rw [masterChain, List.mem_cons] at h
    rw [masterChain, List.mem_cons]
    right
    rcases h with h | h
    · subst h
      rw [hd, if_neg hj1, Int.toNat_ofNat, masterChain]
      exact List.mem_cons_self _ _
    · by_cases hr : dep r = -1
      · rw [if_pos hr] at h
        simp at h
      · rw [if_neg hr] at h
        rw [if_neg hr]
        exact ih _ x j h hd

/-- The relay a state is taken from has the receiving relay on its chain of
masters. -/
theorem bootSource_chain (dep : Nat → Int) :
    ∀ k j, ∃ f, j ∈ masterChain dep f (bootSource dep k j) := by
  intro k
  induction k with
  | zero => intro j; exact ⟨1, by simp [bootSource, masterChain]⟩
  | succ k ih =>
    intro j
    simp only [bootSource]
    split_ifs with hd
    · obtain ⟨f, hf⟩ := ih k
      exact ⟨f + 1, mem_masterChain_step dep f _ k j hf hd⟩
    · exact ih j

theorem initLoop2_snd (K : RelayConsts) (p : RelayService × (Nat → Bool)) (r : Nat) :
    (initLoop2 K p r).2
      = if p.1.relayDependsOn r ≠ -1
        then setAt p.2 (p.1.relayDependsOn r).toNat (p.2 r) else p.2 := by
  unfold initLoop2
  dsimp only
  split_ifs <;> rfl

/-- The second loop of `initialize` after `k` rounds: relay `j` holds the
state that relay `bootSource k j` had at the end of the first loop. -/
theorem initPass2_source (K : RelayConsts) (n : Nat) (p : RelayService × (Nat → Bool))
    (hrange : ∀ r, r < n → p.1.relayDependsOn r = -1 ∨ 0 ≤ p.1.relayDependsOn r) :
    ∀ k, k ≤ n →
      ((List.range k).foldl (initLoop2 K) p).1.relayDependsOn = p.1.relayDependsOn ∧
      ∀ j, ((List.range k).foldl (initLoop2 K) p).2 j
        = p.2 (bootSource p.1.relayDependsOn k j) := by
  intro k
  induction k with
  | zero => intro _; exact ⟨rfl, fun j => rfl⟩
  | succ k ih =>
    intro hk
    obtain ⟨hdep, hval⟩ := ih (by omega)
    rw [List.range_succ, List.foldl_append]
    simp only [List.foldl_cons, List.foldl_nil]
    generalize (List.range k).foldl (initLoop2 K) p = q at hdep hval
    refine ⟨(initLoop2_static K q k).2.2.1.trans hdep, ?_⟩
    intro j
    rw [initLoop2_snd, hdep]
    simp only [bootSource]
    by_cases hd : p.1.relayDependsOn k = (j : Int)
    · have hne : p.1.relayDependsOn k ≠ -1 := by omega
      rw [if_pos hne, if_pos hd, hd, Int.toNat_ofNat, setAt_same]
      exact hval k
    · rw [if_neg hd]
      by_cases hne : p.1.relayDependsOn k ≠ -1
      · rw [if_pos hne]
        have hnn : 0 ≤ p.1.relayDependsOn k := by
          rcases hrange k (by omega) with h | h
          · exact absurd h hne
          · exact h
        have hj : j ≠ (p.1.relayDependsOn k).toNat := by
          intro hj
          apply hd
          rw [hj, Int.toNat_of_nonneg hnn]
        rw [setAt_other _ _ _ _ hj]
        exact hval j
      · rw [if_neg hne]
        exact hval j

/-- What `initialize` makes of the initial states: relay `i` starts in the
state that relay `bootSource n i` had at the end of the first loop. -/
theorem init_relays (K : RelayConsts) (n : Nat) (cfg : Nat → RelayConfigDef) (mem : Nat → Nat)
    (reset : Bool) (i : Nat) (hi : i < n) :
    ((RelayService.construct n cfg mem).init K reset).relays i
      = bootState K cfg mem reset
          (bootSource ((RelayService.construct n cfg mem).init K reset).relayDependsOn n i) := by
  obtain ⟨_, _, _, a4⟩ := initPass1_spec K reset n cfg mem n
  have hinit : (RelayService.construct n cfg mem).init K reset
      = (List.range n).foldl
          (initLoop3 ((List.range n).foldl (initLoop2 K)
            (initPass1 K reset (RelayService.construct n cfg mem) n)).2)
          ((List.range n).foldl (initLoop2 K)
            (initPass1 K reset (RelayService.construct n cfg mem) n)).1 := rfl
  rw [hinit]
  generalize initPass1 K reset (RelayService.construct n cfg mem) n = p1 at a4
  have hrange : ∀ r, r < n → p1.1.relayDependsOn r = -1 ∨ 0 ≤ p1.1.relayDependsOn r := by
    intro r hr
    rw [(a4 r hr).2.1]
    rcases resolvedMaster_range n cfg r with h | h
    · exact Or.inl h
    · exact Or.inr h.1
  obtain ⟨_, _, c3, _, c5⟩ :=
    initLoop3_fold ((List.range n).foldl (initLoop2 K) p1).2 ((List.range n).foldl (initLoop2 K) p1).1 n
  obtain ⟨b3, bval⟩ := initPass2_source K n p1 hrange n (Nat.le_refl n)
  rw [c5 i, if_pos hi, c3, b3, bval i]
  exact (a4 _ (bootSource_lt _ n n i (Nat.le_refl n) hi)).2.2.1

/-- With the reset flag the state at the end of the first loop is "on" exactly
for the relays with STARTUP_ON. -/
theorem bootState_reset (K : RelayConsts) (cfg : Nat → RelayConfigDef) (mem : Nat → Nat)
    (r : Nat) :
    bootState K cfg mem true r = decide (((cfg r).relayOptions &&& K.RELAY_STARTUP_ON) > 0) := by
  unfold bootState
  by_cases hs : storeOf K cfg r = true
  · rw [if_pos hs]
    have hz : ¬ ((cfg r).relayOptions &&& K.RELAY_STARTUP_ON) > 0 := by
      intro hon
      have := land_lor_ne_zero (cfg r).relayOptions K.RELAY_STARTUP_ON K.RELAY_IMPULSE
        K.RELAY_STARTUP_OFF hon
      unfold storeOf RelayConsts.RELAY_STARTUP_MASK at hs
      exact this (of_decide_eq_true hs)
    simp [hz]
  · rw [if_neg hs]

/-- C10 (amended): after `initialize(true)`, a relay `i` with
`store_in_eeprom[i]` starts on exactly when the second loop hands it the state
of a relay with STARTUP_ON, that is when the relay `bootSource n i` has
STARTUP_ON.  In particular relay `i` starts off when no relay has `i` as its
master, and when no other relay that has `i` among its direct or indirect
masters has STARTUP_ON.  The persistent byte of relay `i` that was 1 is 0
afterwards. -/
theorem init_with_reset (K : RelayConsts) (n : Nat) (cfg : Nat → RelayConfigDef)
    (mem : Nat → Nat) (i : Nat) (hi : i < n)
    (hstore : ((RelayService.construct n cfg mem).init K true).storeRelayToEEPROM i = true) :
    (((RelayService.construct n cfg mem).init K true).relays i = true ↔
      ((cfg (bootSource ((RelayService.construct n cfg mem).init K true).relayDependsOn n i)).relayOptions
        &&& K.RELAY_STARTUP_ON) > 0) ∧
    ((∀ r, r < n →
        ((RelayService.construct n cfg mem).init K true).relayDependsOn r ≠ (i : Int)) →
      ((RelayService.construct n cfg mem).init K true).relays i = false) ∧
    ((∀ r f, r < n → r ≠ i →
        i ∈ masterChain ((RelayService.construct n cfg mem).init K true).relayDependsOn f r →
        ((cfg r).relayOptions &&& K.RELAY_STARTUP_ON) = 0) →
      ((RelayService.construct n cfg mem).init K true).relays i = false) ∧
    (EEPROM_read mem (K.RELAY_STATE_STORAGE + i) = 1 →
      EEPROM_read ((RelayService.construct n cfg mem).init K true).eeprom (K.RELAY_STATE_STORAGE + i)
        = 0) := by
  obtain ⟨_, htab, hrel⟩ := init_spec K n cfg mem true
  rw [(htab i hi).1] at hstore
  have hself : ((cfg i).relayOptions &&& K.RELAY_STARTUP_ON) = 0 := by
    have h := bootState_reset K cfg mem i
    simp only [bootState, hstore, if_true, Bool.not_true, Bool.and_false] at h
    have := of_decide_eq_false h.symm
    omega
  have hrun := init_relays K n cfg mem true i hi
  rw [bootState_reset] at hrun
  refine ⟨?_, ?_, ?_, ?_⟩
  · rw [hrun]; simp
  · intro hnm
    rw [hrel i hi hnm]
    simp [bootState, hstore]
  · intro hnone
    rw [hrun]
    apply decide_eq_false
    obtain ⟨f, hf⟩ :=
      bootSource_chain ((RelayService.construct n cfg mem).init K true).relayDependsOn n i
    by_cases hsrc :
        bootSource ((RelayService.construct n cfg mem).init K true).relayDependsOn n i = i
    · rw [hsrc, hself]; exact Nat.lt_irrefl 0
    · rw [hnone _ f (bootSource_lt _ n n i (Nat.le_refl n) hi) hsrc hf]
      exact Nat.lt_irrefl 0
  · intro hone
    rw [(htab i hi).2.2]
    simp [hstore, hone]

/-- C10 (amended), instance: two persisted relays, relay 1 the master of
relay 0, both bytes 1 in the store: with the reset flag both relays start off
and the byte of the master is 0.  In `startupChildConfig` the persisted master
(relay 1) takes the state of its dependent with STARTUP_ON (relay 0) and
starts on. -/
theorem init_with_reset_witness :
    ((RelayService.construct 2 persistedPairConfig (fun _ => 1)).init exampleConsts true).storeRelayToEEPROM 1
      = true ∧
    ((RelayService.construct 2 persistedPairConfig (fun _ => 1)).init exampleConsts true).relayDependsOn 0
      = 1 ∧
    ((RelayService.construct 2 persistedPairConfig (fun _ => 1)).init exampleConsts true).relays 1
      = false ∧
    ((RelayService.construct 2 persistedPairConfig (fun _ => 1)).init exampleConsts true).relays 0
      = false ∧
    EEPROM_read ((RelayService.construct 2 persistedPairConfig (fun _ => 1)).init exampleConsts true).eeprom
        (exampleConsts.RELAY_STATE_STORAGE + 1)
      = 0 ∧
    bootSource (startupChild true).relayDependsOn 2 1 = 0 ∧
    (startupChild true).relays 1 = true :=
  ⟨by decide, by decide,
    (init_with_reset exampleConsts 2 persistedPairConfig (fun _ => 1) 1 (by decide)
      (by decide)).2.2.1
      (fun r _ hr _ _ => by interval_cases r <;> decide),
    (init_with_reset exampleConsts 2 persistedPairConfig (fun _ => 1) 0 (by decide)
      (by decide)).2.1 (by decide),
    (init_with_reset exampleConsts 2 persistedPairConfig (fun _ => 1) 1 (by decide)
      (by decide)).2.2.2 (by decide),
    by decide,
    (init_with_reset exampleConsts 2 startupChildConfig (fun _ => 0) 1 (by decide)
      (by decide)).1.mpr (by decide)⟩

/-- C10 as stated fails: with the reset flag, relay 1 is persisted and still
starts on, because its dependent relay 0 has STARTUP_ON and the master takes
the state of its dependent. -/
theorem init_with_reset_counterexample :
    (startupChild true).storeRelayToEEPROM 1 = true ∧
    (startupChild true).relayDependsOn 0 = 1 ∧
    (startupChild true).relays 1 = true :=
  ⟨by decide, by decide, by decide⟩

/-! ## Acyclic dependency tables -/

/-- The usual notion of an acyclic graph, a rank that falls along every edge,
gives `Acyclic`: with `n` relays a chain of masters has ended after at most
`n` of them. -/
theorem acyclic_of_rank (s : RelayService) (rank : Nat → Nat)
    (hrange : ∀ i, i < s.numberOfRelays →
      s.relayDependsOn i = -1 ∨
        (0 ≤ s.relayDependsOn i ∧ (s.relayDependsOn i).toNat < s.numberOfRelays))
    (hrank : ∀ i, i < s.numberOfRelays → s.relayDependsOn i ≠ -1 →
      rank (s.relayDependsOn i).toNat < rank i) :
    Acyclic s := by
  have hlt : ∀ i, i < s.numberOfRelays →
      ((Finset.range s.numberOfRelays).filter (fun j => rank j < rank i)).card
        < s.numberOfRelays := by
    intro i hi
    have hss : (Finset.range s.numberOfRelays).filter (fun j => rank j < rank i)
        ⊂ Finset.range s.numberOfRelays := by
      refine ⟨Finset.filter_subset _ _, fun hsub => ?_⟩
      have := hsub (Finset.mem_range.mpr hi)
      simp at this
    simpa using Finset.card_lt_card hss
  have hstep : ∀ i, i < s.numberOfRelays → s.relayDependsOn i ≠ -1 →
      ((Finset.range s.numberOfRelays).filter
          (fun j => rank j < rank (s.relayDependsOn i).toNat)).card
        < ((Finset.range s.numberOfRelays).filter (fun j => rank j < rank i)).card := by
    intro i hi hd
    have hr := hrank i hi hd
    have hm : (s.relayDependsOn i).toNat < s.numberOfRelays := by
      rcases hrange i hi with h | h
      · exact absurd h hd
      · exact h.2
    apply Finset.card_lt_card
    refine ⟨fun j hj => ?_, fun hsub => ?_⟩
    · simp only [Finset.mem_filter, Finset.mem_range] at hj ⊢
      exact ⟨hj.1, by omega⟩
    · have hmem : (s.relayDependsOn i).toNat
          ∈ (Finset.range s.numberOfRelays).filter (fun j => rank j < rank i) := by
        simp only [Finset.mem_filter, Finset.mem_range]
        exact ⟨hm, hr⟩
      have := hsub hmem
      simp at this
  have hends : ∀ d i, i < s.numberOfRelays →
      ((Finset.range s.numberOfRelays).filter (fun j => rank j < rank i)).card ≤ d →
      chainEnds s.relayDependsOn s.numberOfRelays (d + 1) i = true := by
    intro d
    induction d with
    | zero =>
      intro i hi hd
      rw [chainEnds]
      simp only [Bool.and_eq_true, Bool.or_eq_true, decide_eq_true_eq]
      refine ⟨hi, Or.inl ?_⟩
      by_contra hne
      have := hstep i hi hne
      omega
    | succ d ih =>
      intro i hi hd
      rw [chainEnds]
      simp only [Bool.and_eq_true, Bool.or_eq_true, decide_eq_true_eq]
      refine ⟨hi, ?_⟩
      by_cases hne : s.relayDependsOn i = -1
      · exact Or.inl hne
      · right
        rcases hrange i hi with h | h
        · exact absurd h hne
        · exact ⟨h.1, ih _ h.2 (by have := hstep i hi hne; omega)⟩
  intro i hi
  have h1 := hlt i hi
  have h2 := hends (s.numberOfRelays - 1) i hi (by omega)
  have h3 : s.numberOfRelays - 1 + 1 = s.numberOfRelays := by omega
  rw [h3] at h2
  exact h2

/-! ## The impulse counter away from clock value 0 -/

theorem filter_length_setAt (f : Nat → Nat) (i x : Nat) :
    ∀ (l : List Nat), l.Nodup → i ∈ l →
      (((l.filter (fun j => decide (0 < setAt f i x j))).length : Nat) : Int)
        = ((l.filter (fun j => decide (0 < f j))).length : Int)
          + (if 0 < x then 1 else 0) - (if 0 < f i then 1 else 0) := by
  intro l
  induction l with
  | nil => intro _ hi; simp at hi
  | cons a l ih =>
    intro hnd hi
    rw [List.nodup_cons] at hnd
    by_cases hai : a = i
    · subst hai
      have hsame : l.filter (fun j => decide (0 < setAt f a x j))
          = l.filter (fun j => decide (0 < f j)) := by
        apply List.filter_congr
        intro j hj
        have hja : j ≠ a := fun h => hnd.1 (h ▸ hj)
        rw [setAt_other _ _ _ _ hja]
      simp only [List.filter_cons, setAt_same, hsame]
      by_cases hx : 0 < x <;> by_cases hf : 0 < f a <;>
        simp only [hx, hf, decide_True, decide_False, if_true, if_false, List.length_cons,
          Nat.cast_add, Nat.cast_one, Bool.false_eq_true] <;> omega
    · have hmem : i ∈ l := by
        rcases List.mem_cons.mp hi with h | h
        · exact absurd h.symm hai
        · exact h
      have := ih hnd.2 hmem
      simp only [List.filter_cons, setAt_other _ _ _ _ hai]
      by_cases hf : 0 < f a <;>
        simp only [hf, decide_True, decide_False, if_true, if_false, List.length_cons,
          Nat.cast_add, Nat.cast_one, Bool.false_eq_true] <;> omega

theorem impulseCount_setAt (s t : RelayService) (i x : Nat) (hi : i < s.numberOfRelays)
    (hn : t.numberOfRelays = s.numberOfRelays)
    (hst : t.relayImpulseStartMillis = setAt s.relayImpulseStartMillis i x) :
    (impulseCount t : Int) = (impulseCount s : Int) + (if 0 < x then 1 else 0)
      - (if 0 < s.relayImpulseStartMillis i then 1 else 0) := by
  unfold impulseCount
  rw [hn, hst]
  exact filter_length_setAt _ i x _ (List.nodup_range _) (List.mem_range.mpr hi)

/-- The body of `changeState` keeps the impulse bookkeeping in step, as long
as a relay is not switched on at clock value 0. -/
theorem changeStateCore_countInv (K : RelayConsts) (s : RelayService) (i : Nat) (v : Bool)
    (now : Nat) (hi : i < s.numberOfRelays) (hnow : v = true → now ≠ 0) (h : CountInv s) :
    CountInv (changeStateCore K s i v now).1 := by
  obtain ⟨hcount, hon, hinv⟩ := h
  obtain ⟨c1, _, _, c4, _, _, _, _⟩ := changeStateCore_static K s i v now
  have hrel := changeStateCore_relays K s i v now
  have hst := changeStateCore_start K s i v now
  have hp := changeStateCore_impulsePending K s i v now
  have hinv2 := changeStateCore_impulseInv K s i v now hinv
  refine ⟨?_, ?_, hinv2⟩
  · by_cases hc : (s.relayIsImpulse i && (s.relays i != v)) = true
    · rw [if_pos hc] at hst hp
      rw [hp, impulseCount_setAt s _ i _ hi c1 hst, hcount]
      simp only [Bool.and_eq_true, bne_iff_ne, ne_eq] at hc
      cases v with
      | true =>
        have hoff : s.relays i = false := by simpa using hc.2
        have hzero : s.relayImpulseStartMillis i = 0 := by
          by_contra hne
          have := (hinv i hne).2
          rw [hoff] at this
          exact absurd this (by simp)
        have hpos : now > 0 := Nat.pos_of_ne_zero (hnow rfl)
        simp [hzero, hpos]
      | false =>
        have hwas : s.relays i = true := by simpa using hc.2
        have hpos : s.relayImpulseStartMillis i > 0 :=
          Nat.pos_of_ne_zero (hon i hi hc.1 hwas)
        simp [hpos]
    · rw [if_neg hc] at hst hp
      rw [hp, hcount]
      unfold impulseCount
      rw [c1, hst]
  · intro j hj himp hrj
    rw [c1] at hj
    rw [c4] at himp
    rw [hrel] at hrj
    rw [hst]
    by_cases hji : j = i
    · subst hji
      rw [setAt_same] at hrj
      subst hrj
      by_cases hc : (s.relayIsImpulse j && (s.relays j != true)) = true
      · rw [if_pos hc, setAt_same]
        simp only [if_true]
        exact hnow rfl
      · rw [if_neg hc]
        have hwas : s.relays j = true := by
          simp only [himp, Bool.true_and, bne_iff_ne, ne_eq, Bool.not_eq_true, not_not] at hc
          cases hs : s.relays j
          · rw [hs] at hc; simp at hc
          · rfl
        exact hon j hj himp hwas
    · rw [setAt_other _ _ _ _ hji] at hrj
      by_cases hc : (s.relayIsImpulse i && (s.relays i != v)) = true
      · rw [if_pos hc, setAt_other _ _ _ _ hji]; exact hon j hj himp hrj
      · rw [if_neg hc]; exact hon j hj himp hrj

theorem changeStateFuel_countInv (K : RelayConsts) (now : Nat) (hnow : now ≠ 0) :
    ∀ (fuel : Nat) (s s1 : RelayService) (i : Nat) (v b : Bool),
      MastersInRange s → CountInv s → i < s.numberOfRelays →
      changeStateFuel K fuel s i v now = some (s1, b) →
      MastersInRange s1 ∧ CountInv s1 ∧ s1.numberOfRelays = s.numberOfRelays := by
  intro fuel
  induction fuel with
  | zero => intro s s1 i v b _ _ _ h; simp [changeStateFuel] at h
  | succ fuel ih =>
    intro s s1 i v b hwf hinv hi h
    have hcore : ∀ t : RelayService, MastersInRange t → CountInv t →
        t.numberOfRelays = s.numberOfRelays → changeStateCore K t i v now = (s1, b) →
        MastersInRange s1 ∧ CountInv s1 ∧ s1.numberOfRelays = s.numberOfRelays := by
      intro t ht1 ht2 htn hrun
      have hc := changeStateCore_countInv K t i v now (by rw [htn]; exact hi) (fun _ => hnow) ht2
      obtain ⟨c1, c2, _⟩ := changeStateCore_static K t i v now
      rw [hrun] at hc c1 c2
      simp only at hc c1 c2
      refine ⟨?_, hc, c1.trans htn⟩
      intro j hj
      rw [c1] at hj
      rw [c2, c1]
      exact ht1 j hj
    simp only [changeStateFuel] at h
    split_ifs at h with hc
    · simp only [Bool.and_eq_true, decide_eq_true_eq] at hc
      split at h
      · exact absurd h (by simp)
      · rename_i t b1 hrec
        have hm : (s.relayDependsOn i).toNat < s.numberOfRelays := by
          rcases hwf i hi with h1 | h1
          · exact absurd h1 hc.2
          · exact h1.2
        obtain ⟨t1, t2, t3⟩ := ih s t _ true b1 hwf hinv hm hrec
        simp only [Option.some.injEq] at h
        exact hcore { t with isAnyDependentOn := true } t1 t2 t3 h
    · simp only [Option.some.injEq] at h
      exact hcore s hwf hinv rfl h

theorem init_impulsePending (K : RelayConsts) (n : Nat) (cfg : Nat → RelayConfigDef)
    (mem : Nat → Nat) (reset : Bool) :
    ((RelayService.construct n cfg mem).init K reset).impulsePending = 0 := by
  unfold RelayService.init
  dsimp only
  apply foldl_preserves (fun t : RelayService => t.impulsePending = 0)
  · intro a b ha; exact ha
  · apply foldl_preserves (fun p : RelayService × (Nat → Bool) => p.1.impulsePending = 0)
    · intro a b ha
      simp only [initLoop2]
      split_ifs <;> exact ha
    · apply foldl_preserves (fun p : RelayService × (Nat → Bool) => p.1.impulsePending = 0)
      · intro a b ha; exact ha
      · rfl

theorem init_mastersInRange (K : RelayConsts) (n : Nat) (cfg : Nat → RelayConfigDef)
    (mem : Nat → Nat) (reset : Bool) :
    MastersInRange ((RelayService.construct n cfg mem).init K reset) := by
  obtain ⟨hn, htab, _⟩ := init_spec K n cfg mem reset
  intro i hi
  rw [hn] at hi ⊢
  rw [(htab i hi).2.1]
  exact resolvedMaster_range n cfg i

/-- The invariant of C3 away from its failing inputs: if no impulse relay is
on after `initialize`, then in every state reached by `changeState`,
`impulseProcess` and `turnOffDependent` calls at clock values other than 0,
`impulse_pending` is the number of relays with `impulse_started_at > 0`. -/
theorem impulsePending_eq_count_after_clock_zero (K : RelayConsts) (n : Nat)
    (cfg : Nat → RelayConfigDef) (mem : Nat → Nat) (reset : Bool) (s : RelayService)
    (hboot : ∀ i, i < n →
      ((RelayService.construct n cfg mem).init K reset).relayIsImpulse i = true →
      ((RelayService.construct n cfg mem).init K reset).relays i = false)
    (hreach : ReachableNonzero K ((RelayService.construct n cfg mem).init K reset) s) :
    s.impulsePending = (impulseCount s : Int) := by
  have key : MastersInRange s ∧ CountInv s := by
    induction hreach with
    | start =>
      refine ⟨init_mastersInRange K n cfg mem reset, ?_, ?_, ?_⟩
      · rw [init_impulsePending]
        unfold impulseCount
        have : ∀ j, decide (((RelayService.construct n cfg mem).init K reset).relayImpulseStartMillis j > 0)
            = false := by
          intro j; rw [init_start]; rfl
        simp [this]
      · intro i hi himp hon
        rw [(init_spec K n cfg mem reset).1] at hi
        rw [hboot i hi himp] at hon
        exact absurd hon (by simp)
      · intro i hi
        exact absurd (init_start K n cfg mem reset i) hi
    | changeState i v now b _ hi hpos _ hrun ih =>
      obtain ⟨r1, r2, _⟩ := changeStateFuel_countInv K now (by omega) _ _ _ i v b ih.1 ih.2 hi hrun
      exact ⟨r1, r2⟩
    | impulseProcess i now b _ hi hpos _ hrun ih =>
      unfold RelayService.impulseProcess at hrun
      dsimp only at hrun
      split_ifs at hrun
      · obtain ⟨r1, r2, _⟩ :=
          changeStateFuel_countInv K now (by omega) _ _ _ i false b ih.1 ih.2 hi hrun
        exact ⟨r1, r2⟩
      · simp only [Option.some.injEq, Prod.mk.injEq] at hrun; rw [← hrun.1]; exact ih
      · simp only [Option.some.injEq, Prod.mk.injEq] at hrun; rw [← hrun.1]; exact ih
    | @turnOffDependent u u1 now b _ hpos _ hrun ih =>
      have := turnOffDependent_preserves_valid K now
        (fun t => MastersInRange t ∧ CountInv t ∧ t.numberOfRelays = u.numberOfRelays)
        u u1 b ?_ (fun t f ht => ht) ⟨ih.1, ih.2, rfl⟩ hrun
      · exact ⟨this.1, this.2.1⟩
      · intro t i hi ht
        obtain ⟨r1, r2, r3⟩ := changeStateFuel_countInv K now (by omega) _ t
          (changeStateCore K t i false now).1 i false (changeStateCore K t i false now).2
          ht.1 ht.2.1 (by rw [ht.2.2]; exact hi) (changeState_off K t i now)
        exact ⟨r1, r2, r3.trans ht.2.2⟩
  exact key.2.1

/-- Scenario 6 with the turn-on at clock value 7: the counter and the count
are both 1 afterwards. -/
theorem impulsePending_eq_count_scenario6 :
    scenario6On.impulsePending = (impulseCount scenario6On : Int) ∧
    impulseCount scenario6On = 1 :=
  ⟨impulsePending_eq_count_after_clock_zero exampleConsts 2 scenario6Config (fun _ => 0) false
      scenario6On (by decide)
      (ReachableNonzero.changeState 0 true 7 true ReachableNonzero.start
        (by decide) (by decide) (by decide) rfl),
    by decide⟩

/-- Scenario 6 with the turn-on at clock value 7 and the expiry at 300. -/
theorem scenario6_at_clock_seven :
    (scenario6OnAt 7).relays 0 = true ∧ (scenario6OnAt 7).relays 1 = true ∧
    (scenario6OnAt 7).impulseProcess exampleConsts 0 300 = some (scenario6Expired 7 300, true) ∧
    (scenario6Expired 7 300).relays 0 = false ∧
    (scenario6TornDown 7 300).relays 1 = false :=
  have h := scenario6_after_clock_zero 7 300 (by decide) (by decide) (by decide) (by decide)
  ⟨h.2.1, h.2.2.1, h.2.2.2.2.1, h.2.2.2.2.2.1, h.2.2.2.2.2.2.2.2⟩

/-- The dependency table of scenario 6 is acyclic by the rank "A above B". -/
theorem acyclic_scenario6_by_rank : Acyclic scenario6 :=
  acyclic_of_rank scenario6 (fun i => 1 - i) (by decide) (by decide)

/-! ## The button recognizer: scenarios 1 and 2 -/

theorem Button.withState_self (b : Button) : b.withState b.eventState b.startStateMillis = b := rfl

theorem Button.eq_withState (b : Button) (st : ButtonState) (h : b.eventState = st) :
    b = b.withState st b.startStateMillis := by
  subst h; rfl

/-- C12 (amended): scenario 1.  For a MONO_STABLE button with pressed level 1,
trigger level 0, not exposed and without long-click or double-click target, in
INITIAL: `getEvent(true, 1)` at `t = 0` outputs PRESSED (with CHANGED) and
enters 1ST_PRESS; `getEvent(true, 0)` at `t = 50` outputs CLICK (with CHANGED),
without PRESSED, and leaves the recognizer in INITIAL; `getButtonAction` of
that output is SINGLE_SHORT_CLICK. -/
theorem scenario1_click_on_release (b : Button) (hty : b.type = ButtonType.MONO_STABLE)
    (hpr : b.stateForPressed = true) (_htr : b.monoStableTrigger = 0) (hex : b.exposed = false)
    (_hlong : b.longclickRelayNum = -1) (hdbl : b.doubleclickRelayNum = -1)
    (hst : b.eventState = ButtonState.BTN_STATE_INITIAL) :
    b.getEvent true 1 0
      = (b.withState ButtonState.BTN_STATE_1ST_PRESS 0, BUTTON_PRESSED ||| BUTTON_CHANGED) ∧
    (b.withState ButtonState.BTN_STATE_1ST_PRESS 0).getEvent true 0 50
      = (b.withState ButtonState.BTN_STATE_INITIAL 0, BUTTON_CLICK ||| BUTTON_CHANGED) ∧
    (BUTTON_CLICK ||| BUTTON_CHANGED) &&& BUTTON_PRESSED = 0 ∧
    b.getButtonAction true (BUTTON_CLICK ||| BUTTON_CHANGED)
      = ButtonAction.BUTTON_SINGLE_SHORT_CLICK := by
  refine ⟨?_, ?_, by decide, ?_⟩
  · simp [Button.getEvent, Button.transition, Button.withState, hty, hst]
  · simp [Button.getEvent, Button.transition, Button.withState, Button.activeLevel,
      Button.hasDoubleClick, boolToInt, hty, hpr, hex, hdbl]
  · simp [Button.getButtonAction, hty]
    decide

/-- C12 (amended), instance: the button of scenario 1. -/
theorem scenario1_click_on_release_witness :
    scenario1Button.getEvent true 1 0
      = (scenario1Button.withState ButtonState.BTN_STATE_1ST_PRESS 0,
          BUTTON_PRESSED ||| BUTTON_CHANGED) ∧
    (scenario1Button.withState ButtonState.BTN_STATE_1ST_PRESS 0).getEvent true 0 50
      = (scenario1Button.withState ButtonState.BTN_STATE_INITIAL 0,
          BUTTON_CLICK ||| BUTTON_CHANGED) ∧
    (BUTTON_CLICK ||| BUTTON_CHANGED) &&& BUTTON_PRESSED = 0 ∧
    scenario1Button.getButtonAction true (BUTTON_CLICK ||| BUTTON_CHANGED)
      = ButtonAction.BUTTON_SINGLE_SHORT_CLICK :=
  scenario1_click_on_release scenario1Button rfl rfl rfl rfl rfl rfl rfl

/-- C12 as stated fails: in scenario 1 the output of the `t = 50` tick is
CLICK with CHANGED (18); it does not contain PRESSED, so it is not
CLICK+PRESSED. -/
theorem scenario1_counterexample :
    scenario1Button.events [⟨true, 1, 0⟩, ⟨true, 0, 50⟩]
      = [BUTTON_PRESSED ||| BUTTON_CHANGED, BUTTON_CLICK ||| BUTTON_CHANGED] ∧
    (BUTTON_CLICK ||| BUTTON_CHANGED) &&& BUTTON_PRESSED = 0 ∧
    BUTTON_CLICK ||| BUTTON_CHANGED ≠ BUTTON_CLICK ||| BUTTON_PRESSED ∧
    BUTTON_CLICK ||| BUTTON_CHANGED ≠ BUTTON_CLICK ||| BUTTON_PRESSED ||| BUTTON_CHANGED :=
  ⟨by decide, by decide, by decide, by decide⟩

/-- C13 (amended): scenario 2.  For a MONO_STABLE button with pressed level 1,
trigger level 0, a double-click target and the intervals 350 / 800, in INITIAL
and fed the edges (0, 1), (100, 0), (200, 1), (250, 0): the `t = 200` tick
outputs PRESSED (with CHANGED, without DOUBLE_CLICK) and moves the recognizer
to 2ND_PRESS; the `t = 250` tick outputs DOUBLE_CLICK (with CHANGED) and moves
it from 2ND_PRESS to INITIAL. -/
theorem scenario2_double_on_release (b : Button) (hty : b.type = ButtonType.MONO_STABLE)
    (hpr : b.stateForPressed = true) (htr : b.monoStableTrigger = 0)
    (hdbl : b.doubleclickRelayNum ≠ -1) (hdi : b.doubleclickInterval = 350)
    (_hli : b.longclickInterval = 800) (hst : b.eventState = ButtonState.BTN_STATE_INITIAL) :
    b.after [⟨true, 1, 0⟩, ⟨true, 0, 100⟩] = b.withState ButtonState.BTN_STATE_1ST_RELEASE 0 ∧
    (b.withState ButtonState.BTN_STATE_1ST_RELEASE 0).getEvent true 1 200
      = (b.withState ButtonState.BTN_STATE_2ND_PRESS 0, BUTTON_PRESSED ||| BUTTON_CHANGED) ∧
    (BUTTON_PRESSED ||| BUTTON_CHANGED) &&& BUTTON_DOUBLE_CLICK = 0 ∧
    (b.withState ButtonState.BTN_STATE_2ND_PRESS 0).getEvent true 0 250
      = (b.withState ButtonState.BTN_STATE_INITIAL 0, BUTTON_DOUBLE_CLICK ||| BUTTON_CHANGED) ∧
    b.events scenario2Ticks
      = [BUTTON_PRESSED ||| BUTTON_CHANGED, BUTTON_CHANGED, BUTTON_PRESSED ||| BUTTON_CHANGED,
         BUTTON_DOUBLE_CLICK ||| BUTTON_CHANGED] := by
  have hd : b.hasDoubleClick = true := by simp [Button.hasDoubleClick, hdbl]
  have e1 : b.getEvent true 1 0
      = (b.withState ButtonState.BTN_STATE_1ST_PRESS 0, BUTTON_PRESSED ||| BUTTON_CHANGED) := by
    simp [Button.getEvent, Button.transition, Button.withState, hty, hst]
  have e2 : (b.withState ButtonState.BTN_STATE_1ST_PRESS 0).getEvent true 0 100
      = (b.withState ButtonState.BTN_STATE_1ST_RELEASE 0, BUTTON_NO_EVENT ||| BUTTON_CHANGED) := by
    have hd2 : (b.withState ButtonState.BTN_STATE_1ST_PRESS 0).hasDoubleClick = true := hd
    simp [Button.getEvent, Button.transition, Button.activeLevel, boolToInt, hd2]
    simp [Button.withState, hty, hpr]
  have e3 : (b.withState ButtonState.BTN_STATE_1ST_RELEASE 0).getEvent true 1 200
      = (b.withState ButtonState.BTN_STATE_2ND_PRESS 0, BUTTON_PRESSED ||| BUTTON_CHANGED) := by
    simp [Button.getEvent, Button.transition, Button.activeLevel, boolToInt, Button.withState,
      hty, hpr, htr, hdi, ulongSub, ULONG_MOD]
  have e4 : (b.withState ButtonState.BTN_STATE_2ND_PRESS 0).getEvent true 0 250
      = (b.withState ButtonState.BTN_STATE_INITIAL 0, BUTTON_DOUBLE_CLICK ||| BUTTON_CHANGED) := by
    simp [Button.getEvent, Button.transition, Button.activeLevel, boolToInt, Button.withState,
      hty, hpr]
  refine ⟨?_, e3, by decide, e4, ?_⟩
  · simp [Button.after, Button.run, Button.step, e1, e2]
  · simp [Button.events, scenario2Ticks, Button.run, Button.step, e1, e2, e3, e4]
    decide

/-- C13 (amended), instance: the button of scenario 2. -/
theorem scenario2_double_on_release_witness :
    scenario2Button.after [⟨true, 1, 0⟩, ⟨true, 0, 100⟩]
      = scenario2Button.withState ButtonState.BTN_STATE_1ST_RELEASE 0 ∧
    (scenario2Button.withState ButtonState.BTN_STATE_1ST_RELEASE 0).getEvent true 1 200
      = (scenario2Button.withState ButtonState.BTN_STATE_2ND_PRESS 0,
          BUTTON_PRESSED ||| BUTTON_CHANGED) ∧
    (BUTTON_PRESSED ||| BUTTON_CHANGED) &&& BUTTON_DOUBLE_CLICK = 0 ∧
    (scenario2Button.withState ButtonState.BTN_STATE_2ND_PRESS 0).getEvent true 0 250
      = (scenario2Button.withState ButtonState.BTN_STATE_INITIAL 0,
          BUTTON_DOUBLE_CLICK ||| BUTTON_CHANGED) ∧
    scenario2Button.events scenario2Ticks
      = [BUTTON_PRESSED ||| BUTTON_CHANGED, BUTTON_CHANGED, BUTTON_PRESSED ||| BUTTON_CHANGED,
         BUTTON_DOUBLE_CLICK ||| BUTTON_CHANGED] :=
  scenario2_double_on_release scenario2Button rfl rfl rfl (by decide) rfl rfl rfl

/-- C13 as stated fails: in scenario 2 the output of the `t = 200` tick is
PRESSED with CHANGED (17), without DOUBLE_CLICK, and the recognizer is then in
2ND_PRESS, not in RELEASE_WAIT; DOUBLE_CLICK comes with the `t = 250` tick. -/
theorem scenario2_counterexample :
    scenario2Button.events scenario2Ticks = [17, 16, 17, 20] ∧
    (17 : Nat) &&& BUTTON_DOUBLE_CLICK = 0 ∧
    (scenario2Button.after (scenario2Ticks.take 3)).eventState
      = ButtonState.BTN_STATE_2ND_PRESS ∧
    (scenario2Button.after (scenario2Ticks.take 3)).eventState
      ≠ ButtonState.BTN_STATE_RELEASE_WAIT ∧
    (20 : Nat) &&& BUTTON_DOUBLE_CLICK ≠ 0 :=
  ⟨by decide, by decide, by decide, by decide, by decide⟩

/-! ## The button recognizer: runs of ticks -/

theorem Button.run_append (l1 l2 : List Tick) :
    ∀ b : Button, b.run (l1 ++ l2)
      = (((b.run l1).1.run l2).1, (b.run l1).2 ++ ((b.run l1).1.run l2).2) := by
  induction l1 with
  | nil => intro b; rfl
  | cons t l1 ih =>
    intro b
    simp only [List.cons_append, Button.run, List.append_eq, ih, List.cons_append]

theorem Button.after_append (b : Button) (l1 l2 : List Tick) :
    b.after (l1 ++ l2) = (b.after l1).after l2 := by
  simp only [Button.after, Button.run_append]

theorem Button.actions_append (b : Button) (l1 l2 : List Tick) :
    b.actions (l1 ++ l2) = b.actions l1 ++ (b.after l1).actions l2 := by
  simp only [Button.actions, Button.after, Button.run_append, List.map_append]

theorem Button.events_append (b : Button) (l1 l2 : List Tick) :
    b.events (l1 ++ l2) = b.events l1 ++ (b.after l1).events l2 := by
  simp only [Button.events, Button.after, Button.run_append, List.map_append]

theorem Button.after_cons (b : Button) (t : Tick) (l : List Tick) :
    b.after (t :: l) = (b.step t).1.after l := rfl

theorem Button.actions_cons (b : Button) (t : Tick) (l : List Tick) :
    b.actions (t :: l) = (b.step t).2.2 :: (b.step t).1.actions l := rfl

theorem Button.events_cons (b : Button) (t : Tick) (l : List Tick) :
    b.events (t :: l) = (b.step t).2.1 :: (b.step t).1.events l := rfl

/-- A run of ticks each of which leaves the button as it is. -/
theorem Button.run_const (b : Button) (out : Nat × ButtonAction) :
    ∀ l : List Tick, (∀ t, t ∈ l → b.step t = (b, out)) →
      b.run l = (b, List.replicate l.length out) := by
  intro l
  induction l with
  | nil => intro _; rfl
  | cons t l ih =>
    intro h
    have h1 := h t (List.mem_cons_self _ _)
    have h2 := ih (fun u hu => h u (List.mem_cons_of_mem _ hu))
    simp only [Button.run, h1, h2, List.length_cons, List.replicate_succ]

theorem Button.after_const (b : Button) (out : Nat × ButtonAction) (l : List Tick)
    (h : ∀ t, t ∈ l → b.step t = (b, out)) : b.after l = b := by
  simp only [Button.after, Button.run_const b out l h]

theorem Button.actions_const (b : Button) (out : Nat × ButtonAction) (l : List Tick)
    (h : ∀ t, t ∈ l → b.step t = (b, out)) :
    b.actions l = List.replicate l.length out.2 := by
  simp only [Button.actions, Button.run_const b out l h, List.map_replicate]

theorem Button.events_const (b : Button) (out : Nat × ButtonAction) (l : List Tick)
    (h : ∀ t, t ∈ l → b.step t = (b, out)) :
    b.events l = List.replicate l.length out.1 := by
  simp only [Button.events, Button.run_const b out l h, List.map_replicate]

/-! ## The button recognizer: single ticks -/

theorem Button.withState_activeLevel (b : Button) (st : ButtonState) (t0 p : Nat) :
    (b.withState st t0).activeLevel p = b.activeLevel p := rfl

theorem Button.withState_hasDoubleClick (b : Button) (st : ButtonState) (t0 : Nat) :
    (b.withState st t0).hasDoubleClick = b.hasDoubleClick := rfl

theorem Button.withState_hasLongClick (b : Button) (st : ButtonState) (t0 : Nat) :
    (b.withState st t0).hasLongClick = b.hasLongClick := rfl

theorem Button.withState_eventState (b : Button) (st : ButtonState) (t0 : Nat) :
    (b.withState st t0).eventState = st := rfl

theorem Button.withState_startStateMillis (b : Button) (st : ButtonState) (t0 : Nat) :
    (b.withState st t0).startStateMillis = t0 := rfl

theorem Button.withState_doubleclickInterval (b : Button) (st : ButtonState) (t0 : Nat) :
    (b.withState st t0).doubleclickInterval = b.doubleclickInterval := rfl

theorem Button.withState_longclickInterval (b : Button) (st : ButtonState) (t0 : Nat) :
    (b.withState st t0).longclickInterval = b.longclickInterval := rfl

theorem Button.withState_monoStableTrigger (b : Button) (st : ButtonState) (t0 : Nat) :
    (b.withState st t0).monoStableTrigger = b.monoStableTrigger := rfl

theorem Button.withState_type (b : Button) (st : ButtonState) (t0 : Nat) :
    (b.withState st t0).type = b.type := rfl

theorem Button.withState_withState (b : Button) (st st1 : ButtonState) (t0 t1 : Nat) :
    (b.withState st t0).withState st1 t1 = b.withState st1 t1 := rfl

theorem Button.withState_getButtonAction (b : Button) (st : ButtonState) (t0 : Nat) (c : Bool)
    (ev : Nat) : (b.withState st t0).getButtonAction c ev = b.getButtonAction c ev := rfl

/-- For a MONO_STABLE button the action depends on the event bits only. -/
theorem Button.getButtonAction_mono (b : Button) (hty : b.type = ButtonType.MONO_STABLE)
    (c : Bool) (ev : Nat) :
    b.getButtonAction c ev =
      if ev &&& BUTTON_CLICK ≠ 0 then ButtonAction.BUTTON_SINGLE_SHORT_CLICK
      else if ev &&& BUTTON_DOUBLE_CLICK ≠ 0 then ButtonAction.BUTTON_DOUBLE_SHORT_CLICK
      else if ev &&& BUTTON_LONG_PRESS ≠ 0 then ButtonAction.BUTTON_SINGLE_LONG_CLICK
      else ButtonAction.BUTTON_NO_ACTION := by
  simp [Button.getButtonAction, hty]

/-- Without a pin change the action depends on the event bits only. -/
theorem Button.getButtonAction_quiet (b : Button) (ev : Nat) :
    b.getButtonAction false ev =
      if ev &&& BUTTON_CLICK ≠ 0 then ButtonAction.BUTTON_SINGLE_SHORT_CLICK
      else if ev &&& BUTTON_DOUBLE_CLICK ≠ 0 then ButtonAction.BUTTON_DOUBLE_SHORT_CLICK
      else if ev &&& BUTTON_LONG_PRESS ≠ 0 then ButtonAction.BUTTON_SINGLE_LONG_CLICK
      else ButtonAction.BUTTON_NO_ACTION := by
  simp [Button.getButtonAction]

theorem Button.step_initial_quiet (b : Button) (t0 : Nat) (t : Tick)
    (hc : t.isPinChanged = false) :
    (b.withState ButtonState.BTN_STATE_INITIAL t0).step t
      = (b.withState ButtonState.BTN_STATE_INITIAL t0, (BUTTON_NO_EVENT, ButtonAction.BUTTON_NO_ACTION)) := by
  have hev : (b.withState ButtonState.BTN_STATE_INITIAL t0).getEvent t.isPinChanged t.pinState t.now
      = (b.withState ButtonState.BTN_STATE_INITIAL t0, BUTTON_NO_EVENT) := by
    simp only [Button.getEvent, Button.transition, Button.withState_activeLevel,
      Button.withState_hasDoubleClick, Button.withState_hasLongClick,
      Button.withState_eventState, Button.withState_startStateMillis,
      Button.withState_doubleclickInterval, Button.withState_longclickInterval,
      Button.withState_monoStableTrigger, Button.withState_type, hc]
    simp [Button.withState]
  simp only [Button.step]
  rw [hev]
  simp only [Button.withState_getButtonAction, hc, Button.getButtonAction_quiet b]
  rfl

theorem Button.step_initial_edge (b : Button) (hty : b.type = ButtonType.MONO_STABLE) (t0 : Nat) (t : Tick)
    (hc : t.isPinChanged = true) :
    (b.withState ButtonState.BTN_STATE_INITIAL t0).step t
      = (b.withState ButtonState.BTN_STATE_1ST_PRESS t.now, (BUTTON_PRESSED ||| BUTTON_CHANGED, ButtonAction.BUTTON_NO_ACTION)) := by
  have hev : (b.withState ButtonState.BTN_STATE_INITIAL t0).getEvent t.isPinChanged t.pinState t.now
      = (b.withState ButtonState.BTN_STATE_1ST_PRESS t.now, BUTTON_PRESSED ||| BUTTON_CHANGED) := by
    simp only [Button.getEvent, Button.transition, Button.withState_activeLevel,
      Button.withState_hasDoubleClick, Button.withState_hasLongClick,
      Button.withState_eventState, Button.withState_startStateMillis,
      Button.withState_doubleclickInterval, Button.withState_longclickInterval,
      Button.withState_monoStableTrigger, Button.withState_type, hc]
    simp [Button.withState, hty]
  simp only [Button.step]
  rw [hev]
  simp only [Button.withState_getButtonAction, Button.getButtonAction_mono b hty]
  rfl

theorem Button.step_press_held_trigger (b : Button) (hty : b.type = ButtonType.MONO_STABLE) (t0 : Nat) (t : Tick)
    (hc : t.isPinChanged = false)
    (ha : b.activeLevel t.pinState = true)
    (hd : b.hasDoubleClick = false)
    (hl : b.hasLongClick = false)
    (htr : t.pinState = b.monoStableTrigger) :
    (b.withState ButtonState.BTN_STATE_1ST_PRESS t0).step t
      = (b.withState ButtonState.BTN_STATE_RELEASE_WAIT t0, (BUTTON_CLICK ||| BUTTON_PRESSED, ButtonAction.BUTTON_SINGLE_SHORT_CLICK)) := by
  have hev : (b.withState ButtonState.BTN_STATE_1ST_PRESS t0).getEvent t.isPinChanged t.pinState t.now
      = (b.withState ButtonState.BTN_STATE_RELEASE_WAIT t0, BUTTON_CLICK ||| BUTTON_PRESSED) := by
    simp only [Button.getEvent, Button.transition, Button.withState_activeLevel,
      Button.withState_hasDoubleClick, Button.withState_hasLongClick,
      Button.withState_eventState, Button.withState_startStateMillis,
      Button.withState_doubleclickInterval, Button.withState_longclickInterval,
      Button.withState_monoStableTrigger, Button.withState_type, hc, ha]
    simp [Button.withState, hd, hl, htr]
  simp only [Button.step]
  rw [hev]
  simp only [Button.withState_getButtonAction, Button.getButtonAction_mono b hty]
  rfl

theorem Button.step_press_held_other (b : Button) (hty : b.type = ButtonType.MONO_STABLE) (t0 : Nat) (t : Tick)
    (hc : t.isPinChanged = false)
    (ha : b.activeLevel t.pinState = true)
    (hl : b.hasLongClick = false)
    (htr : t.pinState ≠ b.monoStableTrigger) :
    (b.withState ButtonState.BTN_STATE_1ST_PRESS t0).step t
      = (b.withState ButtonState.BTN_STATE_1ST_PRESS t0, (BUTTON_PRESSED, ButtonAction.BUTTON_NO_ACTION)) := by
  have hev : (b.withState ButtonState.BTN_STATE_1ST_PRESS t0).getEvent t.isPinChanged t.pinState t.now
      = (b.withState ButtonState.BTN_STATE_1ST_PRESS t0, BUTTON_PRESSED) := by
    simp only [Button.getEvent, Button.transition, Button.withState_activeLevel,
      Button.withState_hasDoubleClick, Button.withState_hasLongClick,
      Button.withState_eventState, Button.withState_startStateMillis,
      Button.withState_doubleclickInterval, Button.withState_longclickInterval,
      Button.withState_monoStableTrigger, Button.withState_type, hc, ha]
    simp [Button.withState, hl, htr]
  simp only [Button.step]
  rw [hev]
  simp only [Button.withState_getButtonAction, Button.getButtonAction_mono b hty]
  rfl

theorem Button.step_press_held_early (b : Button) (hty : b.type = ButtonType.MONO_STABLE) (t0 : Nat) (t : Tick)
    (hc : t.isPinChanged = false)
    (ha : b.activeLevel t.pinState = true)
    (hdl : b.hasDoubleClick = true ∨ b.hasLongClick = true)
    (he : ulongSub t.now t0 ≤ b.longclickInterval) :
    (b.withState ButtonState.BTN_STATE_1ST_PRESS t0).step t
      = (b.withState ButtonState.BTN_STATE_1ST_PRESS t0, (BUTTON_PRESSED, ButtonAction.BUTTON_NO_ACTION)) := by
  have hev : (b.withState ButtonState.BTN_STATE_1ST_PRESS t0).getEvent t.isPinChanged t.pinState t.now
      = (b.withState ButtonState.BTN_STATE_1ST_PRESS t0, BUTTON_PRESSED) := by
    simp only [Button.getEvent, Button.transition, Button.withState_activeLevel,
      Button.withState_hasDoubleClick, Button.withState_hasLongClick,
      Button.withState_eventState, Button.withState_startStateMillis,
      Button.withState_doubleclickInterval, Button.withState_longclickInterval,
      Button.withState_monoStableTrigger, Button.withState_type, hc, ha]
    rcases hdl with hd | hd <;>
      simp [Button.withState, hd, Nat.not_lt.mpr he]
  simp only [Button.step]
  rw [hev]
  simp only [Button.withState_getButtonAction, Button.getButtonAction_mono b hty]
  rfl

theorem Button.step_press_held_long (b : Button) (hty : b.type = ButtonType.MONO_STABLE) (t0 : Nat) (t : Tick)
    (hc : t.isPinChanged = false)
    (ha : b.activeLevel t.pinState = true)
    (hl : b.hasLongClick = true)
    (he : ulongSub t.now t0 > b.longclickInterval) :
    (b.withState ButtonState.BTN_STATE_1ST_PRESS t0).step t
      = (b.withState ButtonState.BTN_STATE_RELEASE_WAIT t0, (BUTTON_LONG_PRESS ||| BUTTON_PRESSED, ButtonAction.BUTTON_SINGLE_LONG_CLICK)) := by
  have hev : (b.withState ButtonState.BTN_STATE_1ST_PRESS t0).getEvent t.isPinChanged t.pinState t.now
      = (b.withState ButtonState.BTN_STATE_RELEASE_WAIT t0, BUTTON_LONG_PRESS ||| BUTTON_PRESSED) := by
    simp only [Button.getEvent, Button.transition, Button.withState_activeLevel,
      Button.withState_hasDoubleClick, Button.withState_hasLongClick,
      Button.withState_eventState, Button.withState_startStateMillis,
      Button.withState_doubleclickInterval, Button.withState_longclickInterval,
      Button.withState_monoStableTrigger, Button.withState_type, hc, ha]
    simp [Button.withState, hl, he]
  simp only [Button.step]
  rw [hev]
  simp only [Button.withState_getButtonAction, Button.getButtonAction_mono b hty]
  rfl

theorem Button.step_press_release_click (b : Button) (hty : b.type = ButtonType.MONO_STABLE) (t0 : Nat) (t : Tick)
    (hc : t.isPinChanged = true)
    (ha : b.activeLevel t.pinState = false)
    (hd : b.hasDoubleClick = false) :
    (b.withState ButtonState.BTN_STATE_1ST_PRESS t0).step t
      = (b.withState ButtonState.BTN_STATE_INITIAL t0, (BUTTON_CLICK ||| BUTTON_CHANGED, ButtonAction.BUTTON_SINGLE_SHORT_CLICK)) := by
  have hev : (b.withState ButtonState.BTN_STATE_1ST_PRESS t0).getEvent t.isPinChanged t.pinState t.now
      = (b.withState ButtonState.BTN_STATE_INITIAL t0, BUTTON_CLICK ||| BUTTON_CHANGED) := by
    simp only [Button.getEvent, Button.transition, Button.withState_activeLevel,
      Button.withState_hasDoubleClick, Button.withState_hasLongClick,
      Button.withState_eventState, Button.withState_startStateMillis,
      Button.withState_doubleclickInterval, Button.withState_longclickInterval,
      Button.withState_monoStableTrigger, Button.withState_type, hc, ha]
    simp [Button.withState, hd]
  simp only [Button.step]
  rw [hev]
  simp only [Button.withState_getButtonAction, Button.getButtonAction_mono b hty]
  rfl

theorem Button.step_press_release_wait (b : Button) (hty : b.type = ButtonType.MONO_STABLE) (t0 : Nat) (t : Tick)
    (hc : t.isPinChanged = true)
    (ha : b.activeLevel t.pinState = false)
    (hd : b.hasDoubleClick = true) :
    (b.withState ButtonState.BTN_STATE_1ST_PRESS t0).step t
      = (b.withState ButtonState.BTN_STATE_1ST_RELEASE t0, (BUTTON_NO_EVENT ||| BUTTON_CHANGED, ButtonAction.BUTTON_NO_ACTION)) := by
  have hev : (b.withState ButtonState.BTN_STATE_1ST_PRESS t0).getEvent t.isPinChanged t.pinState t.now
      = (b.withState ButtonState.BTN_STATE_1ST_RELEASE t0, BUTTON_NO_EVENT ||| BUTTON_CHANGED) := by
    simp only [Button.getEvent, Button.transition, Button.withState_activeLevel,
      Button.withState_hasDoubleClick, Button.withState_hasLongClick,
      Button.withState_eventState, Button.withState_startStateMillis,
      Button.withState_doubleclickInterval, Button.withState_longclickInterval,
      Button.withState_monoStableTrigger, Button.withState_type, hc, ha]
    simp [Button.withState, hd]
  simp only [Button.step]
  rw [hev]
  simp only [Button.withState_getButtonAction, Button.getButtonAction_mono b hty]
  rfl

theorem Button.step_release_idle (b : Button) (hty : b.type = ButtonType.MONO_STABLE) (t0 : Nat) (t : Tick)
    (hc : t.isPinChanged = false)
    (ha : b.activeLevel t.pinState = false)
    (he : ulongSub t.now t0 ≤ b.doubleclickInterval) :
    (b.withState ButtonState.BTN_STATE_1ST_RELEASE t0).step t
      = (b.withState ButtonState.BTN_STATE_1ST_RELEASE t0, (BUTTON_NO_EVENT, ButtonAction.BUTTON_NO_ACTION)) := by
  have hev : (b.withState ButtonState.BTN_STATE_1ST_RELEASE t0).getEvent t.isPinChanged t.pinState t.now
      = (b.withState ButtonState.BTN_STATE_1ST_RELEASE t0, BUTTON_NO_EVENT) := by
    simp only [Button.getEvent, Button.transition, Button.withState_activeLevel,
      Button.withState_hasDoubleClick, Button.withState_hasLongClick,
      Button.withState_eventState, Button.withState_startStateMillis,
      Button.withState_doubleclickInterval, Button.withState_longclickInterval,
      Button.withState_monoStableTrigger, Button.withState_type, hc, ha]
    simp [Button.withState, Nat.not_lt.mpr he]
  simp only [Button.step]
  rw [hev]
  simp only [Button.withState_getButtonAction, Button.getButtonAction_mono b hty]
  rfl

theorem Button.step_release_press_trigger (b : Button) (hty : b.type = ButtonType.MONO_STABLE) (t0 : Nat) (t : Tick)
    (hc : t.isPinChanged = true)
    (ha : b.activeLevel t.pinState = true)
    (he : ulongSub t.now t0 ≤ b.doubleclickInterval)
    (htr : t.pinState = b.monoStableTrigger) :
    (b.withState ButtonState.BTN_STATE_1ST_RELEASE t0).step t
      = (b.withState ButtonState.BTN_STATE_RELEASE_WAIT t0, (BUTTON_DOUBLE_CLICK ||| BUTTON_PRESSED ||| BUTTON_CHANGED, ButtonAction.BUTTON_DOUBLE_SHORT_CLICK)) := by
  have hev : (b.withState ButtonState.BTN_STATE_1ST_RELEASE t0).getEvent t.isPinChanged t.pinState t.now
      = (b.withState ButtonState.BTN_STATE_RELEASE_WAIT t0, BUTTON_DOUBLE_CLICK ||| BUTTON_PRESSED ||| BUTTON_CHANGED) := by
    simp only [Button.getEvent, Button.transition, Button.withState_activeLevel,
      Button.withState_hasDoubleClick, Button.withState_hasLongClick,
      Button.withState_eventState, Button.withState_startStateMillis,
      Button.withState_doubleclickInterval, Button.withState_longclickInterval,
      Button.withState_monoStableTrigger, Button.withState_type, hc, ha]
    simp [Button.withState, Nat.not_lt.mpr he, htr]
  simp only [Button.step]
  rw [hev]
  simp only [Button.withState_getButtonAction, Button.getButtonAction_mono b hty]
  rfl

theorem Button.step_release_press_other (b : Button) (hty : b.type = ButtonType.MONO_STABLE) (t0 : Nat) (t : Tick)
    (hc : t.isPinChanged = true)
    (ha : b.activeLevel t.pinState = true)
    (he : ulongSub t.now t0 ≤ b.doubleclickInterval)
    (htr : t.pinState ≠ b.monoStableTrigger) :
    (b.withState ButtonState.BTN_STATE_1ST_RELEASE t0).step t
      = (b.withState ButtonState.BTN_STATE_2ND_PRESS t0, (BUTTON_PRESSED ||| BUTTON_CHANGED, ButtonAction.BUTTON_NO_ACTION)) := by
  have hev : (b.withState ButtonState.BTN_STATE_1ST_RELEASE t0).getEvent t.isPinChanged t.pinState t.now
      = (b.withState ButtonState.BTN_STATE_2ND_PRESS t0, BUTTON_PRESSED ||| BUTTON_CHANGED) := by
    simp only [Button.getEvent, Button.transition, Button.withState_activeLevel,
      Button.withState_hasDoubleClick, Button.withState_hasLongClick,
      Button.withState_eventState, Button.withState_startStateMillis,
      Button.withState_doubleclickInterval, Button.withState_longclickInterval,
      Button.withState_monoStableTrigger, Button.withState_type, hc, ha]
    simp [Button.withState, Nat.not_lt.mpr he, htr]
  simp only [Button.step]
  rw [hev]
  simp only [Button.withState_getButtonAction, Button.getButtonAction_mono b hty]
  rfl

theorem Button.step_second_held (b : Button) (hty : b.type = ButtonType.MONO_STABLE) (t0 : Nat) (t : Tick)
    (hc : t.isPinChanged = false)
    (ha : b.activeLevel t.pinState = true) :
    (b.withState ButtonState.BTN_STATE_2ND_PRESS t0).step t
      = (b.withState ButtonState.BTN_STATE_2ND_PRESS t0, (BUTTON_NO_EVENT, ButtonAction.BUTTON_NO_ACTION)) := by
  have hev : (b.withState ButtonState.BTN_STATE_2ND_PRESS t0).getEvent t.isPinChanged t.pinState t.now
      = (b.withState ButtonState.BTN_STATE_2ND_PRESS t0, BUTTON_NO_EVENT) := by
    simp only [Button.getEvent, Button.transition, Button.withState_activeLevel,
      Button.withState_hasDoubleClick, Button.withState_hasLongClick,
      Button.withState_eventState, Button.withState_startStateMillis,
      Button.withState_doubleclickInterval, Button.withState_longclickInterval,
      Button.withState_monoStableTrigger, Button.withState_type, hc, ha]
    simp [Button.withState]
  simp only [Button.step]
  rw [hev]
  simp only [Button.withState_getButtonAction, Button.getButtonAction_mono b hty]
  rfl

theorem Button.step_second_release (b : Button) (hty : b.type = ButtonType.MONO_STABLE) (t0 : Nat) (t : Tick)
    (hc : t.isPinChanged = true)
    (ha : b.activeLevel t.pinState = false) :
    (b.withState ButtonState.BTN_STATE_2ND_PRESS t0).step t
      = (b.withState ButtonState.BTN_STATE_INITIAL t0, (BUTTON_DOUBLE_CLICK ||| BUTTON_CHANGED, ButtonAction.BUTTON_DOUBLE_SHORT_CLICK)) := by
  have hev : (b.withState ButtonState.BTN_STATE_2ND_PRESS t0).getEvent t.isPinChanged t.pinState t.now
      = (b.withState ButtonState.BTN_STATE_INITIAL t0, BUTTON_DOUBLE_CLICK ||| BUTTON_CHANGED) := by
    simp only [Button.getEvent, Button.transition, Button.withState_activeLevel,
      Button.withState_hasDoubleClick, Button.withState_hasLongClick,
      Button.withState_eventState, Button.withState_startStateMillis,
      Button.withState_doubleclickInterval, Button.withState_longclickInterval,
      Button.withState_monoStableTrigger, Button.withState_type, hc, ha]
    simp [Button.withState]
  simp only [Button.step]
  rw [hev]
  simp only [Button.withState_getButtonAction, Button.getButtonAction_mono b hty]
  rfl

theorem Button.step_wait_held (b : Button) (hty : b.type = ButtonType.MONO_STABLE) (t0 : Nat) (t : Tick)
    (hc : t.isPinChanged = false)
    (ha : b.activeLevel t.pinState = true) :
    (b.withState ButtonState.BTN_STATE_RELEASE_WAIT t0).step t
      = (b.withState ButtonState.BTN_STATE_RELEASE_WAIT t0, (BUTTON_NO_EVENT, ButtonAction.BUTTON_NO_ACTION)) := by
  have hev : (b.withState ButtonState.BTN_STATE_RELEASE_WAIT t0).getEvent t.isPinChanged t.pinState t.now
      = (b.withState ButtonState.BTN_STATE_RELEASE_WAIT t0, BUTTON_NO_EVENT) := by
    simp only [Button.getEvent, Button.transition, Button.withState_activeLevel,
      Button.withState_hasDoubleClick, Button.withState_hasLongClick,
      Button.withState_eventState, Button.withState_startStateMillis,
      Button.withState_doubleclickInterval, Button.withState_longclickInterval,
      Button.withState_monoStableTrigger, Button.withState_type, hc, ha]
    simp [Button.withState]
  simp only [Button.step]
  rw [hev]
  simp only [Button.withState_getButtonAction, Button.getButtonAction_mono b hty]
  rfl

theorem Button.step_wait_release (b : Button) (hty : b.type = ButtonType.MONO_STABLE) (t0 : Nat) (t : Tick)
    (hc : t.isPinChanged = true)
    (ha : b.activeLevel t.pinState = false) :
    (b.withState ButtonState.BTN_STATE_RELEASE_WAIT t0).step t
      = (b.withState ButtonState.BTN_STATE_INITIAL t0, (BUTTON_NO_EVENT ||| BUTTON_CHANGED, ButtonAction.BUTTON_NO_ACTION)) := by
  have hev : (b.withState ButtonState.BTN_STATE_RELEASE_WAIT t0).getEvent t.isPinChanged t.pinState t.now
      = (b.withState ButtonState.BTN_STATE_INITIAL t0, BUTTON_NO_EVENT ||| BUTTON_CHANGED) := by
    simp only [Button.getEvent, Button.transition, Button.withState_activeLevel,
      Button.withState_hasDoubleClick, Button.withState_hasLongClick,
      Button.withState_eventState, Button.withState_startStateMillis,
      Button.withState_doubleclickInterval, Button.withState_longclickInterval,
      Button.withState_monoStableTrigger, Button.withState_type, hc, ha]
    simp [Button.withState]
  simp only [Button.step]
  rw [hev]
  simp only [Button.withState_getButtonAction, Button.getButtonAction_mono b hty]
  rfl

/-! ## The button recognizer: one press, one click -/

theorem Button.activeLevel_mono (b : Button) (hty : b.type = ButtonType.MONO_STABLE) (p : Nat) :
    b.activeLevel p = true ↔ p = boolToInt b.stateForPressed := by
  simp [Button.activeLevel, hty]

/-- After the press edge of a MONO_STABLE button without double-click and
long-click: held ticks, the release edge and idle ticks give exactly one
SINGLE_SHORT_CLICK and end in INITIAL. -/
theorem Button.click_after_press (b : Button) (hty : b.type = ButtonType.MONO_STABLE)
    (hd : b.hasDoubleClick = false) (hl : b.hasLongClick = false) (t0 : Nat)
    (hs : List Tick) (r : Tick) (is : List Tick)
    (hhs : ∀ t, t ∈ hs → b.isHeld t) (hr : b.isReleaseEdge r) (his : ∀ t, t ∈ is → b.isIdle t) :
    ((b.withState ButtonState.BTN_STATE_1ST_PRESS t0).actions (hs ++ r :: is)).count
        ButtonAction.BUTTON_SINGLE_SHORT_CLICK = 1 ∧
    ((b.withState ButtonState.BTN_STATE_1ST_PRESS t0).actions (hs ++ r :: is)).count
        ButtonAction.BUTTON_DOUBLE_SHORT_CLICK = 0 ∧
    ((b.withState ButtonState.BTN_STATE_1ST_PRESS t0).actions (hs ++ r :: is)).count
        ButtonAction.BUTTON_SINGLE_LONG_CLICK = 0 ∧
    (b.withState ButtonState.BTN_STATE_1ST_PRESS t0).after (hs ++ r :: is)
      = b.withState ButtonState.BTN_STATE_INITIAL t0 := by
  have hidle : ∀ t, t ∈ is → (b.withState ButtonState.BTN_STATE_INITIAL t0).step t
      = (b.withState ButtonState.BTN_STATE_INITIAL t0,
          (BUTTON_NO_EVENT, ButtonAction.BUTTON_NO_ACTION)) :=
    fun t ht => Button.step_initial_quiet b t0 t (his t ht).1
  by_cases htr : boolToInt b.stateForPressed = b.monoStableTrigger
  · cases hs with
    | nil =>
      have h1 := Button.step_press_release_click b hty t0 r hr.1 hr.2 hd
      simp only [List.nil_append, Button.actions_cons, Button.after_cons, h1,
        Button.actions_const _ _ is hidle, Button.after_const _ _ is hidle]
      simp [List.count_cons, List.count_replicate]
    | cons h hs =>
      have hh := hhs h (List.mem_cons_self _ _)
      have hpin : h.pinState = b.monoStableTrigger := by
        rw [← htr]; exact (Button.activeLevel_mono b hty _).mp hh.2
      have h1 := Button.step_press_held_trigger b hty t0 h hh.1 hh.2 hd hl hpin
      have hwait : ∀ t, t ∈ hs → (b.withState ButtonState.BTN_STATE_RELEASE_WAIT t0).step t
          = (b.withState ButtonState.BTN_STATE_RELEASE_WAIT t0,
              (BUTTON_NO_EVENT, ButtonAction.BUTTON_NO_ACTION)) :=
        fun t ht => Button.step_wait_held b hty t0 t
          (hhs t (List.mem_cons_of_mem _ ht)).1 (hhs t (List.mem_cons_of_mem _ ht)).2
      have h2 := Button.step_wait_release b hty t0 r hr.1 hr.2
      simp only [List.cons_append, Button.actions_cons, Button.after_cons, h1,
        Button.actions_append, Button.after_append, Button.actions_const _ _ hs hwait,
        Button.after_const _ _ hs hwait, h2, Button.actions_const _ _ is hidle,
        Button.after_const _ _ is hidle]
      simp [List.count_cons, List.count_replicate]
  · have hheld : ∀ t, t ∈ hs → (b.withState ButtonState.BTN_STATE_1ST_PRESS t0).step t
        = (b.withState ButtonState.BTN_STATE_1ST_PRESS t0,
            (BUTTON_PRESSED, ButtonAction.BUTTON_NO_ACTION)) := by
      intro t ht
      have hh := hhs t ht
      refine Button.step_press_held_other b hty t0 t hh.1 hh.2 hl ?_
      rw [(Button.activeLevel_mono b hty _).mp hh.2]
      exact htr
    have h1 := Button.step_press_release_click b hty t0 r hr.1 hr.2 hd
    simp only [Button.actions_cons, Button.after_cons, h1,
      Button.actions_append, Button.after_append, Button.actions_const _ _ hs hheld,
      Button.after_const _ _ hs hheld, Button.actions_const _ _ is hidle,
      Button.after_const _ _ is hidle]
    simp [List.count_cons, List.count_replicate]

/-- C20: for a MONO_STABLE button, not exposed and without long-click or
double-click target, at every pressed level and trigger level: a press edge
from INITIAL, any number of held ticks, a release edge and any number of idle
ticks, at any clock values, give exactly one tick with action
SINGLE_SHORT_CLICK, none with DOUBLE_SHORT_CLICK or SINGLE_LONG_CLICK, and
leave the recognizer in INITIAL. -/
theorem one_press_one_click (b : Button) (hty : b.type = ButtonType.MONO_STABLE)
    (hex : b.exposed = false) (hlong : b.longclickRelayNum = -1)
    (hdbl : b.doubleclickRelayNum = -1) (hst : b.eventState = ButtonState.BTN_STATE_INITIAL)
    (p : Tick) (hs : List Tick) (r : Tick) (is : List Tick)
    (hp : b.isPressEdge p) (hhs : ∀ t, t ∈ hs → b.isHeld t) (hr : b.isReleaseEdge r)
    (his : ∀ t, t ∈ is → b.isIdle t) :
    (b.actions (p :: hs ++ r :: is)).count ButtonAction.BUTTON_SINGLE_SHORT_CLICK = 1 ∧
    (b.actions (p :: hs ++ r :: is)).count ButtonAction.BUTTON_DOUBLE_SHORT_CLICK = 0 ∧
    (b.actions (p :: hs ++ r :: is)).count ButtonAction.BUTTON_SINGLE_LONG_CLICK = 0 ∧
    (b.after (p :: hs ++ r :: is)).eventState = ButtonState.BTN_STATE_INITIAL := by
  have hd : b.hasDoubleClick = false := by simp [Button.hasDoubleClick, hex, hdbl]
  have hl : b.hasLongClick = false := by simp [Button.hasLongClick, hex, hlong]
  have hb := Button.eq_withState b _ hst
  have h1 := Button.step_initial_edge b hty b.startStateMillis p hp.1
  rw [← hb] at h1
  obtain ⟨c1, c2, c3, c4⟩ := Button.click_after_press b hty hd hl p.now hs r is hhs hr his
  simp only [List.cons_append, Button.actions_cons, Button.after_cons, h1]
  refine ⟨?_, ?_, ?_, ?_⟩
  · rw [List.count_cons, c1]; rfl
  · rw [List.count_cons, c2]; rfl
  · rw [List.count_cons, c3]; rfl
  · rw [c4]; rfl

/-- C20, instance: scenario 1 with two held ticks and an idle tick. -/
theorem one_press_one_click_witness :
    (scenario1Button.actions
        (⟨true, 1, 0⟩ :: [⟨false, 1, 10⟩, ⟨false, 1, 20⟩] ++ ⟨true, 0, 50⟩ :: [⟨false, 0, 60⟩])).count
      ButtonAction.BUTTON_SINGLE_SHORT_CLICK = 1 ∧
    (scenario1Button.actions
        (⟨true, 1, 0⟩ :: [⟨false, 1, 10⟩, ⟨false, 1, 20⟩] ++ ⟨true, 0, 50⟩ :: [⟨false, 0, 60⟩])).count
      ButtonAction.BUTTON_DOUBLE_SHORT_CLICK = 0 ∧
    (scenario1Button.actions
        (⟨true, 1, 0⟩ :: [⟨false, 1, 10⟩, ⟨false, 1, 20⟩] ++ ⟨true, 0, 50⟩ :: [⟨false, 0, 60⟩])).count
      ButtonAction.BUTTON_SINGLE_LONG_CLICK = 0 ∧
    (scenario1Button.after
        (⟨true, 1, 0⟩ :: [⟨false, 1, 10⟩, ⟨false, 1, 20⟩] ++ ⟨true, 0, 50⟩ :: [⟨false, 0, 60⟩])).eventState
      = ButtonState.BTN_STATE_INITIAL :=
  one_press_one_click scenario1Button rfl rfl rfl rfl rfl ⟨true, 1, 0⟩
    [⟨false, 1, 10⟩, ⟨false, 1, 20⟩] ⟨true, 0, 50⟩ [⟨false, 0, 60⟩]
    (by decide) (by decide) (by decide) (by decide)

/-! ## The button recognizer: long press -/

/-- C15: scenario 3 for every MONO_STABLE button with `has_long` (exposed or
long-click target set) and every polarity.  After a press edge at `t0` from
INITIAL: the held ticks with `now - t0 <= longclick_interval` output PRESSED
only (no LONG_PRESS); the first held tick with `now - t0 > longclick_interval`
outputs LONG_PRESS|PRESSED and enters RELEASE_WAIT; every later held tick
outputs nothing and the release edge outputs CHANGED only, all with action
NO_ACTION, and the release returns the recognizer to INITIAL. -/
theorem long_press_scenario (b : Button) (hty : b.type = ButtonType.MONO_STABLE)
    (hlong : b.exposed = true ∨ b.longclickRelayNum ≠ -1)
    (hst : b.eventState = ButtonState.BTN_STATE_INITIAL)
    (p : Tick) (hs1 : List Tick) (h : Tick) (hs2 : List Tick) (r : Tick)
    (hp : b.isPressEdge p)
    (h1 : ∀ t, t ∈ hs1 → b.isHeld t ∧ ulongSub t.now p.now ≤ b.longclickInterval)
    (hh : b.isHeld h ∧ ulongSub h.now p.now > b.longclickInterval)
    (h2 : ∀ t, t ∈ hs2 → b.isHeld t) (hr : b.isReleaseEdge r) :
    b.events (p :: hs1 ++ h :: hs2 ++ [r])
      = (BUTTON_PRESSED ||| BUTTON_CHANGED) :: List.replicate hs1.length BUTTON_PRESSED
          ++ (BUTTON_LONG_PRESS ||| BUTTON_PRESSED) :: List.replicate hs2.length BUTTON_NO_EVENT
          ++ [BUTTON_NO_EVENT ||| BUTTON_CHANGED] ∧
    BUTTON_PRESSED &&& BUTTON_LONG_PRESS = 0 ∧
    (b.after (p :: hs1 ++ [h])).eventState = ButtonState.BTN_STATE_RELEASE_WAIT ∧
    (b.after (p :: hs1 ++ [h])).actions (hs2 ++ [r])
      = List.replicate (hs2.length + 1) ButtonAction.BUTTON_NO_ACTION ∧
    (b.after (p :: hs1 ++ h :: hs2 ++ [r])).eventState = ButtonState.BTN_STATE_INITIAL := by
  have hl : b.hasLongClick = true := by
    rcases hlong with h | h <;> simp [Button.hasLongClick, h]
  have hb := Button.eq_withState b _ hst
  have e0 := Button.step_initial_edge b hty b.startStateMillis p hp.1
  rw [← hb] at e0
  have e1 : ∀ t, t ∈ hs1 → (b.withState ButtonState.BTN_STATE_1ST_PRESS p.now).step t
      = (b.withState ButtonState.BTN_STATE_1ST_PRESS p.now,
          (BUTTON_PRESSED, ButtonAction.BUTTON_NO_ACTION)) :=
    fun t ht => Button.step_press_held_early b hty p.now t (h1 t ht).1.1 (h1 t ht).1.2
      (Or.inr hl) (h1 t ht).2
  have e2 := Button.step_press_held_long b hty p.now h hh.1.1 hh.1.2 hl hh.2
  have e3 : ∀ t, t ∈ hs2 → (b.withState ButtonState.BTN_STATE_RELEASE_WAIT p.now).step t
      = (b.withState ButtonState.BTN_STATE_RELEASE_WAIT p.now,
          (BUTTON_NO_EVENT, ButtonAction.BUTTON_NO_ACTION)) :=
    fun t ht => Button.step_wait_held b hty p.now t (h2 t ht).1 (h2 t ht).2
  have e4 := Button.step_wait_release b hty p.now r hr.1 hr.2
  have hafter : b.after (p :: hs1 ++ [h])
      = b.withState ButtonState.BTN_STATE_RELEASE_WAIT p.now := by
    simp only [List.cons_append, Button.after_cons, e0, Button.after_append,
      Button.after_const _ _ hs1 e1, e2]
    rfl
  refine ⟨?_, by decide, ?_, ?_, ?_⟩
  · simp only [List.cons_append, List.append_assoc, Button.events_cons, e0, Button.events_append,
      Button.after_append, Button.after_cons, Button.events_const _ _ hs1 e1,
      Button.after_const _ _ hs1 e1, e2, Button.events_const _ _ hs2 e3,
      Button.after_const _ _ hs2 e3, e4]
    simp [Button.events, Button.run]
  · rw [hafter]; rfl
  · rw [hafter]
    simp only [Button.actions_append, Button.actions_const _ _ hs2 e3,
      Button.after_const _ _ hs2 e3, Button.actions_cons, e4]
    simp [Button.actions, Button.run, List.replicate_succ']
  · have : p :: hs1 ++ h :: hs2 ++ [r] = (p :: hs1 ++ [h]) ++ (hs2 ++ [r]) := by simp
    rw [this, Button.after_append, hafter, Button.after_append, Button.after_const _ _ hs2 e3,
      Button.after_cons, e4]
    rfl

/-- C15, instance: pressed level 1, long-click target 2, press at 0, held
ticks at 400, 801 and 900, release at 1000. -/
theorem long_press_scenario_witness :
    (monoButton false true 0 2 (-1) 0).events
        (⟨true, 1, 0⟩ :: [⟨false, 1, 400⟩] ++ ⟨false, 1, 801⟩ :: [⟨false, 1, 900⟩]
          ++ [⟨true, 0, 1000⟩])
      = (BUTTON_PRESSED ||| BUTTON_CHANGED) :: List.replicate 1 BUTTON_PRESSED
          ++ (BUTTON_LONG_PRESS ||| BUTTON_PRESSED) :: List.replicate 1 BUTTON_NO_EVENT
          ++ [BUTTON_NO_EVENT ||| BUTTON_CHANGED] ∧
    ((monoButton false true 0 2 (-1) 0).after
        (⟨true, 1, 0⟩ :: [⟨false, 1, 400⟩] ++ ⟨false, 1, 801⟩ :: [⟨false, 1, 900⟩]
          ++ [⟨true, 0, 1000⟩])).eventState
      = ButtonState.BTN_STATE_INITIAL :=
  have h := long_press_scenario (monoButton false true 0 2 (-1) 0) rfl (by decide) rfl
    ⟨true, 1, 0⟩ [⟨false, 1, 400⟩] ⟨false, 1, 801⟩ [⟨false, 1, 900⟩] ⟨true, 0, 1000⟩
    (by decide) (by decide) (by decide) (by decide) (by decide)
  ⟨h.1, h.2.2.2.2⟩

/-! ## The button recognizer: BI_STABLE -/

/-- For a BI_STABLE button the action depends on the event bits only. -/
theorem Button.getButtonAction_bi (b : Button) (hty : b.type = ButtonType.BI_STABLE)
    (c : Bool) (ev : Nat) :
    b.getButtonAction c ev =
      if ev &&& BUTTON_CLICK ≠ 0 then ButtonAction.BUTTON_SINGLE_SHORT_CLICK
      else if ev &&& BUTTON_DOUBLE_CLICK ≠ 0 then ButtonAction.BUTTON_DOUBLE_SHORT_CLICK
      else if ev &&& BUTTON_LONG_PRESS ≠ 0 then ButtonAction.BUTTON_SINGLE_LONG_CLICK
      else ButtonAction.BUTTON_NO_ACTION := by
  simp [Button.getButtonAction, hty]

theorem Button.step_bi_first_edge (b : Button) (hty : b.type = ButtonType.BI_STABLE) (t0 : Nat)
    (t : Tick) (hc : t.isPinChanged = true) :
    (b.withState ButtonState.BTN_STATE_INITIAL t0).step t
      = (b.withState ButtonState.BTN_STATE_1ST_CHANGE_BI t.now,
          (BUTTON_NO_EVENT ||| BUTTON_CHANGED, ButtonAction.BUTTON_NO_ACTION)) := by
  have hev : (b.withState ButtonState.BTN_STATE_INITIAL t0).getEvent t.isPinChanged t.pinState t.now
      = (b.withState ButtonState.BTN_STATE_1ST_CHANGE_BI t.now,
          BUTTON_NO_EVENT ||| BUTTON_CHANGED) := by
    simp only [Button.getEvent, Button.transition, Button.withState_activeLevel,
      Button.withState_hasDoubleClick, Button.withState_hasLongClick,
      Button.withState_eventState, Button.withState_startStateMillis,
      Button.withState_doubleclickInterval, Button.withState_longclickInterval,
      Button.withState_monoStableTrigger, Button.withState_type, hc]
    simp [Button.withState, hty]
  simp only [Button.step]
  rw [hev]
  simp only [Button.withState_getButtonAction, Button.getButtonAction_bi b hty]
  rfl

theorem Button.step_bi_quiet (b : Button) (t0 : Nat) (t : Tick) (hc : t.isPinChanged = false)
    (hd : b.hasDoubleClick = true) (he : ulongSub t.now t0 ≤ b.doubleclickInterval) :
    (b.withState ButtonState.BTN_STATE_1ST_CHANGE_BI t0).step t
      = (b.withState ButtonState.BTN_STATE_1ST_CHANGE_BI t0,
          (BUTTON_NO_EVENT, ButtonAction.BUTTON_NO_ACTION)) := by
  have hev : (b.withState ButtonState.BTN_STATE_1ST_CHANGE_BI t0).getEvent t.isPinChanged
      t.pinState t.now
      = (b.withState ButtonState.BTN_STATE_1ST_CHANGE_BI t0, BUTTON_NO_EVENT) := by
    simp only [Button.getEvent, Button.transition, Button.withState_activeLevel,
      Button.withState_hasDoubleClick, Button.withState_hasLongClick,
      Button.withState_eventState, Button.withState_startStateMillis,
      Button.withState_doubleclickInterval, Button.withState_longclickInterval,
      Button.withState_monoStableTrigger, Button.withState_type, hc]
    simp [Button.withState, hd, Nat.not_lt.mpr he]
  simp only [Button.step]
  rw [hev]
  simp only [Button.withState_getButtonAction, hc, Button.getButtonAction_quiet b]
  rfl

theorem Button.step_bi_second_edge (b : Button) (hty : b.type = ButtonType.BI_STABLE) (t0 : Nat)
    (t : Tick) (hc : t.isPinChanged = true) (hd : b.hasDoubleClick = true)
    (he : ulongSub t.now t0 ≤ b.doubleclickInterval) :
    (b.withState ButtonState.BTN_STATE_1ST_CHANGE_BI t0).step t
      = (b.withState ButtonState.BTN_STATE_INITIAL t0,
          (BUTTON_DOUBLE_CLICK ||| BUTTON_CHANGED, ButtonAction.BUTTON_DOUBLE_SHORT_CLICK)) := by
  have hev : (b.withState ButtonState.BTN_STATE_1ST_CHANGE_BI t0).getEvent t.isPinChanged
      t.pinState t.now
      = (b.withState ButtonState.BTN_STATE_INITIAL t0, BUTTON_DOUBLE_CLICK ||| BUTTON_CHANGED) := by
    simp only [Button.getEvent, Button.transition, Button.withState_activeLevel,
      Button.withState_hasDoubleClick, Button.withState_hasLongClick,
      Button.withState_eventState, Button.withState_startStateMillis,
      Button.withState_doubleclickInterval, Button.withState_longclickInterval,
      Button.withState_monoStableTrigger, Button.withState_type, hc]
    simp [Button.withState, hd, Nat.not_lt.mpr he]
  simp only [Button.step]
  rw [hev]
  simp only [Button.withState_getButtonAction, Button.getButtonAction_bi b hty]
  rfl

theorem Button.step_bi_timeout (b : Button) (hty : b.type = ButtonType.BI_STABLE) (t0 : Nat)
    (t : Tick) (he : ulongSub t.now t0 > b.doubleclickInterval) :
    (b.withState ButtonState.BTN_STATE_1ST_CHANGE_BI t0).step t
      = (b.withState ButtonState.BTN_STATE_INITIAL t0,
          (if t.isPinChanged then BUTTON_CLICK ||| BUTTON_CHANGED else BUTTON_CLICK,
            ButtonAction.BUTTON_SINGLE_SHORT_CLICK)) := by
  have hev : (b.withState ButtonState.BTN_STATE_1ST_CHANGE_BI t0).getEvent t.isPinChanged
      t.pinState t.now
      = (b.withState ButtonState.BTN_STATE_INITIAL t0,
          if t.isPinChanged then BUTTON_CLICK ||| BUTTON_CHANGED else BUTTON_CLICK) := by
    simp only [Button.getEvent, Button.transition, Button.withState_activeLevel,
      Button.withState_hasDoubleClick, Button.withState_hasLongClick,
      Button.withState_eventState, Button.withState_startStateMillis,
      Button.withState_doubleclickInterval, Button.withState_longclickInterval,
      Button.withState_monoStableTrigger, Button.withState_type]
    simp [Button.withState, he]
  simp only [Button.step]
  rw [hev]
  simp only [Button.withState_getButtonAction, Button.getButtonAction_bi b hty]
  cases t.isPinChanged <;> rfl

/-- C16: scenarios 4 and 5 for every BI_STABLE button with `has_double`.  The
first edge at `t0` from INITIAL outputs CHANGED only; the following ticks
without change and with `now - t0 <= doubleclick_interval` output nothing;
then either a second edge with `now - t0 <= doubleclick_interval` outputs
DOUBLE_CLICK (with CHANGED, without CLICK) and returns to INITIAL, or the first
tick with `now - t0 > doubleclick_interval` outputs CLICK (with CHANGED if it
is an edge) and returns to INITIAL. -/
theorem bistable_click_or_double (b : Button) (hty : b.type = ButtonType.BI_STABLE)
    (hdc : b.exposed = true ∨ b.doubleclickRelayNum ≠ -1)
    (hst : b.eventState = ButtonState.BTN_STATE_INITIAL)
    (e0 : Tick) (qs : List Tick) (x : Tick) (he0 : e0.isPinChanged = true)
    (hqs : ∀ t, t ∈ qs → t.isPinChanged = false ∧ ulongSub t.now e0.now ≤ b.doubleclickInterval) :
    b.events (e0 :: qs) = (BUTTON_NO_EVENT ||| BUTTON_CHANGED) :: List.replicate qs.length BUTTON_NO_EVENT ∧
    BUTTON_NO_EVENT ||| BUTTON_CHANGED = BUTTON_CHANGED ∧
    (b.after (e0 :: qs)).eventState = ButtonState.BTN_STATE_1ST_CHANGE_BI ∧
    (x.isPinChanged = true → ulongSub x.now e0.now ≤ b.doubleclickInterval →
      (b.after (e0 :: qs)).step x
        = (b.withState ButtonState.BTN_STATE_INITIAL e0.now,
            (BUTTON_DOUBLE_CLICK ||| BUTTON_CHANGED, ButtonAction.BUTTON_DOUBLE_SHORT_CLICK))
      ∧ (BUTTON_DOUBLE_CLICK ||| BUTTON_CHANGED) &&& BUTTON_CLICK = 0) ∧
    (ulongSub x.now e0.now > b.doubleclickInterval →
      (b.after (e0 :: qs)).step x
        = (b.withState ButtonState.BTN_STATE_INITIAL e0.now,
            (if x.isPinChanged then BUTTON_CLICK ||| BUTTON_CHANGED else BUTTON_CLICK,
              ButtonAction.BUTTON_SINGLE_SHORT_CLICK))) := by
  have hd : b.hasDoubleClick = true := by
    rcases hdc with h | h <;> simp [Button.hasDoubleClick, h]
  have hb := Button.eq_withState b _ hst
  have s0 := Button.step_bi_first_edge b hty b.startStateMillis e0 he0
  rw [← hb] at s0
  have s1 : ∀ t, t ∈ qs → (b.withState ButtonState.BTN_STATE_1ST_CHANGE_BI e0.now).step t
      = (b.withState ButtonState.BTN_STATE_1ST_CHANGE_BI e0.now,
          (BUTTON_NO_EVENT, ButtonAction.BUTTON_NO_ACTION)) :=
    fun t ht => Button.step_bi_quiet b e0.now t (hqs t ht).1 hd (hqs t ht).2
  have hafter : b.after (e0 :: qs) = b.withState ButtonState.BTN_STATE_1ST_CHANGE_BI e0.now := by
    simp only [Button.after_cons, s0, Button.after_const _ _ qs s1]
  refine ⟨?_, by decide, ?_, ?_, ?_⟩
  · simp only [Button.events_cons, s0, Button.events_const _ _ qs s1]
  · rw [hafter]; rfl
  · intro hx hex
    rw [hafter]
    exact ⟨Button.step_bi_second_edge b hty e0.now x hx hd hex, by decide⟩
  · intro hex
    rw [hafter]
    exact Button.step_bi_timeout b hty e0.now x hex

/-- C16, instance: scenario 5 (edges at 0 and 200) and scenario 4 (edge at 0,
next tick at 351), with a quiet tick at 100 in both. -/
theorem bistable_click_or_double_witness :
    ((biButton false true 0 (-1) 1).after [⟨true, 1, 0⟩, ⟨false, 1, 100⟩]).step ⟨true, 0, 200⟩
      = ((biButton false true 0 (-1) 1).withState ButtonState.BTN_STATE_INITIAL 0,
          (BUTTON_DOUBLE_CLICK ||| BUTTON_CHANGED, ButtonAction.BUTTON_DOUBLE_SHORT_CLICK)) ∧
    ((biButton false true 0 (-1) 1).after [⟨true, 1, 0⟩, ⟨false, 1, 100⟩]).step ⟨false, 1, 351⟩
      = ((biButton false true 0 (-1) 1).withState ButtonState.BTN_STATE_INITIAL 0,
          (BUTTON_CLICK, ButtonAction.BUTTON_SINGLE_SHORT_CLICK)) :=
  ⟨((bistable_click_or_double (biButton false true 0 (-1) 1) rfl (by decide) rfl
      ⟨true, 1, 0⟩ [⟨false, 1, 100⟩] ⟨true, 0, 200⟩ rfl (by decide)).2.2.2.1 rfl (by decide)).1,
    (bistable_click_or_double (biButton false true 0 (-1) 1) rfl (by decide) rfl
      ⟨true, 1, 0⟩ [⟨false, 1, 100⟩] ⟨false, 1, 351⟩ rfl (by decide)).2.2.2.2 (by decide)⟩

/-! ## The button recognizer: double click -/

/-- C14: for every MONO_STABLE button with `has_double`, every pressed level
and trigger level, and `doubleclick_interval <= longclick_interval`: a press
edge from INITIAL at `t0`, held ticks, a release edge, idle ticks, a second
press edge, held ticks, a release edge and idle ticks, where the held and idle
ticks before the second press edge and that edge itself have
`now - t0 <= doubleclick_interval`, give exactly one tick with action
DOUBLE_SHORT_CLICK, none with SINGLE_SHORT_CLICK, and leave the recognizer in
INITIAL. -/
theorem double_click_once (b : Button) (hty : b.type = ButtonType.MONO_STABLE)
    (hdc : b.exposed = true ∨ b.doubleclickRelayNum ≠ -1)
    (hint : b.doubleclickInterval ≤ b.longclickInterval)
    (hst : b.eventState = ButtonState.BTN_STATE_INITIAL)
    (p1 : Tick) (hs1 : List Tick) (r1 : Tick) (is1 : List Tick)
    (p2 : Tick) (hs2 : List Tick) (r2 : Tick) (is2 : List Tick)
    (hp1 : b.isPressEdge p1)
    (hhs1 : ∀ t, t ∈ hs1 → b.isHeld t ∧ ulongSub t.now p1.now ≤ b.doubleclickInterval)
    (hr1 : b.isReleaseEdge r1)
    (his1 : ∀ t, t ∈ is1 → b.isIdle t ∧ ulongSub t.now p1.now ≤ b.doubleclickInterval)
    (hp2 : b.isPressEdge p2 ∧ ulongSub p2.now p1.now ≤ b.doubleclickInterval)
    (hhs2 : ∀ t, t ∈ hs2 → b.isHeld t) (hr2 : b.isReleaseEdge r2)
    (his2 : ∀ t, t ∈ is2 → b.isIdle t) :
    (b.actions (p1 :: hs1 ++ r1 :: is1 ++ p2 :: hs2 ++ r2 :: is2)).count
        ButtonAction.BUTTON_DOUBLE_SHORT_CLICK = 1 ∧
    (b.actions (p1 :: hs1 ++ r1 :: is1 ++ p2 :: hs2 ++ r2 :: is2)).count
        ButtonAction.BUTTON_SINGLE_SHORT_CLICK = 0 ∧
    (b.after (p1 :: hs1 ++ r1 :: is1 ++ p2 :: hs2 ++ r2 :: is2)).eventState
      = ButtonState.BTN_STATE_INITIAL := by
  have hd : b.hasDoubleClick = true := by
    rcases hdc with h | h <;> simp [Button.hasDoubleClick, h]
  have hb := Button.eq_withState b _ hst
  have e0 := Button.step_initial_edge b hty b.startStateMillis p1 hp1.1
  rw [← hb] at e0
  have e1 : ∀ t, t ∈ hs1 → (b.withState ButtonState.BTN_STATE_1ST_PRESS p1.now).step t
      = (b.withState ButtonState.BTN_STATE_1ST_PRESS p1.now,
          (BUTTON_PRESSED, ButtonAction.BUTTON_NO_ACTION)) :=
    fun t ht => Button.step_press_held_early b hty p1.now t (hhs1 t ht).1.1 (hhs1 t ht).1.2
      (Or.inl hd) (Nat.le_trans (hhs1 t ht).2 hint)
  have e2 := Button.step_press_release_wait b hty p1.now r1 hr1.1 hr1.2 hd
  have e3 : ∀ t, t ∈ is1 → (b.withState ButtonState.BTN_STATE_1ST_RELEASE p1.now).step t
      = (b.withState ButtonState.BTN_STATE_1ST_RELEASE p1.now,
          (BUTTON_NO_EVENT, ButtonAction.BUTTON_NO_ACTION)) :=
    fun t ht => Button.step_release_idle b hty p1.now t (his1 t ht).1.1 (his1 t ht).1.2
      (his1 t ht).2
  have e7 : ∀ t, t ∈ is2 → (b.withState ButtonState.BTN_STATE_INITIAL p1.now).step t
      = (b.withState ButtonState.BTN_STATE_INITIAL p1.now,
          (BUTTON_NO_EVENT, ButtonAction.BUTTON_NO_ACTION)) :=
    fun t ht => Button.step_initial_quiet b p1.now t (his2 t ht).1
  by_cases htr : p2.pinState = b.monoStableTrigger
  · have e4 := Button.step_release_press_trigger b hty p1.now p2 hp2.1.1 hp2.1.2 hp2.2 htr
    have e5 : ∀ t, t ∈ hs2 → (b.withState ButtonState.BTN_STATE_RELEASE_WAIT p1.now).step t
        = (b.withState ButtonState.BTN_STATE_RELEASE_WAIT p1.now,
            (BUTTON_NO_EVENT, ButtonAction.BUTTON_NO_ACTION)) :=
      fun t ht => Button.step_wait_held b hty p1.now t (hhs2 t ht).1 (hhs2 t ht).2
    have e6 := Button.step_wait_release b hty p1.now r2 hr2.1 hr2.2
    simp only [List.cons_append, Button.actions_cons, Button.after_cons, Button.actions_append,
      Button.after_append, e0, Button.actions_const _ _ hs1 e1, Button.after_const _ _ hs1 e1,
      e2, Button.actions_const _ _ is1 e3, Button.after_const _ _ is1 e3, e4,
      Button.actions_const _ _ hs2 e5, Button.after_const _ _ hs2 e5, e6,
      Button.actions_const _ _ is2 e7, Button.after_const _ _ is2 e7]
    simp [List.count_cons, List.count_replicate, Button.withState]
  · have e4 := Button.step_release_press_other b hty p1.now p2 hp2.1.1 hp2.1.2 hp2.2 htr
    have e5 : ∀ t, t ∈ hs2 → (b.withState ButtonState.BTN_STATE_2ND_PRESS p1.now).step t
        = (b.withState ButtonState.BTN_STATE_2ND_PRESS p1.now,
            (BUTTON_NO_EVENT, ButtonAction.BUTTON_NO_ACTION)) :=
      fun t ht => Button.step_second_held b hty p1.now t (hhs2 t ht).1 (hhs2 t ht).2
    have e6 := Button.step_second_release b hty p1.now r2 hr2.1 hr2.2
    simp only [List.cons_append, Button.actions_cons, Button.after_cons, Button.actions_append,
      Button.after_append, e0, Button.actions_const _ _ hs1 e1, Button.after_const _ _ hs1 e1,
      e2, Button.actions_const _ _ is1 e3, Button.after_const _ _ is1 e3, e4,
      Button.actions_const _ _ hs2 e5, Button.after_const _ _ hs2 e5, e6,
      Button.actions_const _ _ is2 e7, Button.after_const _ _ is2 e7]
    simp [List.count_cons, List.count_replicate, Button.withState]

/-- C14, instance: the sequence of scenario 2, edges at 0, 100, 200 and 250. -/
theorem double_click_once_witness :
    (scenario2Button.actions scenario2Ticks).count ButtonAction.BUTTON_DOUBLE_SHORT_CLICK = 1 ∧
    (scenario2Button.actions scenario2Ticks).count ButtonAction.BUTTON_SINGLE_SHORT_CLICK = 0 ∧
    (scenario2Button.after scenario2Ticks).eventState = ButtonState.BTN_STATE_INITIAL :=
  double_click_once scenario2Button rfl (by decide) (by decide) rfl
    ⟨true, 1, 0⟩ [] ⟨true, 0, 100⟩ [] ⟨true, 1, 200⟩ [] ⟨true, 0, 250⟩ []
    (by decide) (by decide) (by decide) (by decide) (by decide) (by decide) (by decide)
    (by decide)

/-! ## The button recognizer: return to INITIAL -/

theorem idleRank_eq_zero (st : ButtonState) (h : idleRank st = 0) :
    st = ButtonState.BTN_STATE_INITIAL := by
  cases st <;> simp [idleRank] at h ⊢

theorem idleRank_le_two (st : ButtonState) : idleRank st ≤ 2 := by
  cases st <;> simp [idleRank]

/-- One idle tick: configuration and start time stay, the recognizer is at
most one further idle tick away from INITIAL, and a tick past the double-click
window brings it one step closer. -/
theorem Button.idle_step (b : Button) (t : Tick) (hi : b.isIdle t) :
    ∃ st, (b.step t).1 = b.withState st b.startStateMillis ∧
      idleRank st ≤ 1 ∧ idleRank st ≤ idleRank b.eventState ∧
      (b.isLate b.startStateMillis t = true → idleRank st ≤ idleRank b.eventState - 1) := by
  obtain ⟨hc, ha⟩ := hi
  cases hst : b.eventState
  · refine ⟨ButtonState.BTN_STATE_INITIAL, ?_, by simp [idleRank], by simp [idleRank],
      fun _ => by simp [idleRank]⟩
    simp [Button.step, Button.getEvent, Button.transition, hst, hc]
    exact Button.eq_withState b _ hst
  · by_cases hx : (!b.hasDoubleClick
        || decide (ulongSub t.now b.startStateMillis > b.doubleclickInterval)) = true
    · refine ⟨ButtonState.BTN_STATE_INITIAL, ?_, by simp [idleRank], by simp [idleRank],
        fun _ => by simp [idleRank]⟩
      simp only [Button.step, Button.getEvent, Button.transition, hst, hc, if_pos hx]
      rfl
    · refine ⟨ButtonState.BTN_STATE_1ST_CHANGE_BI, ?_, by simp [idleRank], by simp [idleRank],
        fun hl => ?_⟩
      · simp only [Button.step, Button.getEvent, Button.transition, hst, hc, if_neg hx]
        simp only [Bool.false_eq_true, if_false]
        exact Button.eq_withState b _ hst
      · exfalso
        apply hx
        simp only [Button.isLate] at hl
        simp [hl]
  · by_cases hd : b.hasDoubleClick = true
    · refine ⟨ButtonState.BTN_STATE_1ST_RELEASE, ?_, by simp [idleRank], by simp [idleRank],
        fun _ => by simp [idleRank]⟩
      simp [Button.step, Button.getEvent, Button.transition, hst, hc, ha, hd]
      rfl
    · refine ⟨ButtonState.BTN_STATE_INITIAL, ?_, by simp [idleRank], by simp [idleRank],
        fun _ => by simp [idleRank]⟩
      simp [Button.step, Button.getEvent, Button.transition, hst, hc, ha, hd]
      rfl
  · by_cases hx : ulongSub t.now b.startStateMillis > b.doubleclickInterval
    · refine ⟨ButtonState.BTN_STATE_INITIAL, ?_, by simp [idleRank], by simp [idleRank],
        fun _ => by simp [idleRank]⟩
      simp only [Button.step, Button.getEvent, Button.transition, hst, hc, if_pos hx]
      rfl
    · refine ⟨ButtonState.BTN_STATE_1ST_RELEASE, ?_, by simp [idleRank], by simp [idleRank],
        fun hl => ?_⟩
      · simp only [Button.step, Button.getEvent, Button.transition, hst, hc, if_neg hx, ha]
        simp only [Bool.false_eq_true, if_false]
        exact Button.eq_withState b _ hst
      · exfalso
        apply hx
        simpa [Button.isLate] using hl
  · refine ⟨ButtonState.BTN_STATE_INITIAL, ?_, by simp [idleRank], by simp [idleRank],
      fun _ => by simp [idleRank]⟩
    simp [Button.step, Button.getEvent, Button.transition, hst, hc, ha]
    rfl
  · refine ⟨ButtonState.BTN_STATE_INITIAL, ?_, by simp [idleRank], by simp [idleRank],
      fun _ => by simp [idleRank]⟩
    simp [Button.step, Button.getEvent, Button.transition, hst, hc, ha]
    rfl

/-- A run of idle ticks: configuration and start time stay, and every tick
past the double-click window brings the recognizer one step closer to
INITIAL; after the first idle tick it is at most one step away. -/
theorem Button.idle_run (l : List Tick) :
    ∀ b : Button, (∀ t, t ∈ l → b.isIdle t) →
      ∃ st, b.after l = b.withState st b.startStateMillis ∧
        idleRank st ≤ idleRank b.eventState - l.countP (b.isLate b.startStateMillis) ∧
        (l ≠ [] → idleRank st ≤ 1) := by
  induction l with
  | nil =>
    intro b _
    exact ⟨b.eventState, rfl, by simp, fun h => absurd rfl h⟩
  | cons t l ih =>
    intro b hidle
    obtain ⟨st1, h1, r1, r2, r3⟩ := Button.idle_step b t (hidle t (List.mem_cons_self _ _))
    obtain ⟨st2, h2, q1, q2⟩ := ih (b.withState st1 b.startStateMillis)
      (fun u hu => hidle u (List.mem_cons_of_mem _ hu))
    refine ⟨st2, ?_, ?_, fun _ => ?_⟩
    · rw [Button.after_cons, h1, h2]
      rfl
    · have hq : idleRank st2
          ≤ idleRank st1 - l.countP (b.isLate b.startStateMillis) := q1
      rw [List.countP_cons]
      by_cases hl : b.isLate b.startStateMillis t = true
      · have := r3 hl
        rw [if_pos hl]
        omega
      · rw [if_neg hl]
        omega
    · have hq : idleRank st2
          ≤ idleRank st1 - l.countP (b.isLate b.startStateMillis) := q1
      omega

/-- One tick at a clock value up to `T`: the configuration stays, and the
recognizer is in INITIAL or its start time is at most `T`. -/
theorem Button.step_start_bound (b : Button) (t : Tick) (T : Nat) (ht : t.now ≤ T)
    (h : b.eventState = ButtonState.BTN_STATE_INITIAL ∨ b.startStateMillis ≤ T) :
    ∃ st s0, (b.step t).1 = b.withState st s0 ∧
      (st = ButtonState.BTN_STATE_INITIAL ∨ s0 ≤ T) := by
  cases hst : b.eventState
  · by_cases hc : t.isPinChanged = true
    · by_cases hty : b.type = ButtonType.BI_STABLE
      · refine ⟨ButtonState.BTN_STATE_1ST_CHANGE_BI, t.now, ?_, Or.inr ht⟩
        simp only [Button.step, Button.getEvent, Button.transition, hst, hc, if_true]
        rw [if_pos hty]
        rfl
      · refine ⟨ButtonState.BTN_STATE_1ST_PRESS, t.now, ?_, Or.inr ht⟩
        simp only [Button.step, Button.getEvent, Button.transition, hst, hc, if_true]
        rw [if_neg hty]
        rfl
    · refine ⟨ButtonState.BTN_STATE_INITIAL, b.startStateMillis, ?_, Or.inl rfl⟩
      simp [Button.step, Button.getEvent, Button.transition, hst, hc]
      exact Button.eq_withState b _ hst
  all_goals
    have hs : b.startStateMillis ≤ T := by
      rcases h with h | h
      · rw [hst] at h; exact absurd h (by decide)
      · exact h
    have hshape : ∃ st, (b.transition t.isPinChanged t.pinState t.now).1
        = b.withState st b.startStateMillis := by
      simp only [Button.transition, hst]
      split_ifs <;> exact ⟨_, rfl⟩
    obtain ⟨st, hst2⟩ := hshape
    exact ⟨st, b.startStateMillis, hst2, Or.inr hs⟩

theorem Button.run_start_bound (T : Nat) (pre : List Tick) :
    ∀ b : Button, (∀ t, t ∈ pre → t.now ≤ T) →
      (b.eventState = ButtonState.BTN_STATE_INITIAL ∨ b.startStateMillis ≤ T) →
      ∃ st s0, b.after pre = b.withState st s0 ∧
        (st = ButtonState.BTN_STATE_INITIAL ∨ s0 ≤ T) := by
  induction pre with
  | nil =>
    intro b _ h
    exact ⟨b.eventState, b.startStateMillis, rfl, h⟩
  | cons t pre ih =>
    intro b hT h
    obtain ⟨st1, s1, h1, hb1⟩ := Button.step_start_bound b t T (hT t (List.mem_cons_self _ _)) h
    obtain ⟨st2, s2, h2, hb2⟩ := ih (b.withState st1 s1)
      (fun u hu => hT u (List.mem_cons_of_mem _ hu)) hb1
    refine ⟨st2, s2, ?_, hb2⟩
    rw [Button.after_cons, h1, h2]
    rfl

theorem ulongSub_of_le (a b : Nat) (hba : b ≤ a) (ha : a < ULONG_MOD) : ulongSub a b = a - b := by
  unfold ulongSub
  have hb : b < ULONG_MOD := Nat.lt_of_le_of_lt hba ha
  rw [Nat.mod_eq_of_lt ha, Nat.mod_eq_of_lt hb]
  have : a + ULONG_MOD - b = (a - b) + ULONG_MOD := by omega
  rw [this, Nat.add_mod_right, Nat.mod_eq_of_lt (by omega)]

/-- A run never touches the configuration of the button. -/
theorem Button.after_shape (pre : List Tick) :
    ∀ b : Button, ∃ st s0, b.after pre = b.withState st s0 := by
  induction pre with
  | nil => intro b; exact ⟨b.eventState, b.startStateMillis, rfl⟩
  | cons t pre ih =>
    intro b
    have hshape : ∃ p : ButtonState × Nat,
        (b.transition t.isPinChanged t.pinState t.now).1 = b.withState p.1 p.2 := by
      unfold Button.transition
      split <;> split_ifs <;> exact ⟨(_, _), rfl⟩
    obtain ⟨q, hq⟩ := hshape
    obtain ⟨st2, s2, h2⟩ := ih (b.withState q.1 q.2)
    refine ⟨st2, s2, ?_⟩
    have hstep : (b.step t).1 = b.withState q.1 q.2 := hq
    rw [Button.after_cons, hstep, h2]
    rfl

/-- C17: recognizer round-trip.  For every button configuration and every
input sequence `pre` applied from INITIAL, with `t0` the start time recorded
after `pre`: a run of idle ticks (no change, inactive level) at least two of
which have `now - t0 > doubleclick_interval` ends in INITIAL, however many
idle ticks follow; hence, when the clock values of `pre` are at most `T` and
the clock has not wrapped, the recognizer is in INITIAL after every idle tick
later than `T + longclick_interval + doubleclick_interval` that is not the
first idle tick. -/
theorem recognizer_round_trip (b : Button) (hst : b.eventState = ButtonState.BTN_STATE_INITIAL)
    (pre : List Tick) :
    (∀ l : List Tick, (∀ t, t ∈ l → b.isIdle t) →
      2 ≤ l.countP (b.isLate (b.after pre).startStateMillis) →
      ((b.after pre).after l).eventState = ButtonState.BTN_STATE_INITIAL) ∧
    (∀ (T : Nat) (l1 : List Tick) (i : Tick), (∀ t, t ∈ pre → t.now ≤ T) → l1 ≠ [] →
      (∀ t, t ∈ l1 → b.isIdle t) → b.isIdle i →
      T + b.longclickInterval + b.doubleclickInterval < i.now → i.now < ULONG_MOD →
      ((b.after pre).after (l1 ++ [i])).eventState = ButtonState.BTN_STATE_INITIAL) := by
  constructor
  · intro l hidle hcount
    obtain ⟨st1, s1, h1⟩ := Button.after_shape pre b
    rw [h1] at hcount ⊢
    obtain ⟨st2, h2, hr, _⟩ := Button.idle_run l (b.withState st1 s1) hidle
    rw [h2]
    have hle := idleRank_le_two st1
    have hc2 : 2 ≤ l.countP ((b.withState st1 s1).isLate (b.withState st1 s1).startStateMillis) :=
      hcount
    have hr2 : idleRank st2 ≤ idleRank st1
        - l.countP ((b.withState st1 s1).isLate (b.withState st1 s1).startStateMillis) := hr
    exact idleRank_eq_zero st2 (by omega)
  · intro T l1 i hT hne hidle1 hidlei hlate hwrap
    obtain ⟨st1, s1, h1, hb1⟩ := Button.run_start_bound T pre b hT (Or.inl hst)
    rw [h1, Button.after_append]
    obtain ⟨st2, h2, hr2, hr2'⟩ := Button.idle_run l1 (b.withState st1 s1) hidle1
    rw [h2]
    obtain ⟨st3, h3, _, hr3, hr3'⟩ := Button.idle_step (b.withState st2 s1) i hidlei
    have hafter : ((b.withState st1 s1).withState st2 (b.withState st1 s1).startStateMillis).after [i]
        = b.withState st3 s1 := by
      rw [Button.after_cons]
      exact h3
    rw [hafter]
    have hone : idleRank st2 ≤ 1 := hr2' hne
    have hst2 : idleRank st2 ≤ idleRank st1 := by
      have : idleRank st2 ≤ idleRank st1
          - l1.countP ((b.withState st1 s1).isLate (b.withState st1 s1).startStateMillis) := hr2
      omega
    have hst3 : idleRank st3 ≤ idleRank st2 := hr3
    rcases hb1 with hb1 | hb1
    · rw [hb1] at hst2
      have h0 : idleRank ButtonState.BTN_STATE_INITIAL = 0 := rfl
      rw [h0] at hst2
      exact idleRank_eq_zero st3 (by omega)
    · have hl : (b.withState st2 s1).isLate (b.withState st2 s1).startStateMillis i = true := by
        show decide (ulongSub i.now s1 > b.doubleclickInterval) = true
        rw [ulongSub_of_le i.now s1 (by omega) hwrap]
        simp only [gt_iff_lt, decide_eq_true_eq]
        omega
      have := hr3' hl
      have hq : idleRank st3 ≤ idleRank st2 - 1 := this
      exact idleRank_eq_zero st3 (by omega)

/-- C17, instance: the button of scenario 2, pressed at 0 and left in
1ST_PRESS; two idle ticks at 400 and 500 bring it to INITIAL, and so do an
early idle tick at 10 and a late one at 1200. -/
theorem recognizer_round_trip_witness :
    ((scenario2Button.after [⟨true, 1, 0⟩]).after [⟨false, 0, 400⟩, ⟨false, 0, 500⟩]).eventState
      = ButtonState.BTN_STATE_INITIAL ∧
    ((scenario2Button.after [⟨true, 1, 0⟩]).after ([⟨false, 0, 10⟩] ++ [⟨false, 0, 1200⟩])).eventState
      = ButtonState.BTN_STATE_INITIAL :=
  ⟨(recognizer_round_trip scenario2Button rfl [⟨true, 1, 0⟩]).1
      [⟨false, 0, 400⟩, ⟨false, 0, 500⟩] (by decide) (by decide),
    (recognizer_round_trip scenario2Button rfl [⟨true, 1, 0⟩]).2 0
      [⟨false, 0, 10⟩] ⟨false, 0, 1200⟩ (by decide) (List.cons_ne_nil _ _) (by decide)
      (by decide) (by decide) (by decide)⟩

/-! ## Idempotence of `changeState` -/

theorem setAt_self {α : Type} (a : Nat → α) (i : Nat) : setAt a i (a i) = a := by
  funext j
  by_cases h : j = i
  · rw [h, setAt_same]
  · rw [setAt_other _ _ _ _ h]

/-- The body of `changeState` on a relay that already has the requested
state: nothing is written and `false` is returned. -/
theorem changeStateCore_noop (K : RelayConsts) (s : RelayService) (i : Nat) (v : Bool)
    (now : Nat) (h : s.relays i = v) : changeStateCore K s i v now = (s, false) := by
  subst h
  simp [changeStateCore, Relay_changeState, setAt_self]

/-- Switching on a relay whose whole master chain is already on, with
`any_dependent_on` already set if the relay has a master: the call returns
`false` and the state is the same. -/
theorem changeStateFuel_noop (K : RelayConsts) (now : Nat) :
    ∀ (fuel : Nat) (s : RelayService) (i : Nat),
      chainEnds s.relayDependsOn s.numberOfRelays fuel i = true →
      (∀ f j, j ∈ masterChain s.relayDependsOn f i → s.relays j = true) →
      (s.relayDependsOn i ≠ -1 → s.isAnyDependentOn = true) →
      changeStateFuel K fuel s i true now = some (s, false) := by
  intro fuel
  induction fuel with
  | zero => intro s i h; simp [chainEnds] at h
  | succ fuel ih =>
    intro s i h hchain hflag
    simp only [chainEnds, Bool.and_eq_true, Bool.or_eq_true, decide_eq_true_eq] at h
    have hon : s.relays i = true := hchain 1 i (by simp [masterChain])
    by_cases hd : s.relayDependsOn i = -1
    · simp [changeStateFuel, hd, changeStateCore_noop K s i true now hon]
    · rcases h.2 with h2 | h2
      · exact absurd h2 hd
      · have hrec := ih s (s.relayDependsOn i).toNat h2.2
          (fun f j hj => hchain (f + 1) j (by simp [masterChain, hd, hj]))
          (fun _ => hflag hd)
        have hsame : { s with isAnyDependentOn := true } = s := by
          have := hflag hd
          cases s
          simp_all
        simp [changeStateFuel, hd, hrec, hsame, changeStateCore_noop K s i true now hon]

/-- C19: `changeState` is idempotent.  In an acyclic configuration, for a
valid index `i` and every `v`, the call `changeState(i, v)` returns, and a
second call `changeState(i, v)` right after it, at any clock value, returns
`false` and leaves the whole coordinator state as it is. -/
theorem changeState_idempotent (K : RelayConsts) (s : RelayService) (i : Nat) (v : Bool)
    (now now2 : Nat) (hac : Acyclic s) (hi : i < s.numberOfRelays) :
    ∃ s1 b, s.changeState K i v now = some (s1, b) ∧
      s1.changeState K i v now2 = some (s1, false) := by
  cases v with
  | false =>
    refine ⟨(changeStateCore K s i false now).1, (changeStateCore K s i false now).2,
      changeState_off K s i now, ?_⟩
    rw [changeState_off]
    have hoff : (changeStateCore K s i false now).1.relays i = false := by
      rw [changeStateCore_relays, setAt_same]
    rw [changeStateCore_noop K _ i false now2 hoff]
  | true =>
    obtain ⟨s1, b, hrun, hn, hdep, hchain, hflag⟩ :=
      changeStateFuel_on K now s.numberOfRelays 1 s i (hac i hi)
    refine ⟨s1, b, hrun, ?_⟩
    unfold RelayService.changeState
    apply changeStateFuel_noop K now2 (s1.numberOfRelays + 1) s1 i
    · rw [hn, hdep]
      exact chainEnds_succ _ _ _ _ (hac i hi)
    · rw [hdep]; exact hchain
    · rw [hdep]; exact hflag

/-- C19, instance: scenario 6, `changeState(A, true)` at clock value 7 and
again at 9. -/
theorem changeState_idempotent_witness :
    Acyclic scenario6 ∧ 0 < scenario6.numberOfRelays ∧
    (scenario6.changeState exampleConsts 0 true 7).map (fun p => p.2) = some true ∧
    ∃ s1 b, scenario6.changeState exampleConsts 0 true 7 = some (s1, b) ∧
      s1.changeState exampleConsts 0 true 9 = some (s1, false) :=
  ⟨by decide, by decide, by decide,
    changeState_idempotent exampleConsts scenario6 0 true 7 9 (by decide) (by decide)⟩

/-! ## One pass of `turnOffDependent` -/

theorem allMasterTurnedOff_iff (s : RelayService) (i : Nat) :
    allMasterTurnedOff s i = true ↔
      ∀ m, m < s.numberOfRelays → m ≠ i → s.relayDependsOn m = (i : Int) → s.relays m = false := by
  simp only [allMasterTurnedOff, Bool.not_eq_true', List.any_eq_false, List.mem_range,
    Bool.and_eq_true, decide_eq_true_eq, not_and, Bool.not_eq_true]
  constructor
  · intro h m hm hne hd; exact h m hm ⟨hne, hd⟩
  · intro h m hm hnd; exact h m hm hnd.1 hnd.2

theorem allMasterTurnedOff_false_iff (s : RelayService) (i : Nat) :
    allMasterTurnedOff s i = false ↔
      ∃ m, m < s.numberOfRelays ∧ m ≠ i ∧ s.relayDependsOn m = (i : Int) ∧ s.relays m = true := by
  rw [← Bool.not_eq_true, allMasterTurnedOff_iff]
  push_neg
  constructor
  · rintro ⟨m, h1, h2, h3, h4⟩
    exact ⟨m, h1, h2, h3, by simpa using h4⟩
  · rintro ⟨m, h1, h2, h3, h4⟩
    exact ⟨m, h1, h2, h3, by simp [h4]⟩

theorem turnOffLoop_some (K : RelayConsts) (now : Nat) (t : RelayService) (k : Nat) :
    turnOffLoop K now (some t) k =
      if (t.isRelayDependent k && t.relays k) = true then
        if allMasterTurnedOff t k = true then some (changeStateCore K t k false now).1
        else some { t with isAnyDependentOn := true }
      else some t := by
  simp only [turnOffLoop, changeState_off]

/-- The outer loop of `turnOffDependent` after `k` rounds, for a pass entered
with `any_dependent_on` true: which relays have been switched off, and when
the flag is set again. -/
theorem teardownPrefix_spec (K : RelayConsts) (now : Nat) (s : RelayService) :
    ∀ k, ∃ t, teardownPrefix K now s k = some t ∧
      t.numberOfRelays = s.numberOfRelays ∧ t.relayDependsOn = s.relayDependsOn ∧
      t.isRelayDependent = s.isRelayDependent ∧
      (∀ j, k ≤ j → t.relays j = s.relays j) ∧
      (∀ j, t.relays j = true → s.relays j = true) ∧
      (∀ i, i < k → s.relays i = true → t.relays i = false →
        s.isRelayDependent i = true ∧
          ∃ u, teardownPrefix K now s i = some u ∧ allMasterTurnedOff u i = true) ∧
      (t.isAnyDependentOn = true ↔
        ∃ i, i < k ∧ s.isRelayDependent i = true ∧ t.relays i = true ∧
          ∃ u, teardownPrefix K now s i = some u ∧ allMasterTurnedOff u i = false) := by
  intro k
  induction k with
  | zero =>
    refine ⟨{ s with isAnyDependentOn := false }, rfl, rfl, rfl, rfl, fun _ _ => rfl,
      fun _ h => h, fun i hi => absurd hi (Nat.not_lt_zero i), ?_⟩
    constructor
    · intro h; simp at h
    · rintro ⟨i, hi, _⟩; exact absurd hi (Nat.not_lt_zero i)
  | succ k ih =>
    obtain ⟨t, hpre, hn, hdep, hrd, hrest, hmono, hoff, hflag⟩ := ih
    have hstep : teardownPrefix K now s (k + 1) = turnOffLoop K now (some t) k := by
      unfold teardownPrefix at hpre ⊢
      rw [List.range_succ, List.foldl_append, hpre]
      rfl
    rw [hstep, turnOffLoop_some]
    have hk : t.relays k = s.relays k := hrest k (Nat.le_refl k)
    by_cases h1 : (t.isRelayDependent k && t.relays k) = true
    · rw [if_pos h1]
      simp only [Bool.and_eq_true] at h1
      by_cases h2 : allMasterTurnedOff t k = true
      · rw [if_pos h2]
        obtain ⟨c1, c2, c3, _, _, c6, _, _⟩ := changeStateCore_static K t k false now
        have crel := changeStateCore_relays K t k false now
        refine ⟨_, rfl, c1.trans hn, c2.trans hdep, c3.trans hrd, ?_, ?_, ?_, ?_⟩
        · intro j hj
          rw [crel, setAt_other _ _ _ _ (by omega)]
          exact hrest j (by omega)
        · intro j hj
          rw [crel] at hj
          by_cases hjk : j = k
          · rw [hjk, setAt_same] at hj; exact absurd hj (by simp)
          · rw [setAt_other _ _ _ _ hjk] at hj; exact hmono j hj
        · intro i hi hon hnow
          by_cases hik : i = k
          · subst hik
            exact ⟨by rw [← hrd]; exact h1.1, t, hpre, h2⟩
          · rw [crel, setAt_other _ _ _ _ hik] at hnow
            exact hoff i (by omega) hon hnow
        · rw [c6, hflag]
          constructor
          · rintro ⟨i, hi, hd, hr, hu⟩
            refine ⟨i, by omega, hd, ?_, hu⟩
            rw [crel, setAt_other _ _ _ _ (by omega)]
            exact hr
          · rintro ⟨i, hi, hd, hr, u, hu, hall⟩
            by_cases hik : i = k
            · subst hik
              rw [hpre] at hu
              simp only [Option.some.injEq] at hu
              rw [← hu, h2] at hall
              exact absurd hall (by simp)
            · rw [crel, setAt_other _ _ _ _ hik] at hr
              exact ⟨i, by omega, hd, hr, u, hu, hall⟩
      · rw [if_neg h2]
        refine ⟨_, rfl, hn, hdep, hrd, fun j hj => hrest j (by omega), hmono, ?_, ?_⟩
        · intro i hi hon hnow
          by_cases hik : i = k
          · subst hik
            have : t.relays i = true := h1.2
            have hnow' : t.relays i = false := hnow
            rw [this] at hnow'
            exact absurd hnow' (by simp)
          · exact hoff i (by omega) hon hnow
        · constructor
          · intro _
            refine ⟨k, by omega, by rw [← hrd]; exact h1.1, h1.2, t, hpre, ?_⟩
            simpa using h2
          · intro _; rfl
    · rw [if_neg h1]
      refine ⟨t, rfl, hn, hdep, hrd, fun j hj => hrest j (by omega), hmono, ?_, ?_⟩
      · intro i hi hon hnow
        by_cases hik : i = k
        · subst hik
          rw [hk, hon] at hnow
          exact absurd hnow (by simp)
        · exact hoff i (by omega) hon hnow
      · rw [hflag]
        constructor
        · rintro ⟨i, hi, rest⟩
          exact ⟨i, by omega, rest⟩
        · rintro ⟨i, hi, hd, hr, hu⟩
          by_cases hik : i = k
          · subst hik
            rw [← hrd] at hd
            simp [hd, hr] at h1
          · exact ⟨i, by omega, hd, hr, hu⟩

/-- C18: one pass of `turnOffDependent`.  Entered with `any_dependent_on`
false it changes nothing and returns `false`.  Entered with the flag true it
returns; no relay is switched on; a relay `i` is switched off only if
`is_dependent_target[i]`, it was on, and in the state `u` reached when its turn
came no other relay `m` with `depends_on[m] = i` was on; the result is `true`
if and only if some dependent-target relay is left on because, when its turn
came, a relay depending on it was on; and a pass that returns `false` leaves
every dependent-target relay off. -/
theorem turnOffDependent_one_pass (K : RelayConsts) (s : RelayService) (now : Nat) :
    (s.isAnyDependentOn = false → s.turnOffDependent K now = some (s, false)) ∧
    (s.isAnyDependentOn = true →
      ∃ s1 b, s.turnOffDependent K now = some (s1, b) ∧
        (∀ j, s1.relays j = true → s.relays j = true) ∧
        (∀ i, i < s.numberOfRelays → s.relays i = true → s1.relays i = false →
          s.isRelayDependent i = true ∧
            ∃ u, teardownPrefix K now s i = some u ∧
              ∀ m, m < s.numberOfRelays → m ≠ i → s.relayDependsOn m = (i : Int) →
                u.relays m = false) ∧
        (b = true ↔
          ∃ i, i < s.numberOfRelays ∧ s.isRelayDependent i = true ∧ s1.relays i = true ∧
            ∃ u, teardownPrefix K now s i = some u ∧
              ∃ m, m < s.numberOfRelays ∧ m ≠ i ∧ s.relayDependsOn m = (i : Int) ∧
                u.relays m = true) ∧
        (b = false →
          ∀ i, i < s.numberOfRelays → s.isRelayDependent i = true → s1.relays i = false)) := by
  constructor
  · intro hf
    simp only [RelayService.turnOffDependent, hf, Bool.false_eq_true, if_false]
  · intro hf
    obtain ⟨t, hpre, hn, hdep, hrd, _, hmono, hoff, hflag⟩ :=
      teardownPrefix_spec K now s s.numberOfRelays
    have hrun : s.turnOffDependent K now = some (t, t.isAnyDependentOn) := by
      unfold teardownPrefix at hpre
      simp only [RelayService.turnOffDependent, hf, if_true, hpre]
    have hprefix : ∀ i, i < s.numberOfRelays → ∀ u, teardownPrefix K now s i = some u →
        u.numberOfRelays = s.numberOfRelays ∧ u.relayDependsOn = s.relayDependsOn := by
      intro i _ u hu
      obtain ⟨u', hu', h1, h2, _⟩ := teardownPrefix_spec K now s i
      rw [hu] at hu'
      simp only [Option.some.injEq] at hu'
      rw [hu']
      exact ⟨h1, h2⟩
    refine ⟨t, t.isAnyDependentOn, hrun, hmono, ?_, ?_, ?_⟩
    · intro i hi hon hnow
      obtain ⟨hd, u, hu, hall⟩ := hoff i hi hon hnow
      obtain ⟨un, ud⟩ := hprefix i hi u hu
      refine ⟨hd, u, hu, ?_⟩
      have := (allMasterTurnedOff_iff u i).mp hall
      rw [un, ud] at this
      exact this
    · rw [hflag]
      constructor
      · rintro ⟨i, hi, hd, hr, u, hu, hall⟩
        obtain ⟨un, ud⟩ := hprefix i hi u hu
        have := (allMasterTurnedOff_false_iff u i).mp hall
        rw [un, ud] at this
        exact ⟨i, hi, hd, hr, u, hu, this⟩
      · rintro ⟨i, hi, hd, hr, u, hu, hex⟩
        obtain ⟨un, ud⟩ := hprefix i hi u hu
        refine ⟨i, hi, hd, hr, u, hu, (allMasterTurnedOff_false_iff u i).mpr ?_⟩
        rw [un, ud]
        exact hex
    · intro hb i hi hd
      obtain ⟨t', ht', _, _, hinv⟩ := turnOffDependent_pass K s now hf
      rw [hrun] at ht'
      simp only [Option.some.injEq, Prod.mk.injEq] at ht'
      rw [← ht'.1] at hinv
      exact hinv hb i (by rw [hn]; exact hi) (by rw [hrd]; exact hd)

/-- C18, instance: scenario 6 after boot (flag false, nothing happens) and
after the impulse of relay A is over (flag true, no relay is switched on). -/
theorem turnOffDependent_one_pass_witness :
    scenario6.turnOffDependent exampleConsts 5 = some (scenario6, false) ∧
    ∃ s1 b, (scenario6Expired 7 300).turnOffDependent exampleConsts 300 = some (s1, b) ∧
      (∀ j, s1.relays j = true → (scenario6Expired 7 300).relays j = true) :=
  ⟨(turnOffDependent_one_pass exampleConsts scenario6 5).1 (by decide),
    match (turnOffDependent_one_pass exampleConsts (scenario6Expired 7 300) 300).2 (by decide) with
    | ⟨s1, b, h, hm, _⟩ => ⟨s1, b, h, hm⟩⟩

/-! ## Configuration errors -/

theorem find_range_none (p : Nat → Bool) (n : Nat) (h : ∀ j, j < n → p j = false) :
    (List.range n).find? p = none := by
  rw [List.find?_eq_none]
  intro j hj
  rw [List.mem_range] at hj
  simp [h j hj]

theorem find_range_first (p : Nat → Bool) (k : Nat) (hp : p k = true)
    (hfirst : ∀ j, j < k → p j = false) :
    ∀ n, k < n → (List.range n).find? p = some k := by
  intro n
  induction n with
  | zero => intro h; exact absurd h (Nat.not_lt_zero k)
  | succ n ih =>
    intro hk
    rw [List.range_succ, List.find?_append]
    by_cases hkn : k < n
    · rw [ih hkn]; rfl
    · have hkeq : k = n := by omega
      subst hkeq
      rw [find_range_none p k hfirst]
      simp [List.find?, hp]

/-- C11 (amended): `initialize` validates nothing and always completes.  For a
relay `r`: a `depends_on` that equals its own sensor id, or is negative, or
matches no relay's sensor id, is resolved to -1 (no master); a non-negative
`depends_on` that differs from its own sensor id and matches is resolved to
the index of the first relay with that sensor id, whether or not this closes
a cycle.  The four cases cover every configuration. -/
theorem init_resolves_masters (K : RelayConsts) (n : Nat) (cfg : Nat → RelayConfigDef)
    (mem : Nat → Nat) (reset : Bool) (r : Nat) (hr : r < n) :
    ((cfg r).sensorId = (cfg r).dependsOn →
      ((RelayService.construct n cfg mem).init K reset).relayDependsOn r = -1) ∧
    ((cfg r).dependsOn < 0 →
      ((RelayService.construct n cfg mem).init K reset).relayDependsOn r = -1) ∧
    ((∀ k, k < n → (cfg k).sensorId ≠ (cfg r).dependsOn) →
      ((RelayService.construct n cfg mem).init K reset).relayDependsOn r = -1) ∧
    (∀ k, k < n → (cfg r).sensorId ≠ (cfg r).dependsOn → 0 ≤ (cfg r).dependsOn →
      (cfg k).sensorId = (cfg r).dependsOn →
      (∀ j, j < k → (cfg j).sensorId ≠ (cfg r).dependsOn) →
      ((RelayService.construct n cfg mem).init K reset).relayDependsOn r = (k : Int)) ∧
    ((cfg r).sensorId = (cfg r).dependsOn ∨ (cfg r).dependsOn < 0 ∨
      (∀ k, k < n → (cfg k).sensorId ≠ (cfg r).dependsOn) ∨
      ∃ k, k < n ∧ (cfg r).sensorId ≠ (cfg r).dependsOn ∧ 0 ≤ (cfg r).dependsOn ∧
        (cfg k).sensorId = (cfg r).dependsOn ∧
        ∀ j, j < k → (cfg j).sensorId ≠ (cfg r).dependsOn) := by
  obtain ⟨_, htab, _⟩ := init_spec K n cfg mem reset
  rw [(htab r hr).2.1]
  refine ⟨?_, ?_, ?_, ?_, ?_⟩
  · intro h
    simp [resolvedMaster, h]
  · intro hneg
    have hng : ¬ (cfg r).dependsOn > -1 := by omega
    simp only [resolvedMaster, getRelayNum, hng, if_false]
    split_ifs <;> rfl
  · intro hnone
    simp only [resolvedMaster, getRelayNum]
    split_ifs
    · rw [find_range_none _ n (fun j hj => by simpa using hnone j hj)]
    · rfl
    · rfl
  · intro k hk hne hpos hmatch hfirst
    have hgt : (cfg r).dependsOn > -1 := by omega
    simp only [resolvedMaster, hne, ne_eq, not_false_eq_true, if_true, getRelayNum, hgt]
    rw [find_range_first _ k (by simpa using hmatch) (fun j hj => by simpa using hfirst j hj) n hk]
  · by_cases heq : (cfg r).sensorId = (cfg r).dependsOn
    · exact Or.inl heq
    · by_cases hneg : (cfg r).dependsOn < 0
      · exact Or.inr (Or.inl hneg)
      · by_cases hex : ∃ k, k < n ∧ (cfg k).sensorId = (cfg r).dependsOn
        · right; right; right
          classical
          refine ⟨Nat.find hex, (Nat.find_spec hex).1, heq, by omega, (Nat.find_spec hex).2, ?_⟩
          intro j hj hjm
          exact Nat.find_min hex hj ⟨Nat.lt_trans hj (Nat.find_spec hex).1, hjm⟩
        · right; right; left
          intro k hk hm
          exact hex ⟨k, hk, hm⟩

/-- C11 (amended), instance: the cyclic configuration; relay 0 gets relay 1
as its master and relay 1 gets relay 0.  The relay that depends on the absent
sensor 7 gets no master, and so does the relay whose negative `depends_on`
is the sensor id of another relay. -/
theorem init_resolves_masters_witness :
    cyclicBoot.relayDependsOn 0 = ((1 : Nat) : Int) ∧
    cyclicBoot.relayDependsOn 1 = ((0 : Nat) : Int) ∧
    unresolvedBoot.relayDependsOn 0 = -1 ∧
    ((RelayService.construct 2 negativeIdConfig (fun _ => 0)).init exampleConsts false).relayDependsOn 0
      = -1 :=
  ⟨(init_resolves_masters exampleConsts 2 cyclicConfig (fun _ => 0) false 0 (by decide)).2.2.2.1
      1 (by decide) (by decide) (by decide) (by decide) (by decide),
    (init_resolves_masters exampleConsts 2 cyclicConfig (fun _ => 0) false 1 (by decide)).2.2.2.1
      0 (by decide) (by decide) (by decide) (by decide) (by decide),
    (init_resolves_masters exampleConsts 1 unresolvedConfig (fun _ => 0) false 0 (by decide)).2.2.1
      (by decide),
    (init_resolves_masters exampleConsts 2 negativeIdConfig (fun _ => 0) false 0 (by decide)).2.1
      (by decide)⟩

/-- On the cyclic configuration the recursion of `changeState(i, true)` never
ends: no amount of fuel gives a result. -/
theorem cyclicBoot_diverges (now : Nat) :
    ∀ fuel, changeStateFuel exampleConsts fuel cyclicBoot 0 true now = none ∧
      changeStateFuel exampleConsts fuel cyclicBoot 1 true now = none := by
  have h0 : cyclicBoot.relayDependsOn 0 = 1 := by decide
  have h1 : cyclicBoot.relayDependsOn 1 = 0 := by decide
  intro fuel
  induction fuel with
  | zero => exact ⟨rfl, rfl⟩
  | succ fuel ih =>
    constructor
    · simp only [changeStateFuel, h0]
      have : (1 : Int).toNat = 1 := rfl
      rw [this, ih.2]
      rfl
    · simp only [changeStateFuel, h1]
      have : (0 : Int).toNat = 0 := rfl
      rw [this, ih.1]
      rfl

/-- C11 as stated fails: `initialize` completes on a configuration with an
unresolved master and on a cyclic one and leaves a coordinator state behind.
The unresolved master is taken as "no master" and `changeState` works on that
state; the cycle is stored as it is, and `changeState(0, true)` on it does not
return. -/
theorem init_reports_no_error_counterexample :
    unresolvedConfig 0 = { sensorId := 1, relayOptions := 0, dependsOn := 7 } ∧
    unresolvedBoot.relayDependsOn 0 = -1 ∧
    (unresolvedBoot.changeState exampleConsts 0 true 5).map (fun p => (p.2, p.1.relays 0))
      = some (true, true) ∧
    (List.range 2).map cyclicBoot.relayDependsOn = [1, 0] ∧
    ¬ Acyclic cyclicBoot ∧
    (∀ fuel now, changeStateFuel exampleConsts fuel cyclicBoot 0 true now = none) ∧
    cyclicBoot.changeState exampleConsts 0 true 5 = none :=
  ⟨rfl, by decide, by decide, by decide, by decide,
    fun fuel now => (cyclicBoot_diverges now fuel).1, (cyclicBoot_diverges 5 _).1⟩

end lkankowski
